import Mathlib

/-! # TenderAvi: versioned store and quorum decision engine

A shallow embedding of the repositories and services of the tender/bid
back end (`internal/repository/...`, `internal/service/...`) and of the
handlers of `internal/api/...` that the properties below are about.

Conventions of the embedding

* `uuid.UUID` and `time.Time` values are natural numbers; only equality is
  ever used on them.  The zero value `uuid.Nil` is 0.
* The PostgreSQL database is the record `DB` of its tables, each table a list
  of rows in insertion order.  `QueryRow(..).Scan` is `List.find?` (first
  match, `sql.ErrNoRows` when there is none); `UPDATE .. WHERE id = $n`
  rewrites every matching row; `INSERT` appends.  The constraints declared by
  `createTable` (primary keys, `UNIQUE`, `VARCHAR(n)`, enum types,
  `REFERENCES`) are checked by the statement that writes the row.
* Every database round trip can also fail for reasons that are not in the
  data (lost connection, ...).  An operation therefore takes a list
  `faults : List Bool`: its k-th round trip fails when the k-th entry is
  `true`; a missing entry means no failure, so `[]` is a healthy connection.
* A transaction works on a copy of the database.  `tx.Rollback()` discards the
  copy, a successful `tx.Commit()` makes it the database.  Operations run one
  after another (no interleaving).
* An operation returns `Except Err r × DB`: the Go result and the database
  after the call.  Where Go returns a value together with a non-nil error,
  only the error is kept (every caller tests the error first); a run-time
  panic is the error `panicIndex`.  Go `int32` arithmetic wraps (`wrap32`).
-/

namespace TenderAvi

/-! ## Values -/

abbrev UUID := Nat

abbrev Time := Nat

/-- Go `int32` result of an integer expression: reduced into the signed 32-bit range. -/
def wrap32 (x : Int) : Int := (x + 2147483648) % 4294967296 - 2147483648

/-- The Go `error` values that occur in the repositories and services. -/
inductive Err where
  /-- the `sql.ErrNoRows` of `database/sql` -/
  | sqlErrNoRows
  /-- a round trip that failed outside the data (the fault list said so) -/
  | sqlDriver
  /-- a statement rejected by a constraint of the table definition -/
  | sqlConstraint
  /-- a statement the server cannot parse (text that is no number after `LIMIT`) -/
  | sqlSyntax
  /-- run-time panic: index out of range -/
  | panicIndex
  /-- the `ErrorUserNorFound` of `service/tender` -/
  | tenderErrorUserNorFound
  /-- the `ErrorUserIsNotOrgResponsible` of `service/tender` -/
  | tenderErrorUserIsNotOrgResponsible
  /-- the `ErrorTenderNorFound` of `service/tender` -/
  | tenderErrorTenderNorFound
  /-- the `ErrorUserNotFound` of `service/bid` -/
  | bidErrorUserNotFound
  /-- the `ErrorUserIsNotOrgResponsible` of `service/bid` -/
  | bidErrorUserIsNotOrgResponsible
  /-- the `ErrorTenderNotFound` of `service/bid` -/
  | bidErrorTenderNotFound
  /-- the `ErrorOrgNotFound` of `service/bid` -/
  | bidErrorOrgNotFound
  /-- the `ErrorBidNotFound` of `service/bid` -/
  | bidErrorBidNotFound
  /-- an `errors.New(msg)` made at the point of return -/
  | new (msg : String)
deriving DecidableEq, Repr

/-! ## model -/

/-- The `model.Tender` struct. `ServiceType` and `Status` are Go string types. -/
structure Tender where
  Id : UUID
  Name : String
  Description : String
  ServiceType : String
  Status : String
  OrganizationId : UUID
  Version : Int
  CreatedAt : Time
deriving DecidableEq, Repr

/-- The `model.Bid` struct. `Status` and `AuthorType` are Go string types. -/
structure Bid where
  Id : UUID
  Name : String
  Description : String
  Status : String
  TenderId : UUID
  AuthorType : String
  AuthorId : UUID
  Version : Int
  CreatedAt : Time
deriving DecidableEq, Repr

/-- The `model.Review` struct. -/
structure Review where
  Id : UUID
  Description : String
  CreatedAt : Time
deriving DecidableEq, Repr

/-- The `model.Organization` struct (time stamps left out: never read). -/
structure Organization where
  Id : UUID
  Name : String
  Description : String
  OrganizationType : String
deriving DecidableEq, Repr

/-- The `model.User` struct (time stamps left out: never read). -/
structure User where
  Id : UUID
  Username : String
  FirstName : String
  LastName : String
deriving DecidableEq, Repr

def TenderStatusCreated : String := "Created"

def TenderStatusPublished : String := "Published"

def TenderStatusClosed : String := "Closed"

def TenderServiceTypeConstruction : String := "Construction"

def TenderServiceTypeDelivery : String := "Delivery"

def TenderServiceTypeManufacture : String := "Manufacture"

def CreatedBidStatus : String := "Created"

def PublishedBidStatus : String := "Published"

def CanceledBidStatus : String := "Canceled"

def UserBidAuthorType : String := "User"

def OrgBidAuthorType : String := "Organization"

/-! ## Tables -/

/-- A row of table `tender`: the columns of `model.Tender` and `user_id`. -/
structure TenderRow extends Tender where
  user_id : UUID
deriving DecidableEq, Repr

/-- A row of table `bid`: the columns of `model.Bid` and the two decision counters. -/
structure BidRow extends Bid where
  rejects : Int
  approves : Int
deriving DecidableEq, Repr

/-- A row of table `review`. -/
structure ReviewRow extends Review where
  bid_id : UUID
deriving DecidableEq, Repr

/-- A row of table `organization_responsible` (the two columns the queries use). -/
structure OrgResponsible where
  organization_id : UUID
  user_id : UUID
deriving DecidableEq, Repr

/-- The database: one list of rows per table, in insertion order. -/
structure DB where
  tender : List TenderRow
  tender_history : List Tender
  bid : List BidRow
  bid_history : List Bid
  review : List ReviewRow
  employee : List User
  organization : List Organization
  organization_responsible : List OrgResponsible
deriving DecidableEq, Repr

/-- Does the next round trip fail?  The head of the fault list, `false` when the list is empty. -/
def fault (faults : List Bool) : Bool := faults.headD false

/-- The enum `tender_status` of `TenderRepo.createTable`. -/
def tender_status : List String := ["Created", "Published", "Closed"]

/-- The enum `tender_service_type` of `TenderRepo.createTable`. -/
def tender_service_type : List String := ["Construction", "Delivery", "Manufacture"]

/-- The enum `bid_status` of `BidRepo.createTable`. -/
def bid_status : List String := ["Created", "Published", "Canceled"]

/-- The enum `bid_author_type` of `BidRepo.createTable`. -/
def bid_author_type : List String := ["User", "Organization"]

/-! ## Statements on `tender` and `tender_history` -/

/-- `SELECT .. FROM tender WHERE id = $1` read with `QueryRow(..).Scan`. -/
def tender_select (db : DB) (id : UUID) : Option TenderRow :=
  db.tender.find? (fun r => r.Id == id)

/-- `SELECT .. FROM tender_history WHERE id = $1 AND version = $2` read with `QueryRow(..).Scan`. -/
def tender_history_select (db : DB) (id : UUID) (version : Int) : Option Tender :=
  db.tender_history.find? (fun h => h.Id == id && h.Version == version)

/-- Column constraints shared by `tender` and `tender_history`:
`VARCHAR(100)`, `VARCHAR(500)` and the two enum types. -/
def tender_columns_ok (name description service_type status : String) : Bool :=
  decide (name.length ≤ 100) && decide (description.length ≤ 500) &&
    tender_service_type.contains service_type && tender_status.contains status

/-- `INSERT INTO tender_history (id, name, .., version, created_at) VALUES (..)`,
with `PRIMARY KEY (id, version)`. -/
def tender_history_insert (db : DB) (t : Tender) : Except Err DB :=
  if !(tender_columns_ok t.Name t.Description t.ServiceType t.Status) then .error .sqlConstraint
  else if db.tender_history.any (fun h => h.Id == t.Id && h.Version == t.Version) then
    .error .sqlConstraint
  else .ok { db with tender_history := db.tender_history ++ [t] }

/-- `UPDATE tender SET name = $1, description = $2, service_type = $3, status = $4,
organization_id = $5, version = $6 WHERE id = $7`.  The enum parameters are
checked when the statement is bound; the row constraints (`VARCHAR`,
`UNIQUE` name, `REFERENCES organization`) when a row is rewritten. -/
def tender_update (db : DB) (name description service_type status : String)
    (organization_id : UUID) (version : Int) (id : UUID) : Except Err DB :=
  if !(tender_service_type.contains service_type && tender_status.contains status) then
    .error .sqlConstraint
  else if !(db.tender.any (fun r => r.Id == id)) then .ok db
  else if !(decide (name.length ≤ 100) && decide (description.length ≤ 500)) then
    .error .sqlConstraint
  else if !(db.tender.all (fun r => r.Id == id || r.Name != name)) then .error .sqlConstraint
  else if !(db.tender.all (fun r => r.Id != id || r.OrganizationId == organization_id ||
      db.organization.any (fun o => o.Id == organization_id))) then .error .sqlConstraint
  else .ok { db with tender := db.tender.map (fun r =>
      if r.Id == id then
        { r with Name := name, Description := description, ServiceType := service_type,
                 Status := status, OrganizationId := organization_id, Version := version }
      else r) }

/-- `INSERT INTO tender (name, description, service_type, organization_id, user_id)
VALUES (..) RETURNING id, status, version, created_at`: `id` defaults to
`gen_random_uuid()`, `status` to `Created`, `version` to 1 and `created_at`
to `CURRENT_TIMESTAMP`; the two generated values are arguments here. -/
def tender_insert (db : DB) (gen_random_uuid : UUID) (current_timestamp : Time)
    (name description service_type : String) (organization_id user_id : UUID) :
    Except Err DB :=
  if !(tender_columns_ok name description service_type "Created") then .error .sqlConstraint
  else if db.tender.any (fun r => r.Id == gen_random_uuid) then .error .sqlConstraint
  else if db.tender.any (fun r => r.Name == name) then .error .sqlConstraint
  else if !(db.employee.any (fun u => u.Id == user_id)) then .error .sqlConstraint
  else if !(db.organization.any (fun o => o.Id == organization_id)) then .error .sqlConstraint
  else .ok { db with tender := db.tender ++
      [{ Id := gen_random_uuid, Name := name, Description := description,
         ServiceType := service_type, Status := "Created",
         OrganizationId := organization_id, Version := 1,
         CreatedAt := current_timestamp, user_id := user_id }] }

/-- `UPDATE tender SET status = 'Closed' WHERE id = $1`. -/
def tender_close (db : DB) (id : UUID) : DB :=
  { db with tender := db.tender.map (fun r =>
      if r.Id == id then { r with Status := "Closed" } else r) }

/-! ## repository/tender -/

/-- `TenderRepo.CreateTender` (one round trip).  -/
def TenderRepo.CreateTender (faults : List Bool) (db : DB) (gen_random_uuid : UUID)
    (current_timestamp : Time) (name description serviceType : String)
    (organizarionId userId : UUID) : Except Err Tender × DB :=
  if fault faults then (.error .sqlDriver, db) else
  match tender_insert db gen_random_uuid current_timestamp name description serviceType
      organizarionId userId with
  | .error err => (.error err, db)
  | .ok db1 =>
    (.ok { Id := gen_random_uuid, Name := name, Description := description,
           ServiceType := serviceType, Status := "Created",
           OrganizationId := organizarionId, Version := 1,
           CreatedAt := current_timestamp }, db1)

/-- `TenderRepo.GetTenderById` (one round trip). -/
def TenderRepo.GetTenderById (faults : List Bool) (db : DB) (id : UUID) : Except Err Tender :=
  if fault faults then .error .sqlDriver else
  match tender_select db id with
  | none => .error .sqlErrNoRows
  | some r => .ok r.toTender

/-- `TenderRepo.UpdateTender`: round trips `Begin`, select, insert into the
history, update, `Commit`.  The new version is computed from the argument
(`tenderUpd.Version += 1`), the archived row is the one read in the
transaction, and the result of `Commit` is returned. -/
def TenderRepo.UpdateTender (faults : List Bool) (db : DB) (tenderUpd : Tender) :
    Except Err Tender × DB :=
  -- tx, err := repo.db.Begin()
  if fault faults then (.error .sqlDriver, db) else
  -- tx.QueryRow(selectOldQuery, tenderUpd.Id).Scan(&tenderOld...)
  if fault (faults.drop 1) then (.error .sqlDriver, db) else
  match tender_select db tenderUpd.Id with
  | none => (.error .sqlErrNoRows, db)
  | some tenderOld =>
    -- tx.Exec(createHistoryQuery, &tenderOld...)
    if fault (faults.drop 2) then (.error .sqlDriver, db) else
    match tender_history_insert db tenderOld.toTender with
    | .error err => (.error err, db)
    | .ok tx1 =>
      -- tenderUpd.Version += 1
      let tenderUpd := { tenderUpd with Version := wrap32 (tenderUpd.Version + 1) }
      -- tx.Exec(updateQuery, tenderUpd...)
      if fault (faults.drop 3) then (.error .sqlDriver, db) else
      match tender_update tx1 tenderUpd.Name tenderUpd.Description tenderUpd.ServiceType
          tenderUpd.Status tenderUpd.OrganizationId tenderUpd.Version tenderUpd.Id with
      | .error err => (.error err, db)
      | .ok tx2 =>
        -- err = tx.Commit(); return tenderUpd, err
        if fault (faults.drop 4) then (.error .sqlDriver, db) else (.ok tenderUpd, tx2)

/-- `TenderRepo.RollBackTender`: round trips `Begin`, select, insert into the
history, select from the history, update, `Commit`.  The live row is archived
before the history is searched, and the result of `Commit` is dropped: the
function returns `&tenderOld` with the `err` of the update, which is nil. -/
def TenderRepo.RollBackTender (faults : List Bool) (db : DB) (id : UUID) (version : Int) :
    Except Err Tender × DB :=
  -- tx, err := repo.db.Begin()
  if fault faults then (.error .sqlDriver, db) else
  -- tx.QueryRow(selectQuery, id).Scan(&tender...)
  if fault (faults.drop 1) then (.error .sqlDriver, db) else
  match tender_select db id with
  | none => (.error .sqlErrNoRows, db)
  | some tender =>
    -- tx.Exec(createHistoryQuery, &tender...)
    if fault (faults.drop 2) then (.error .sqlDriver, db) else
    match tender_history_insert db tender.toTender with
    | .error err => (.error err, db)
    | .ok tx1 =>
      -- tx.QueryRow(selectVersionQuery, id, version).Scan(&tenderOld...)
      if fault (faults.drop 3) then (.error .sqlDriver, db) else
      match tender_history_select tx1 id version with
      | none => (.error .sqlErrNoRows, db)
      | some tenderOld =>
        -- tenderOld.Version = tender.Version + 1
        let tenderOld := { tenderOld with Version := wrap32 (tender.Version + 1) }
        -- tx.Exec(updateQuery, &tenderOld...)
        if fault (faults.drop 4) then (.error .sqlDriver, db) else
        match tender_update tx1 tenderOld.Name tenderOld.Description tenderOld.ServiceType
            tenderOld.Status tenderOld.OrganizationId tenderOld.Version tenderOld.Id with
        | .error err => (.error err, db)
        | .ok tx2 =>
          -- tx.Commit(); return &tenderOld, err
          if fault (faults.drop 5) then (.ok tenderOld, db) else (.ok tenderOld, tx2)

/-! ## service/tender -/

/-- `TenderService.UpdateTenderStatus`. -/
def TenderService.UpdateTenderStatus (faults : List Bool) (db : DB) (id : UUID)
    (status : String) : Except Err Tender × DB :=
  if status != TenderStatusClosed && status != TenderStatusCreated &&
      status != TenderStatusPublished then
    (.error (.new "not allowed status"), db)
  else
    match TenderRepo.GetTenderById faults db id with
    | .error _ => (.error .tenderErrorTenderNorFound, db)
    | .ok tender =>
      -- tender.Status = status
      let tender := { tender with Status := status }
      match TenderRepo.UpdateTender (faults.drop 1) db tender with
      | (.error _, db1) => (.error (.new "can not update tender"), db1)
      | (.ok tenderUpd, db1) => (.ok tenderUpd, db1)

/-- `TenderService.UpdateTender`: an empty argument leaves the field as it is. -/
def TenderService.UpdateTender (faults : List Bool) (db : DB) (id : UUID)
    (name description serviceType : String) : Except Err Tender × DB :=
  match TenderRepo.GetTenderById faults db id with
  | .error _ => (.error .tenderErrorTenderNorFound, db)
  | .ok tender =>
    let tender := if name != "" then { tender with Name := name } else tender
    let tender := if description != "" then { tender with Description := description }
      else tender
    if serviceType != "" && (serviceType != TenderServiceTypeConstruction &&
        serviceType != TenderServiceTypeDelivery &&
        serviceType != TenderServiceTypeManufacture) then
      (.error (.new "not allowed service type"), db)
    else
      let tender := if serviceType != "" then { tender with ServiceType := serviceType }
        else tender
      match TenderRepo.UpdateTender (faults.drop 1) db tender with
      | (.error _, db1) => (.error (.new "can not update tender"), db1)
      | (.ok tenderUpd, db1) => (.ok tenderUpd, db1)

/-- `TenderService.RollBackTender`. -/
def TenderService.RollBackTender (faults : List Bool) (db : DB) (id : UUID) (version : Int) :
    Except Err Tender × DB :=
  match TenderRepo.GetTenderById faults db id with
  | .error _ => (.error .tenderErrorTenderNorFound, db)
  | .ok tender =>
    match TenderRepo.RollBackTender (faults.drop 1) db tender.Id version with
    | (.error _, db1) => (.error (.new "cat not rollback tender"), db1)
    | (.ok tender, db1) => (.ok tender, db1)

/-! ## Statements on `bid` and `bid_history` -/

/-- `SELECT .. FROM bid WHERE id = $1` read with `QueryRow(..).Scan`. -/
def bid_select (db : DB) (id : UUID) : Option BidRow :=
  db.bid.find? (fun r => r.Id == id)

/-- `SELECT name, description, status, tender_id, author_type, author_id
FROM bid_history WHERE id = $1 AND version = $2` read with `QueryRow(..).Scan`. -/
def bid_history_select (db : DB) (id : UUID) (version : Int) : Option Bid :=
  db.bid_history.find? (fun h => h.Id == id && h.Version == version)

/-- Column constraints shared by `bid` and `bid_history`:
`VARCHAR(100)`, `VARCHAR(500)` and the two enum types. -/
def bid_columns_ok (name description status author_type : String) : Bool :=
  decide (name.length ≤ 100) && decide (description.length ≤ 500) &&
    bid_status.contains status && bid_author_type.contains author_type

/-- `INSERT INTO bid_history (id, name, .., version, created_at) VALUES (..)`,
with `PRIMARY KEY (id, version)`. -/
def bid_history_insert (db : DB) (b : Bid) : Except Err DB :=
  if !(bid_columns_ok b.Name b.Description b.Status b.AuthorType) then .error .sqlConstraint
  else if db.bid_history.any (fun h => h.Id == b.Id && h.Version == b.Version) then
    .error .sqlConstraint
  else .ok { db with bid_history := db.bid_history ++ [b] }

/-- `UPDATE bid SET status = $1, version = $2 WHERE id = $3`. -/
def bid_update_status (db : DB) (status : String) (version : Int) (id : UUID) :
    Except Err DB :=
  if !(bid_status.contains status) then .error .sqlConstraint
  else .ok { db with bid := db.bid.map (fun r =>
      if r.Id == id then { r with Status := status, Version := version } else r) }

/-- `UPDATE bid SET name = $1, description = $2, version = $3 WHERE id = $4`,
with the `VARCHAR` lengths and the `UNIQUE` name checked when a row is rewritten. -/
def bid_update_edit (db : DB) (name description : String) (version : Int) (id : UUID) :
    Except Err DB :=
  if !(db.bid.any (fun r => r.Id == id)) then .ok db
  else if !(decide (name.length ≤ 100) && decide (description.length ≤ 500)) then
    .error .sqlConstraint
  else if !(db.bid.all (fun r => r.Id == id || r.Name != name)) then .error .sqlConstraint
  else .ok { db with bid := db.bid.map (fun r =>
      if r.Id == id then
        { r with Name := name, Description := description, Version := version }
      else r) }

/-- `UPDATE bid SET name = $1, description = $2, status = $3, tender_id = $4,
author_type = $5, author_id = $6, version = $7 WHERE id = $8`. -/
def bid_update (db : DB) (name description status : String) (tender_id : UUID)
    (author_type : String) (author_id : UUID) (version : Int) (id : UUID) : Except Err DB :=
  if !(bid_status.contains status && bid_author_type.contains author_type) then
    .error .sqlConstraint
  else if !(db.bid.any (fun r => r.Id == id)) then .ok db
  else if !(decide (name.length ≤ 100) && decide (description.length ≤ 500)) then
    .error .sqlConstraint
  else if !(db.bid.all (fun r => r.Id == id || r.Name != name)) then .error .sqlConstraint
  else if !(db.bid.all (fun r => r.Id != id || r.TenderId == tender_id ||
      db.tender.any (fun t => t.Id == tender_id))) then .error .sqlConstraint
  else .ok { db with bid := db.bid.map (fun r =>
      if r.Id == id then
        { r with Name := name, Description := description, Status := status,
                 TenderId := tender_id, AuthorType := author_type,
                 AuthorId := author_id, Version := version }
      else r) }

/-- `INSERT INTO bid (name, description, tender_id, author_type, author_id)
VALUES (..) RETURNING id, status, version, created_at`; the counters default to 0. -/
def bid_insert (db : DB) (gen_random_uuid : UUID) (current_timestamp : Time)
    (name description : String) (tender_id : UUID) (author_type : String)
    (author_id : UUID) : Except Err DB :=
  if !(bid_columns_ok name description "Created" author_type) then .error .sqlConstraint
  else if db.bid.any (fun r => r.Id == gen_random_uuid) then .error .sqlConstraint
  else if db.bid.any (fun r => r.Name == name) then .error .sqlConstraint
  else if !(db.tender.any (fun t => t.Id == tender_id)) then .error .sqlConstraint
  else .ok { db with bid := db.bid ++
      [{ Id := gen_random_uuid, Name := name, Description := description,
         Status := "Created", TenderId := tender_id, AuthorType := author_type,
         AuthorId := author_id, Version := 1, CreatedAt := current_timestamp,
         rejects := 0, approves := 0 }] }

/-- Is the Go `int` argument inside the range of an `INT` column? -/
def int4_ok (x : Int) : Bool := decide (-2147483648 ≤ x) && decide (x ≤ 2147483647)

/-- `UPDATE bid SET approves = $1 WHERE id = $2`. -/
def bid_update_approves (db : DB) (approves : Int) (id : UUID) : Except Err DB :=
  if !(int4_ok approves) then .error .sqlConstraint
  else .ok { db with bid := db.bid.map (fun r =>
      if r.Id == id then { r with approves := approves } else r) }

/-- `UPDATE bid SET rejects = $1 WHERE id = $2`. -/
def bid_update_rejects (db : DB) (rejects : Int) (id : UUID) : Except Err DB :=
  if !(int4_ok rejects) then .error .sqlConstraint
  else .ok { db with bid := db.bid.map (fun r =>
      if r.Id == id then { r with rejects := rejects } else r) }

/-! ## repository/bid -/

/-- `BidRepo.CreateBid` (one round trip). -/
def BidRepo.CreateBid (faults : List Bool) (db : DB) (gen_random_uuid : UUID)
    (current_timestamp : Time) (name description : String) (tenderId : UUID)
    (authorType : String) (authorId : UUID) : Except Err Bid × DB :=
  if fault faults then (.error .sqlDriver, db) else
  match bid_insert db gen_random_uuid current_timestamp name description tenderId
      authorType authorId with
  | .error err => (.error err, db)
  | .ok db1 =>
    (.ok { Id := gen_random_uuid, Name := name, Description := description,
           Status := "Created", TenderId := tenderId, AuthorType := authorType,
           AuthorId := authorId, Version := 1, CreatedAt := current_timestamp }, db1)

/-- `BidRepo.GetBidById` (one round trip). -/
def BidRepo.GetBidById (faults : List Bool) (db : DB) (id : UUID) : Except Err Bid :=
  if fault faults then .error .sqlDriver else
  match bid_select db id with
  | none => .error .sqlErrNoRows
  | some r => .ok r.toBid

/-- `BidRepo.UpdateBidStatusById`: round trips `Begin`, select, insert into the
history, update, `Commit`; the result of `Commit` is dropped. -/
def BidRepo.UpdateBidStatusById (faults : List Bool) (db : DB) (id : UUID) (status : String) :
    Except Err Bid × DB :=
  -- tx, err := repo.db.Begin()
  if fault faults then (.error .sqlDriver, db) else
  -- tx.QueryRow(selectQuery, id).Scan(&bid...)
  if fault (faults.drop 1) then (.error .sqlDriver, db) else
  match bid_select db id with
  | none => (.error .sqlErrNoRows, db)
  | some row =>
    let bid := row.toBid
    -- tx.Exec(createQuery, bid...)
    if fault (faults.drop 2) then (.error .sqlDriver, db) else
    match bid_history_insert db bid with
    | .error err => (.error err, db)
    | .ok tx1 =>
      -- bid.Version += 1; bid.Status = status
      let bid := { bid with Version := wrap32 (bid.Version + 1), Status := status }
      -- tx.Exec(updateQuery, status, bid.Version, id)
      if fault (faults.drop 3) then (.error .sqlDriver, db) else
      match bid_update_status tx1 status bid.Version id with
      | .error err => (.error err, db)
      | .ok tx2 =>
        -- tx.Commit(); return
        if fault (faults.drop 4) then (.ok bid, db) else (.ok bid, tx2)

/-- `BidRepo.EditBidById`: round trips `Begin`, select, insert into the
history, update, `Commit`; the result of `Commit` is dropped. -/
def BidRepo.EditBidById (faults : List Bool) (db : DB) (id : UUID) (name description : String) :
    Except Err Bid × DB :=
  -- tx, err := repo.db.Begin()
  if fault faults then (.error .sqlDriver, db) else
  -- tx.QueryRow(selectQuery, id).Scan(&bid...)
  if fault (faults.drop 1) then (.error .sqlDriver, db) else
  match bid_select db id with
  | none => (.error .sqlErrNoRows, db)
  | some row =>
    let bid := row.toBid
    -- tx.Exec(createQuery, bid...)
    if fault (faults.drop 2) then (.error .sqlDriver, db) else
    match bid_history_insert db bid with
    | .error err => (.error err, db)
    | .ok tx1 =>
      -- bid.Version += 1; bid.Name = name; bid.Description = description
      let bid := { bid with Version := wrap32 (bid.Version + 1), Name := name,
                            Description := description }
      -- tx.Exec(updateQuery, bid.Name, bid.Description, bid.Version, id)
      if fault (faults.drop 3) then (.error .sqlDriver, db) else
      match bid_update_edit tx1 bid.Name bid.Description bid.Version id with
      | .error err => (.error err, db)
      | .ok tx2 =>
        -- tx.Commit(); return
        if fault (faults.drop 4) then (.ok bid, db) else (.ok bid, tx2)

/-- `BidRepo.RollbackById`: round trips `Begin`, select, insert into the
history, select from the history, update, `Commit`.  The live row is archived
before the history is searched; the six selected columns overwrite the
fields of `bid`, whose version was already incremented; the result of
`Commit` is dropped. -/
def BidRepo.RollbackById (faults : List Bool) (db : DB) (id : UUID) (version : Int) :
    Except Err Bid × DB :=
  -- tx, err := repo.db.Begin()
  if fault faults then (.error .sqlDriver, db) else
  -- tx.QueryRow(selectQuery, id).Scan(&bid...)
  if fault (faults.drop 1) then (.error .sqlDriver, db) else
  match bid_select db id with
  | none => (.error .sqlErrNoRows, db)
  | some row =>
    let bid := row.toBid
    -- tx.Exec(createQuery, bid...)
    if fault (faults.drop 2) then (.error .sqlDriver, db) else
    match bid_history_insert db bid with
    | .error err => (.error err, db)
    | .ok tx1 =>
      -- bid.Version += 1
      let bid := { bid with Version := wrap32 (bid.Version + 1) }
      -- tx.QueryRow(selectVersionQuery, id, version).Scan(&bid.Name, ...)
      if fault (faults.drop 3) then (.error .sqlDriver, db) else
      match bid_history_select tx1 id version with
      | none => (.error .sqlErrNoRows, db)
      | some old =>
        let bid := { bid with Name := old.Name, Description := old.Description,
                              Status := old.Status, TenderId := old.TenderId,
                              AuthorType := old.AuthorType, AuthorId := old.AuthorId }
        -- tx.Exec(updateQuery, bid..., id)
        if fault (faults.drop 4) then (.error .sqlDriver, db) else
        match bid_update tx1 bid.Name bid.Description bid.Status bid.TenderId
            bid.AuthorType bid.AuthorId bid.Version id with
        | .error err => (.error err, db)
        | .ok tx2 =>
          -- tx.Commit(); return
          if fault (faults.drop 5) then (.ok bid, db) else (.ok bid, tx2)

/-- `BidRepo.GetDisicions` (one round trip): the pair `(rejects, approves)`. -/
def BidRepo.GetDisicions (faults : List Bool) (db : DB) (id : UUID) : Except Err (Int × Int) :=
  if fault faults then .error .sqlDriver else
  match bid_select db id with
  | none => .error .sqlErrNoRows
  | some r => .ok (r.rejects, r.approves)

/-- `BidRepo.UpdateApproves`: round trips `Begin`, update of the counter, the
update closing the tender when `closeTender`, `Commit`; the result of
`Commit` is dropped and nil returned. -/
def BidRepo.UpdateApproves (faults : List Bool) (db : DB) (bidId : UUID) (approves : Int)
    (tenderId : UUID) (closeTender : Bool) : Except Err Unit × DB :=
  -- tx, err := repo.db.Begin()
  if fault faults then (.error .sqlDriver, db) else
  -- tx.Exec(updateQuery, approves, bidId)
  if fault (faults.drop 1) then (.error .sqlDriver, db) else
  match bid_update_approves db approves bidId with
  | .error err => (.error err, db)
  | .ok tx1 =>
    if closeTender then
      -- tx.Exec(updateQuery, tenderId)
      if fault (faults.drop 2) then (.error .sqlDriver, db) else
      let tx2 := tender_close tx1 tenderId
      -- tx.Commit(); return nil
      if fault (faults.drop 3) then (.ok (), db) else (.ok (), tx2)
    else
      -- tx.Commit(); return nil
      if fault (faults.drop 2) then (.ok (), db) else (.ok (), tx1)

/-- `BidRepo.UpdateRejects` (one round trip, no transaction). -/
def BidRepo.UpdateRejects (faults : List Bool) (db : DB) (bidId : UUID) (rejects : Int) :
    Except Err Unit × DB :=
  if fault faults then (.error .sqlDriver, db) else
  match bid_update_rejects db rejects bidId with
  | .error err => (.error err, db)
  | .ok db1 => (.ok (), db1)

/-! ## repository/organization -/

/-- `OrganizationRepo.GetOrganizationsByUserId` (one round trip): the rows of
`organization_responsible` of the user joined with `organization`.  A result
without rows is the nil slice, here `[]`. -/
def OrganizationRepo.GetOrganizationsByUserId (faults : List Bool) (db : DB) (user_id : UUID) :
    Except Err (List Organization) :=
  if fault faults then .error .sqlDriver else
  .ok ((db.organization_responsible.filter (fun r => r.user_id == user_id)).flatMap
    (fun r => db.organization.filter (fun o => o.Id == r.organization_id)))

/-- `OrganizationRepo.GetResponsibleUsersId` (one round trip). -/
def OrganizationRepo.GetResponsibleUsersId (faults : List Bool) (db : DB) (orgId : UUID) :
    Except Err (List UUID) :=
  if fault faults then .error .sqlDriver else
  .ok ((db.organization_responsible.filter (fun r => r.organization_id == orgId)).map
    (fun r => r.user_id))

/-! ## service/bid -/

/-- `BidService.UpdateBidStatusById`. -/
def BidService.UpdateBidStatusById (faults : List Bool) (db : DB) (id : UUID)
    (status : String) : Except Err Bid × DB :=
  if status != CreatedBidStatus && status != PublishedBidStatus &&
      status != CanceledBidStatus then
    (.error (.new "not allowed status"), db)
  else
    match BidRepo.GetBidById faults db id with
    | .error _ => (.error .bidErrorBidNotFound, db)
    | .ok _ =>
      match BidRepo.UpdateBidStatusById (faults.drop 1) db id status with
      | (.error _, db1) => (.error (.new "can not update bid"), db1)
      | (.ok bid, db1) => (.ok bid, db1)

/-- `BidService.EditBidById`: an empty argument leaves the field as it is. -/
def BidService.EditBidById (faults : List Bool) (db : DB) (id : UUID)
    (name description : String) : Except Err Bid × DB :=
  match BidRepo.GetBidById faults db id with
  | .error _ => (.error .bidErrorBidNotFound, db)
  | .ok bid =>
    let name := if name == "" then bid.Name else name
    let description := if description == "" then bid.Description else description
    match BidRepo.EditBidById (faults.drop 1) db id name description with
    | (.error _, db1) => (.error (.new "can not edit bid"), db1)
    | (.ok bid, db1) => (.ok bid, db1)

/-- `BidService.RollbackById`. -/
def BidService.RollbackById (faults : List Bool) (db : DB) (id : UUID) (version : Int) :
    Except Err Bid × DB :=
  match BidRepo.GetBidById faults db id with
  | .error _ => (.error .bidErrorBidNotFound, db)
  | .ok _ =>
    match BidRepo.RollbackById (faults.drop 1) db id version with
    | (.error _, db1) => (.error (.new "can not rollback bid"), db1)
    | (.ok bid, db1) => (.ok bid, db1)

/-- Lines 160-169 of `BidService.SubmitDecisionById`: the deciding
organization of a bid, and the fault list left for the calls that follow.
For a bid of a user, `orgs != nil && len(orgs) == 0` never holds of the nil
slice, and `orgs[0]` of an empty result panics. -/
def BidService.SubmitDecisionById.orgId (faults : List Bool) (db : DB) (bid : Bid) :
    Except Err UUID × List Bool :=
  if bid.AuthorType == OrgBidAuthorType then (.ok bid.AuthorId, faults)
  else
    match OrganizationRepo.GetOrganizationsByUserId faults db bid.AuthorId with
    | .error _ => (.error .bidErrorUserIsNotOrgResponsible, faults.drop 1)
    | .ok orgs =>
      if !orgs.isEmpty && orgs.length == 0 then
        (.error .bidErrorUserIsNotOrgResponsible, faults.drop 1)
      else
        match orgs with
        | [] => (.error .panicIndex, faults.drop 1)
        | org :: _ => (.ok org.Id, faults.drop 1)

/-- `BidService.SubmitDecisionById`.  After line 187 `approves <= quorum <= 3`
and `rejects <= 0`, so the two Go `int` increments do not overflow. -/
def BidService.SubmitDecisionById (faults : List Bool) (db : DB) (id : UUID)
    (decision : String) : Except Err Bid × DB :=
  match BidRepo.GetBidById faults db id with
  | .error _ => (.error .bidErrorBidNotFound, db)
  | .ok bid =>
    if decision != "Approved" && decision != "Rejected" then
      (.error (.new "now allowed decision"), db)
    else
      match BidService.SubmitDecisionById.orgId (faults.drop 1) db bid with
      | (.error err, _) => (.error err, db)
      | (.ok orgId, faults1) =>
        match OrganizationRepo.GetResponsibleUsersId faults1 db orgId with
        | .error _ => (.error .bidErrorUserIsNotOrgResponsible, db)
        | .ok usersId =>
          match BidRepo.GetDisicions (faults1.drop 1) db id with
          | .error _ => (.error .bidErrorBidNotFound, db)
          | .ok (rejects, approves) =>
            if rejects > 0 then (.error (.new "bid is already rejected"), db)
            else
              let quorum : Int := min 3 (usersId.length : Int)
              if approves > quorum then (.error (.new "bid is already approved"), db)
              else if decision == "Approved" then
                let approves := approves + 1
                let closeTender := decide (approves ≥ quorum)
                match BidRepo.UpdateApproves (faults1.drop 2) db id approves bid.TenderId
                    closeTender with
                | (.error _, db1) => (.error (.new "can not approve bid"), db1)
                | (.ok _, db1) => (.ok bid, db1)
              else
                let rejects := rejects + 1
                match BidRepo.UpdateRejects (faults1.drop 2) db id rejects with
                | (.error _, db1) => (.error (.new "can not reject bid"), db1)
                | (.ok _, db1) => (.ok bid, db1)

/-! ## repository/user -/

/-- `UserRepo.GetUserByName` (one round trip):
`SELECT .. FROM employee WHERE username = $1` read with `QueryRow(..).Scan`. -/
def UserRepo.GetUserByName (faults : List Bool) (db : DB) (name : String) : Except Err User :=
  if fault faults then .error .sqlDriver else
  match db.employee.find? (fun u => u.Username == name) with
  | none => .error .sqlErrNoRows
  | some user => .ok user

/-- `UserRepo.GetUserById` (one round trip). -/
def UserRepo.GetUserById (faults : List Bool) (db : DB) (id : UUID) : Except Err User :=
  if fault faults then .error .sqlDriver else
  match db.employee.find? (fun u => u.Id == id) with
  | none => .error .sqlErrNoRows
  | some user => .ok user

/-! ## service: access checks and tender creation -/

/-- `TenderService.CheckWriteRightByUsername`; the Go result nil is `.ok ()`. -/
def TenderService.CheckWriteRightByUsername (faults : List Bool) (db : DB) (tenderId : UUID)
    (username : String) : Except Err Unit :=
  match TenderRepo.GetTenderById faults db tenderId with
  | .error _ => .error .tenderErrorTenderNorFound
  | .ok tender =>
    if username == "" then .error .tenderErrorUserIsNotOrgResponsible
    else
      match UserRepo.GetUserByName (faults.drop 1) db username with
      | .error _ => .error .tenderErrorUserNorFound
      | .ok user =>
        match OrganizationRepo.GetResponsibleUsersId (faults.drop 2) db
            tender.OrganizationId with
        | .error _ => .error .tenderErrorUserIsNotOrgResponsible
        | .ok usersId =>
          -- for _, userId := range usersId { if userId == user.Id { return nil } }
          if usersId.any (fun userId => userId == user.Id) then .ok ()
          else .error .tenderErrorUserIsNotOrgResponsible

/-- `TenderService.CheckReadRightByUsername`; the Go result nil is `.ok ()`. -/
def TenderService.CheckReadRightByUsername (faults : List Bool) (db : DB) (tenderId : UUID)
    (username : String) : Except Err Unit :=
  match TenderRepo.GetTenderById faults db tenderId with
  | .error _ => .error .tenderErrorTenderNorFound
  | .ok tender =>
    if tender.Status == TenderStatusPublished then .ok ()
    else if username == "" then .error .tenderErrorUserIsNotOrgResponsible
    else
      match UserRepo.GetUserByName (faults.drop 1) db username with
      | .error _ => .error .tenderErrorUserNorFound
      | .ok user =>
        match OrganizationRepo.GetResponsibleUsersId (faults.drop 2) db
            tender.OrganizationId with
        | .error _ => .error .tenderErrorUserIsNotOrgResponsible
        | .ok usersId =>
          if usersId.any (fun userId => userId == user.Id) then .ok ()
          else .error .tenderErrorUserIsNotOrgResponsible

/-- `BidService.CheckRWRightsByUsername`; the Go result nil is `.ok ()`. -/
def BidService.CheckRWRightsByUsername (faults : List Bool) (db : DB) (tenderId : UUID)
    (username : String) : Except Err Unit :=
  match TenderRepo.GetTenderById faults db tenderId with
  | .error _ => .error .bidErrorTenderNotFound
  | .ok tender =>
    if username == "" then .error .bidErrorUserIsNotOrgResponsible
    else
      match UserRepo.GetUserByName (faults.drop 1) db username with
      | .error _ => .error .bidErrorUserNotFound
      | .ok user =>
        match OrganizationRepo.GetResponsibleUsersId (faults.drop 2) db
            tender.OrganizationId with
        | .error _ => .error .bidErrorUserIsNotOrgResponsible
        | .ok usersId =>
          if usersId.any (fun userId => userId == user.Id) then .ok ()
          else .error .bidErrorUserIsNotOrgResponsible

/-- The status a tender handler answers with when the rights check returned `err`
(`api/tender`, the block after each `CheckWriteRightByUsername`): 400, replaced
by 404, 401 and 403 for the three errors of the service, tested in this order. -/
def tenderRightsStatus (err : Err) : Nat :=
  let httpStatus := 400
  let httpStatus := if err = .tenderErrorTenderNorFound then 404 else httpStatus
  let httpStatus := if err = .tenderErrorUserNorFound then 401 else httpStatus
  let httpStatus := if err = .tenderErrorUserIsNotOrgResponsible then 403 else httpStatus
  httpStatus

/-- The status a bid handler answers with when the rights check returned `err`
(`api/bid`, the block after each `CheckRWRightsByUsername`). -/
def bidRightsStatus (err : Err) : Nat :=
  let httpStatus := 400
  let httpStatus := if err = .bidErrorTenderNotFound then 404 else httpStatus
  let httpStatus := if err = .bidErrorUserNotFound then 401 else httpStatus
  let httpStatus := if err = .bidErrorUserIsNotOrgResponsible then 403 else httpStatus
  httpStatus

/-- `TenderService.CreateTender`.  `orgs == nil` holds of a result without rows. -/
def TenderService.CreateTender (faults : List Bool) (db : DB) (gen_random_uuid : UUID)
    (current_timestamp : Time) (name description serviceType : String)
    (organizarionId : UUID) (createUsername : String) : Except Err Tender × DB :=
  match UserRepo.GetUserByName faults db createUsername with
  | .error _ => (.error .tenderErrorUserNorFound, db)
  | .ok user =>
    match OrganizationRepo.GetOrganizationsByUserId (faults.drop 1) db user.Id with
    | .error _ => (.error .tenderErrorUserIsNotOrgResponsible, db)
    | .ok orgs =>
      if orgs.isEmpty then (.error .tenderErrorUserIsNotOrgResponsible, db)
      else
        -- for _, org := range orgs { if organizarionId == org.Id { .. = true; break } }
        let isOrgResponsible := orgs.any (fun org => organizarionId == org.Id)
        if !isOrgResponsible then (.error .tenderErrorUserIsNotOrgResponsible, db)
        else
          match TenderRepo.CreateTender (faults.drop 2) db gen_random_uuid current_timestamp
              name description serviceType organizarionId user.Id with
          | (.error _, db1) => (.error (.new "tender creation failed, check fields"), db1)
          | (.ok tender, db1) => (.ok tender, db1)

/-! ## List queries -/

/-- `uuid.Nil`, the zero value of `uuid.UUID`. -/
def uuid.Nil : UUID := 0

/-- `UUID.String` of package `uuid`; an id is written as its number here. -/
def uuid.String (id : UUID) : String := toString id

/-- `strconv.Itoa`. -/
def strconv.Itoa (i : Int) : String := toString i

/-- Does the text of a query contain the clause `ORDER BY name ASC`? -/
def has_order_by_name (query : String) : Bool :=
  decide ("ORDER BY name ASC".toList <:+: query.toList)

/-- The order of the clause `ORDER BY name ASC` on two names given as lists of
characters: the first is at most the second, character by character (code
points compared as numbers). -/
def name_le : List Char → List Char → Bool
  | [], _ => true
  | _ :: _, [] => false
  | a :: as, b :: bs => decide (a.toNat < b.toNat) || (a.toNat == b.toNat && name_le as bs)

/-- The rows `db.Query` returns for the `SELECT` text `query`, given the rows
`rows` of the table that satisfy its `WHERE` clause, in the order of the
table.  With the clause `ORDER BY name ASC` in the text they come in ascending
order of `name` (`name_le`); without it the store promises no order and the
model keeps the order of the table.  `OFFSET` skips rows of that sequence and
`LIMIT` bounds what is left. -/
def select_rows {ρ : Type} (name : ρ → String) (query : String) (limit offset : Option Nat)
    (rows : List ρ) : List ρ :=
  let rows := if has_order_by_name query then
      rows.insertionSort (fun a b => name_le (name a).toList (name b).toList = true)
    else rows
  let rows := match offset with
    | some m => rows.drop m
    | none => rows
  match limit with
  | some n => rows.take n
  | none => rows

/-- The text `BidRepo.GetBidsByAuthorId` sends: there is no `ORDER BY` in it. -/
def BidRepo.GetBidsByAuthorId.selectQuery (offset limit : Int) : String :=
  let selectQuery := "\n\t\tSELECT id, name, description,\n\t\tstatus, tender_id, author_type,\n\t\tauthor_id, version, created_at\n\t\tFROM bid \n\t\tWHERE author_id = $1\n\t"
  let selectQuery := if limit > 0 then selectQuery ++ " LIMIT " ++ strconv.Itoa limit
    else selectQuery
  let selectQuery := if offset > 0 then selectQuery ++ " OFFSET " ++ strconv.Itoa offset
    else selectQuery
  selectQuery ++ ";"

/-- `BidRepo.GetBidsByAuthorId` (one round trip). -/
def BidRepo.GetBidsByAuthorId (faults : List Bool) (db : DB) (offset limit : Int)
    (authorId : UUID) : Except Err (List Bid) :=
  if fault faults then .error .sqlDriver else
  .ok (select_rows (fun b : Bid => b.Name) (BidRepo.GetBidsByAuthorId.selectQuery offset limit)
    (if limit > 0 then some limit.toNat else none)
    (if offset > 0 then some offset.toNat else none)
    ((db.bid.filter (fun r => r.AuthorId == authorId)).map (fun r => r.toBid)))

/-- The text `BidRepo.GetBidsByTenderId` sends. -/
def BidRepo.GetBidsByTenderId.selectQuery (offset limit : Int) : String :=
  let selectQuery := "\n\t\tSELECT id, name, description,\n\t\tstatus, tender_id, author_type,\n\t\tauthor_id, version, created_at\n\t\tFROM bid\n\t\tWHERE tender_id = $1\n\t\tORDER BY name ASC\n\t"
  let selectQuery := if limit > 0 then selectQuery ++ " LIMIT " ++ strconv.Itoa limit
    else selectQuery
  let selectQuery := if offset > 0 then selectQuery ++ " OFFSET " ++ strconv.Itoa offset
    else selectQuery
  selectQuery ++ ";"

/-- `BidRepo.GetBidsByTenderId` (one round trip). -/
def BidRepo.GetBidsByTenderId (faults : List Bool) (db : DB) (offset limit : Int)
    (tenderId : UUID) : Except Err (List Bid) :=
  if fault faults then .error .sqlDriver else
  .ok (select_rows (fun b : Bid => b.Name) (BidRepo.GetBidsByTenderId.selectQuery offset limit)
    (if limit > 0 then some limit.toNat else none)
    (if offset > 0 then some offset.toNat else none)
    ((db.bid.filter (fun r => r.TenderId == tenderId)).map (fun r => r.toBid)))

/-- The text `TenderRepo.GetTendersByUserId` sends. -/
def TenderRepo.GetTendersByUserId.selectQuery (offset limit : Int) : String :=
  let selectQuery := "\n\t\tSELECT id, name, description,\n\t\tservice_type, status, organization_id,\n\t\tversion, created_at\n\t\tFROM tender \n\t\tWHERE user_id = $1\n\t\tORDER BY name ASC\n\t"
  let selectQuery := if limit > 0 then selectQuery ++ " LIMIT " ++ strconv.Itoa limit
    else selectQuery
  let selectQuery := if offset > 0 then selectQuery ++ " OFFSET " ++ strconv.Itoa offset
    else selectQuery
  selectQuery ++ ";"

/-- `TenderRepo.GetTendersByUserId` (one round trip). -/
def TenderRepo.GetTendersByUserId (faults : List Bool) (db : DB) (offset limit : Int)
    (userId : UUID) : Except Err (List Tender) :=
  if fault faults then .error .sqlDriver else
  .ok (select_rows (fun t : Tender => t.Name)
    (TenderRepo.GetTendersByUserId.selectQuery offset limit)
    (if limit > 0 then some limit.toNat else none)
    (if offset > 0 then some offset.toNat else none)
    ((db.tender.filter (fun r => r.user_id == userId)).map (fun r => r.toTender)))

/-- The `WHERE` clauses `TenderRepo.GetTenders` builds from its two filters. -/
def TenderRepo.GetTenders.whereClauses (serviceTypeFlt : String) (orgsIdFlt : List UUID) :
    List String :=
  let whereClauses : List String := []
  let whereClauses := if orgsIdFlt.length != 0 then
      let orgsIdStr := orgsIdFlt.map (fun orgID => "'" ++ uuid.String orgID ++ "'")
      whereClauses ++ ["organization_id IN (" ++ ",".intercalate orgsIdStr ++ ")"]
    else whereClauses
  if serviceTypeFlt != "" then whereClauses ++ ["service_type = '" ++ serviceTypeFlt ++ "'"]
  else whereClauses

/-- The text `TenderRepo.GetTenders` sends. -/
def TenderRepo.GetTenders.selectQuery (serviceTypeFlt offsetFlt limitFlt : String)
    (orgsIdFlt : List UUID) : String :=
  let whereClauses := TenderRepo.GetTenders.whereClauses serviceTypeFlt orgsIdFlt
  let selectQuery := "\n\t\tSELECT id, name, description,\n\t\tservice_type, status, organization_id,\n\t\tversion, created_at\n\t\tFROM tender \n\t"
  let selectQuery := if whereClauses.length > 0 then
      selectQuery ++ " WHERE " ++ " AND ".intercalate whereClauses
    else selectQuery
  let selectQuery := selectQuery ++ " ORDER BY name ASC "
  let selectQuery := if limitFlt != "" then selectQuery ++ " LIMIT " ++ limitFlt
    else selectQuery
  let selectQuery := if offsetFlt != "" then selectQuery ++ " OFFSET " ++ offsetFlt
    else selectQuery
  selectQuery ++ ";"

/-- `TenderRepo.GetTenders` (one round trip).  The two filters are the `WHERE`
clauses of the text: `organization_id IN (..)` when `orgsIdFlt` is not empty
and `service_type = '..'` when `serviceTypeFlt` is not empty; without clauses
every tender is selected.  A label that is not in the enum and a text after
`LIMIT` or `OFFSET` that is no number make the statement fail. -/
def TenderRepo.GetTenders (faults : List Bool) (db : DB)
    (serviceTypeFlt offsetFlt limitFlt : String) (orgsIdFlt : List UUID) :
    Except Err (List Tender) :=
  if fault faults then .error .sqlDriver else
  if serviceTypeFlt != "" && !(tender_service_type.contains serviceTypeFlt) then
    .error .sqlConstraint
  else if limitFlt != "" && limitFlt.toNat?.isNone then .error .sqlSyntax
  else if offsetFlt != "" && offsetFlt.toNat?.isNone then .error .sqlSyntax
  else
    .ok (select_rows (fun t : Tender => t.Name)
      (TenderRepo.GetTenders.selectQuery serviceTypeFlt offsetFlt limitFlt orgsIdFlt)
      (if limitFlt != "" then limitFlt.toNat? else none)
      (if offsetFlt != "" then offsetFlt.toNat? else none)
      ((db.tender.filter (fun r =>
        (orgsIdFlt.length == 0 || orgsIdFlt.contains r.OrganizationId) &&
          (serviceTypeFlt == "" || r.ServiceType == serviceTypeFlt))).map
        (fun r => r.toTender)))

/-- Lines 95 and 103-119 of `TenderService.GetTenders`: the organization filter
built for `username`, and the fault list left for the call that follows.
`make([]uuid.UUID, len(orgs))` is a slice of `len(orgs)` zero ids, and the ids
of the organizations are appended to it. -/
def TenderService.GetTenders.orgsId (faults : List Bool) (db : DB) (username : String) :
    Except Err (List UUID) × List Bool :=
  if username != "" then
    match UserRepo.GetUserByName faults db username with
    | .error _ => (.error .tenderErrorUserNorFound, faults.drop 1)
    | .ok user =>
      match OrganizationRepo.GetOrganizationsByUserId (faults.drop 1) db user.Id with
      | .error _ => (.error (.new "organization does not exist"), faults.drop 2)
      | .ok orgs =>
        -- orgsId = make([]uuid.UUID, len(orgs))
        let orgsId := List.replicate orgs.length uuid.Nil
        -- for _, org := range orgs { orgsId = append(orgsId, org.Id) }
        let orgsId := orgs.foldl (fun orgsId org => orgsId ++ [org.Id]) orgsId
        (.ok orgsId, faults.drop 2)
  else
    -- var orgsId []uuid.UUID
    (.ok [], faults)

/-- `TenderService.GetTenders`. -/
def TenderService.GetTenders (faults : List Bool) (db : DB) (serviceType : String)
    (offset limit : Int) (username : String) : Except Err (List Tender) :=
  let offsetFlt := if offset > 0 then strconv.Itoa offset else ""
  let limitFlt := if limit > 0 then strconv.Itoa limit else ""
  match TenderService.GetTenders.orgsId faults db username with
  | (.error err, _) => .error err
  | (.ok orgsId, faults1) =>
    if serviceType != "" && (serviceType != TenderServiceTypeConstruction &&
        serviceType != TenderServiceTypeDelivery &&
        serviceType != TenderServiceTypeManufacture) then
      .error (.new "not allowed serviceType")
    else
      let serviceTypeFlt := serviceType
      match TenderRepo.GetTenders faults1 db serviceTypeFlt offsetFlt limitFlt orgsId with
      | .error _ => .error (.new "can not get tenders")
      | .ok tenders => .ok tenders

/-! ## Reviews -/

/-- `INSERT INTO review (description, bid_id) VALUES ($1, $2)`: `id` defaults to
`gen_random_uuid()` and `created_at` to `CURRENT_TIMESTAMP` (arguments here);
`description` is `VARCHAR(1000)` and `bid_id` references `bid(id)`. -/
def review_insert (db : DB) (gen_random_uuid : UUID) (current_timestamp : Time)
    (description : String) (bid_id : UUID) : Except Err DB :=
  if !(decide (description.length ≤ 1000)) then .error .sqlConstraint
  else if db.review.any (fun r => r.Id == gen_random_uuid) then .error .sqlConstraint
  else if !(db.bid.any (fun b => b.Id == bid_id)) then .error .sqlConstraint
  else .ok { db with review := db.review ++
      [{ Id := gen_random_uuid, Description := description, CreatedAt := current_timestamp,
         bid_id := bid_id }] }

/-- `BidRepo.CreateReviewById`: round trips `Begin`, select of the bid, insert
into `review`, `Commit`; the result of `Commit` is dropped. -/
def BidRepo.CreateReviewById (faults : List Bool) (db : DB) (gen_random_uuid : UUID)
    (current_timestamp : Time) (id : UUID) (description : String) : Except Err Bid × DB :=
  -- tx, err := repo.db.Begin()
  if fault faults then (.error .sqlDriver, db) else
  -- tx.QueryRow(selectQuery, id).Scan(&bid...)
  if fault (faults.drop 1) then (.error .sqlDriver, db) else
  match bid_select db id with
  | none => (.error .sqlErrNoRows, db)
  | some row =>
    let bid := row.toBid
    -- tx.Exec(createQuery, description, id)
    if fault (faults.drop 2) then (.error .sqlDriver, db) else
    match review_insert db gen_random_uuid current_timestamp description id with
    | .error err => (.error err, db)
    | .ok tx1 =>
      -- tx.Commit(); return
      if fault (faults.drop 3) then (.ok bid, db) else (.ok bid, tx1)

/-- `BidService.GetBidById`. -/
def BidService.GetBidById (faults : List Bool) (db : DB) (id : UUID) : Except Err Bid :=
  match BidRepo.GetBidById faults db id with
  | .error _ => .error .bidErrorBidNotFound
  | .ok bid => .ok bid

/-- `BidService.CreateReviewById`. -/
def BidService.CreateReviewById (faults : List Bool) (db : DB) (gen_random_uuid : UUID)
    (current_timestamp : Time) (id : UUID) (description : String) : Except Err Bid × DB :=
  match BidRepo.GetBidById faults db id with
  | .error _ => (.error .bidErrorBidNotFound, db)
  | .ok _ =>
    match BidRepo.CreateReviewById (faults.drop 1) db gen_random_uuid current_timestamp id
        description with
    | (.error _, db1) => (.error (.new "can not create review"), db1)
    | (.ok bid, db1) => (.ok bid, db1)

/-! ## api

A handler is a function of what it reads from the request: a path parameter
parsed by `uuid.Parse` or `strconv.Atoi` is an `Option` (`none` when the parse
fails), a query parameter is a string (empty when absent), the body is the
decoded struct.  `NewService` is the result of the `NewService()` call of the
handler.  The rights check of a handler uses the round trips after the first
read, the service call those after the check. -/

/-- What a handler writes: the status (200 when `WriteHeader` is not called) and
the body, the JSON of the result or the `reason` given to `apierror.HandleError`. -/
structure Response (α : Type) where
  status : Nat
  body : Except Err α

/-- `apierror.HandleError`. -/
def apierror.HandleError {α : Type} (err : Err) (status : Nat) : Response α :=
  { status := status, body := .error err }

/-- The status a tender handler answers with when the service call after the
rights check returned `err`: `http.StatusBadRequest`, replaced by
`http.StatusNotFound` for `ErrorTenderNorFound`. -/
def tenderCallStatus (err : Err) : Nat :=
  let httpStatus := 400
  let httpStatus := if err = .tenderErrorTenderNorFound then 404 else httpStatus
  httpStatus

/-- The status a bid handler answers with when a service call other than the
rights check returned `err`: `http.StatusBadRequest`, replaced by
`http.StatusNotFound` for `ErrorBidNotFound`. -/
def bidCallStatus (err : Err) : Nat :=
  let httpStatus := 400
  let httpStatus := if err = .bidErrorBidNotFound then 404 else httpStatus
  httpStatus

/-- The struct `TenderRequest` of `api/tender`. -/
structure TenderRequest where
  Name : String
  Description : String
  ServiceType : String
  OrganizationId : UUID
  CreatorUsername : String
deriving DecidableEq, Repr

/-- The `validate` tags of `TenderRequest`: `required` refuses the zero value,
`max` bounds the number of characters, `oneof` lists the values allowed. -/
def TenderRequest.validate (req : TenderRequest) : Bool :=
  (req.Name != "" && decide (req.Name.length ≤ 100)) &&
  (req.Description != "" && decide (req.Description.length ≤ 500)) &&
  (req.ServiceType != "" &&
    ["Construction", "Delivery", "Manufacture"].contains req.ServiceType) &&
  req.OrganizationId != uuid.Nil &&
  req.CreatorUsername != ""

/-- `CreateTenderHandler` of `api/tender`. -/
def CreateTenderHandler (NewService : Except Err Unit) (faults : List Bool) (db : DB)
    (gen_random_uuid : UUID) (current_timestamp : Time) (tenderReq : TenderRequest) :
    Response Tender × DB :=
  if !tenderReq.validate then
    (apierror.HandleError (.new "incorrect request body") 400, db)
  else
    match NewService with
    | .error _ => (apierror.HandleError (.new "tenders service creation failed") 500, db)
    | .ok _ =>
      match TenderService.CreateTender faults db gen_random_uuid current_timestamp
          tenderReq.Name tenderReq.Description tenderReq.ServiceType
          tenderReq.OrganizationId tenderReq.CreatorUsername with
      | (.error err, db1) =>
        let httpStatus := 400
        let httpStatus := if err = .tenderErrorUserNorFound then 401 else httpStatus
        let httpStatus := if err = .tenderErrorUserIsNotOrgResponsible then 403
          else httpStatus
        (apierror.HandleError err httpStatus, db1)
      | (.ok tender, db1) => ({ status := 200, body := .ok tender }, db1)

/-- `RollbackTenderHandler` of `api/tender`; `int32(version)` is `wrap32`. -/
def RollbackTenderHandler (NewService : Except Err Unit) (faults : List Bool) (db : DB)
    (tenderId : Option UUID) (version : Option Int) (username : String) :
    Response Tender × DB :=
  match tenderId with
  | none => (apierror.HandleError (.new "incorrect tender uuid") 400, db)
  | some tenderId =>
    match version with
    | none => (apierror.HandleError (.new "incorrect version") 400, db)
    | some version =>
      if username == "" then
        (apierror.HandleError (.new "username param is required") 400, db)
      else
        match NewService with
        | .error _ =>
          (apierror.HandleError (.new "tenders service creation failed") 500, db)
        | .ok _ =>
          match TenderService.CheckWriteRightByUsername faults db tenderId username with
          | .error err => (apierror.HandleError err (tenderRightsStatus err), db)
          | .ok _ =>
            match TenderService.RollBackTender (faults.drop 3) db tenderId
                (wrap32 version) with
            | (.error err, db1) => (apierror.HandleError err (tenderCallStatus err), db1)
            | (.ok tender, db1) => ({ status := 200, body := .ok tender }, db1)

/-- `UpdateBidStatusHandler` of `api/bid`. -/
def UpdateBidStatusHandler (NewService : Except Err Unit) (faults : List Bool) (db : DB)
    (bidId : Option UUID) (username status : String) : Response Bid × DB :=
  match bidId with
  | none => (apierror.HandleError (.new "incorrect bid uuid") 400, db)
  | some bidId =>
    if username == "" then
      (apierror.HandleError (.new "username param is required") 400, db)
    else if status == "" then
      (apierror.HandleError (.new "status param is required") 400, db)
    else
      match NewService with
      | .error _ => (apierror.HandleError (.new "bids service creation failed") 500, db)
      | .ok _ =>
        match BidService.GetBidById faults db bidId with
        | .error err => (apierror.HandleError err (bidCallStatus err), db)
        | .ok bid =>
          match BidService.CheckRWRightsByUsername (faults.drop 1) db bid.TenderId
              username with
          | .error err => (apierror.HandleError err (bidRightsStatus err), db)
          | .ok _ =>
            match BidService.UpdateBidStatusById (faults.drop 4) db bidId status with
            | (.error err, db1) => (apierror.HandleError err (bidCallStatus err), db1)
            | (.ok bid, db1) => ({ status := 200, body := .ok bid }, db1)

/-- The struct `EditBidRequest` of `api/bid`. -/
structure EditBidRequest where
  Name : String
  Description : String
deriving DecidableEq, Repr

/-- The `validate` tags of `EditBidRequest`. -/
def EditBidRequest.validate (req : EditBidRequest) : Bool :=
  decide (req.Name.length ≤ 100) && decide (req.Description.length ≤ 500)

/-- `EditBidHandler` of `api/bid`. -/
def EditBidHandler (NewService : Except Err Unit) (faults : List Bool) (db : DB)
    (bidId : Option UUID) (bidReq : EditBidRequest) (username : String) :
    Response Bid × DB :=
  match bidId with
  | none => (apierror.HandleError (.new "incorrect bid uuid") 400, db)
  | some bidId =>
    if !bidReq.validate then (apierror.HandleError (.new "incorrect request body") 400, db)
    else if bidReq.Name == "" && bidReq.Description == "" then
      (apierror.HandleError (.new "incorrect request body") 400, db)
    else if username == "" then
      (apierror.HandleError (.new "username param is required") 400, db)
    else
      match NewService with
      | .error _ => (apierror.HandleError (.new "bids service creation failed") 500, db)
      | .ok _ =>
        match BidService.GetBidById faults db bidId with
        | .error err => (apierror.HandleError err (bidCallStatus err), db)
        | .ok bid =>
          match BidService.CheckRWRightsByUsername (faults.drop 1) db bid.TenderId
              username with
          | .error err => (apierror.HandleError err (bidRightsStatus err), db)
          | .ok _ =>
            match BidService.EditBidById (faults.drop 4) db bidId bidReq.Name
                bidReq.Description with
            | (.error err, db1) => (apierror.HandleError err (bidCallStatus err), db1)
            | (.ok bid, db1) => ({ status := 200, body := .ok bid }, db1)

/-- `SumbitDecisionHandler` of `api/bid`. -/
def SumbitDecisionHandler (NewService : Except Err Unit) (faults : List Bool) (db : DB)
    (bidId : Option UUID) (username decision : String) : Response Bid × DB :=
  match bidId with
  | none => (apierror.HandleError (.new "incorrect bid uuid") 400, db)
  | some bidId =>
    if username == "" then
      (apierror.HandleError (.new "username param is required") 400, db)
    else if decision == "" then
      (apierror.HandleError (.new "decision param is required") 400, db)
    else if decision != "Approved" && decision != "Rejected" then
      (apierror.HandleError (.new "not allowed decision") 400, db)
    else
      match NewService with
      | .error _ => (apierror.HandleError (.new "bids service creation failed") 500, db)
      | .ok _ =>
        match BidService.GetBidById faults db bidId with
        | .error err => (apierror.HandleError err (bidCallStatus err), db)
        | .ok bid =>
          match BidService.CheckRWRightsByUsername (faults.drop 1) db bid.TenderId
              username with
          | .error err => (apierror.HandleError err (bidRightsStatus err), db)
          | .ok _ =>
            match BidService.SubmitDecisionById (faults.drop 4) db bidId decision with
            | (.error err, db1) => (apierror.HandleError err (bidCallStatus err), db1)
            | (.ok bid, db1) => ({ status := 200, body := .ok bid }, db1)

/-- `FeedbackHandler` of `api/bid`: after the three parameter checks and
`NewService` it calls `CreateReviewById`; there is no `GetBidById` and no
`CheckRWRightsByUsername` in it. -/
def FeedbackHandler (NewService : Except Err Unit) (faults : List Bool) (db : DB)
    (gen_random_uuid : UUID) (current_timestamp : Time)
    (bidId : Option UUID) (username bidFeedback : String) : Response Bid × DB :=
  match bidId with
  | none => (apierror.HandleError (.new "incorrect bid uuid") 400, db)
  | some bidId =>
    if username == "" then
      (apierror.HandleError (.new "username param is required") 400, db)
    else if bidFeedback == "" then
      (apierror.HandleError (.new "bidFeedback param is required") 400, db)
    else
      match NewService with
      | .error _ => (apierror.HandleError (.new "bids service creation failed") 500, db)
      | .ok _ =>
        match BidService.CreateReviewById faults db gen_random_uuid current_timestamp bidId
            bidFeedback with
        | (.error err, db1) => (apierror.HandleError err (bidCallStatus err), db1)
        | (.ok bid, db1) => ({ status := 200, body := .ok bid }, db1)

/-- `RollbackHandler` of `api/bid`; `int32(version)` is `wrap32`. -/
def RollbackHandler (NewService : Except Err Unit) (faults : List Bool) (db : DB)
    (bidId : Option UUID) (username : String) (version : Option Int) : Response Bid × DB :=
  match bidId with
  | none => (apierror.HandleError (.new "incorrect bid uuid") 400, db)
  | some bidId =>
    if username == "" then
      (apierror.HandleError (.new "username param is required") 400, db)
    else
      match version with
      | none => (apierror.HandleError (.new "incorrect version") 400, db)
      | some version =>
        match NewService with
        | .error _ => (apierror.HandleError (.new "bids service creation failed") 500, db)
        | .ok _ =>
          match BidService.GetBidById faults db bidId with
          | .error err => (apierror.HandleError err (bidCallStatus err), db)
          | .ok bid =>
            match BidService.CheckRWRightsByUsername (faults.drop 1) db bid.TenderId
                username with
            | .error err => (apierror.HandleError err (bidRightsStatus err), db)
            | .ok _ =>
              match BidService.RollbackById (faults.drop 4) db bidId (wrap32 version) with
              | (.error err, db1) => (apierror.HandleError err (bidCallStatus err), db1)
              | (.ok bid, db1) => ({ status := 200, body := .ok bid }, db1)

/-! ## Sequences of operations -/

/-- The list `[1, 2, .., n]`. -/
def upTo (n : Nat) : List Int := (List.range n).map (fun (k : Nat) => (k : Int) + 1)

/-- The versions of the history records of tender `id`, in insertion order. -/
def tender_versions (db : DB) (id : UUID) : List Int :=
  (db.tender_history.filter (fun h => h.Id == id)).map (fun h => h.Version)

/-- The versions of the history records of bid `id`, in insertion order. -/
def bid_versions (db : DB) (id : UUID) : List Int :=
  (db.bid_history.filter (fun h => h.Id == id)).map (fun h => h.Version)

/-- A call that creates or mutates a tender: creation by the repository, edit,
status update and rollback by the service. -/
inductive TenderOp where
  | create (gen_random_uuid : UUID) (current_timestamp : Time)
      (name description serviceType : String) (organizarionId userId : UUID)
  | edit (id : UUID) (name description serviceType : String)
  | status (id : UUID) (status : String)
  | rollback (id : UUID) (version : Int)
deriving Repr

/-- The tender a call is about. -/
def TenderOp.target : TenderOp → UUID
  | .create u _ _ _ _ _ _ => u
  | .edit id _ _ _ => id
  | .status id _ => id
  | .rollback id _ => id

/-- One call on a healthy connection. -/
def TenderOp.run (db : DB) : TenderOp → Except Err Tender × DB
  | .create u t n d s o usr => TenderRepo.CreateTender [] db u t n d s o usr
  | .edit id n d s => TenderService.UpdateTender [] db id n d s
  | .status id st => TenderService.UpdateTenderStatus [] db id st
  | .rollback id v => TenderService.RollBackTender [] db id v

/-- The calls run one after another; `none` as soon as one of them returns an error. -/
def runTenderOps : DB → List TenderOp → Option DB
  | db, [] => some db
  | db, op :: ops =>
    match op.run db with
    | (.ok _, db1) => runTenderOps db1 ops
    | (.error _, _) => none

/-- A call that creates or mutates a bid: creation by the repository, edit,
status update and rollback by the service. -/
inductive BidOp where
  | create (gen_random_uuid : UUID) (current_timestamp : Time)
      (name description : String) (tenderId : UUID) (authorType : String) (authorId : UUID)
  | edit (id : UUID) (name description : String)
  | status (id : UUID) (status : String)
  | rollback (id : UUID) (version : Int)
deriving Repr

/-- The bid a call is about. -/
def BidOp.target : BidOp → UUID
  | .create u _ _ _ _ _ _ => u
  | .edit id _ _ => id
  | .status id _ => id
  | .rollback id _ => id

/-- One call on a healthy connection. -/
def BidOp.run (db : DB) : BidOp → Except Err Bid × DB
  | .create u t n d tid aty aid => BidRepo.CreateBid [] db u t n d tid aty aid
  | .edit id n d => BidService.EditBidById [] db id n d
  | .status id st => BidService.UpdateBidStatusById [] db id st
  | .rollback id v => BidService.RollbackById [] db id v

/-- The calls run one after another; `none` as soon as one of them returns an error. -/
def runBidOps : DB → List BidOp → Option DB
  | db, [] => some db
  | db, op :: ops =>
    match op.run db with
    | (.ok _, db1) => runBidOps db1 ops
    | (.error _, _) => none

/-- The versioning invariant of a live table and its history table, for the
number `cnt id` of successful calls made on each entity (its creation
included): an entity without a live row has no call and no history record; a
live row holds version `cnt id`, and the history records of the entity carry
the versions `1, .., cnt id - 1` in this order. -/
def Versioned {ρ η : Type} (key : ρ → UUID) (ver : ρ → Int) (hkey : η → UUID)
    (hver : η → Int) (live : List ρ) (hist : List η) (cnt : UUID → Nat) : Prop :=
  ∀ id,
    (live.find? (fun r => key r == id) = none →
      cnt id = 0 ∧ (hist.filter (fun h => hkey h == id)).map hver = []) ∧
    (∀ r, live.find? (fun r => key r == id) = some r →
      1 ≤ cnt id ∧ ver r = (cnt id : Int) ∧
        (hist.filter (fun h => hkey h == id)).map hver = upTo (cnt id - 1))

/-- The `SET` list of the update of `tender`: the six written columns taken from `t`. -/
def tenderSet (t : Tender) (r : TenderRow) : TenderRow :=
  { r with Name := t.Name, Description := t.Description, ServiceType := t.ServiceType,
           Status := t.Status, OrganizationId := t.OrganizationId, Version := t.Version }

/-- The shape of a versioned write of tender `id` that returned `ret`: the live
row found is archived at its own version, which had no record yet, and the
rows of the tender are rewritten by a function that keeps `id`, `created_at`
and `user_id` and gives the live row the attributes and the version of `ret`. -/
def TenderWrite (db db1 : DB) (id : UUID) (ret : Tender) : Prop :=
  ∃ (live : TenderRow) (f : TenderRow → TenderRow),
    tender_select db id = some live ∧
    tender_history_select db id live.Version = none ∧
    (∀ r, (f r).Id = r.Id ∧ (f r).CreatedAt = r.CreatedAt ∧ (f r).user_id = r.user_id) ∧
    ((f live).Name = ret.Name ∧ (f live).Description = ret.Description ∧
      (f live).ServiceType = ret.ServiceType ∧ (f live).Status = ret.Status ∧
      (f live).OrganizationId = ret.OrganizationId ∧ (f live).Version = ret.Version) ∧
    ret.Id = id ∧ ret.Version = wrap32 (live.Version + 1) ∧
    db1 = { db with
      tender_history := db.tender_history ++ [live.toTender],
      tender := db.tender.map (fun r => if r.Id == id then f r else r) }

/-- The shape of a versioned write of bid `id` that returned `ret`: the live row
found is archived at its own version, which had no record yet, and the rows
of the bid are rewritten by a function that keeps `id`, `created_at` and the
two counters and turns the live row into `ret`. -/
def BidWrite (db db1 : DB) (id : UUID) (ret : Bid) : Prop :=
  ∃ (live : BidRow) (f : BidRow → BidRow),
    bid_select db id = some live ∧
    bid_history_select db id live.Version = none ∧
    (∀ r, (f r).Id = r.Id ∧ (f r).CreatedAt = r.CreatedAt ∧
      (f r).rejects = r.rejects ∧ (f r).approves = r.approves) ∧
    (f live).toBid = ret ∧
    ret.Id = id ∧ ret.Version = wrap32 (live.Version + 1) ∧
    db1 = { db with
      bid_history := db.bid_history ++ [live.toBid],
      bid := db.bid.map (fun r => if r.Id == id then f r else r) }

/-- The number of calls of a sequence that are about tender `id`. -/
def tenderCalls (ops : List TenderOp) (id : UUID) : Nat :=
  ops.countP (fun op => op.target == id)

/-- The number of calls of a sequence that are about bid `id`. -/
def bidCalls (ops : List BidOp) (id : UUID) : Nat :=
  ops.countP (fun op => op.target == id)

/-- The versioning invariant of the tables `tender` and `tender_history`. -/
def TenderInv (db : DB) (cnt : UUID → Nat) : Prop :=
  Versioned (fun r : TenderRow => r.Id) (fun r => r.Version) (fun h : Tender => h.Id)
    (fun h => h.Version) db.tender db.tender_history cnt

/-- The versioning invariant of the tables `bid` and `bid_history`. -/
def BidInv (db : DB) (cnt : UUID → Nat) : Prop :=
  Versioned (fun r : BidRow => r.Id) (fun r => r.Version) (fun h : Bid => h.Id)
    (fun h => h.Version) db.bid db.bid_history cnt

/-- Decisions submitted for one bid, one call after the other on a healthy
connection: the results in order and the database at the end. -/
def runDecisions : DB → UUID → List String → List (Except Err Bid) × DB
  | db, _, [] => ([], db)
  | db, id, decision :: rest =>
    let r := BidService.SubmitDecisionById [] db id decision
    let rs := runDecisions r.2 id rest
    (r.1 :: rs.1, rs.2)

/-- The table `bid` after `UPDATE bid SET approves = $1 WHERE id = $2`. -/
def setApproves (db : DB) (id : UUID) (approves : Int) : DB :=
  { db with bid := db.bid.map (fun r =>
      if r.Id == id then { r with approves := approves } else r) }

/-- The table `bid` after `UPDATE bid SET rejects = $1 WHERE id = $2`. -/
def setRejects (db : DB) (id : UUID) (rejects : Int) : DB :=
  { db with bid := db.bid.map (fun r =>
      if r.Id == id then { r with rejects := rejects } else r) }

/-- The state after `j` consecutive approvals of a fresh bid `row` whose deciding
organization has `usersId` as responsible users: the bid is as it was, with
`rejects = 0` and `approves = min j (quorum + 1)`; the membership tables are
as they were; the parent tender is `Closed` exactly when `j` is at least 1 and
at least the quorum. -/
def AfterApprovals (db : DB) (id : UUID) (row : BidRow) (usersId : List UUID) (j : Nat)
    (d : DB) : Prop :=
  d.organization_responsible = db.organization_responsible ∧
  d.organization = db.organization ∧
  ∃ (rowj : BidRow) (tj : TenderRow),
    bid_select d id = some rowj ∧ rowj.toBid = row.toBid ∧ rowj.rejects = 0 ∧
    rowj.approves = min (j : Int) (min 3 (usersId.length : Int) + 1) ∧
    tender_select d row.TenderId = some tj ∧
    (tj.Status = "Closed" ↔ (1 ≤ j ∧ min 3 (usersId.length : Int) ≤ (j : Int)))

/-- Decision calls for one bid, one after another, each with the faults of its
own connection and its own decision: the database at the end. -/
def runDecisionCalls : DB → UUID → List (List Bool × String) → DB
  | db, _, [] => db
  | db, id, (faults, decision) :: rest =>
    runDecisionCalls (BidService.SubmitDecisionById faults db id decision).2 id rest

/-- The stored creation times: `(id, created_at)` of every row of `tender` and of
every row of `bid`. -/
def createdAts (db : DB) : List (UUID × Time) × List (UUID × Time) :=
  (db.tender.map (fun r => (r.Id, r.CreatedAt)), db.bid.map (fun r => (r.Id, r.CreatedAt)))

/-- Every history record belongs to a live row and carries its creation time. -/
def CreatedAtInv (db : DB) : Prop :=
  (∀ h ∈ db.tender_history,
    ∃ r, tender_select db h.Id = some r ∧ r.CreatedAt = h.CreatedAt) ∧
  (∀ h ∈ db.bid_history,
    ∃ r, bid_select db h.Id = some r ∧ r.CreatedAt = h.CreatedAt)

/-- The columns of every row of `tender` other than `status`. -/
def tenderButStatus (db : DB) : List TenderRow :=
  db.tender.map (fun r => { r with Status := "" })

/-! ## Example states -/

/-- Organization 1 has two responsible users (11, 12), organization 2 has five. -/
def exMembers : List OrgResponsible :=
  [⟨1, 11⟩, ⟨1, 12⟩, ⟨2, 21⟩, ⟨2, 22⟩, ⟨2, 23⟩, ⟨2, 24⟩, ⟨2, 25⟩]

/-- Tender 7 of organization 1 at version 2 (version 1 archived), bid 9 on it at
version 2 (version 1 archived), written by user 11. -/
def exDb : DB :=
  { tender := [{ Id := 7, Name := "road", Description := "new text", ServiceType := "Construction",
                 Status := "Published", OrganizationId := 1, Version := 2, CreatedAt := 100,
                 user_id := 11 }],
    tender_history := [{ Id := 7, Name := "road", Description := "old text",
                         ServiceType := "Construction", Status := "Created",
                         OrganizationId := 1, Version := 1, CreatedAt := 100 }],
    bid := [{ Id := 9, Name := "offer", Description := "second", Status := "Published",
              TenderId := 7, AuthorType := "User", AuthorId := 11, Version := 2,
              CreatedAt := 200, rejects := 0, approves := 0 }],
    bid_history := [{ Id := 9, Name := "offer", Description := "first", Status := "Created",
                      TenderId := 7, AuthorType := "User", AuthorId := 11, Version := 1,
                      CreatedAt := 200 }],
    review := [],
    employee := [⟨11, "ann", "Ann", "A"⟩, ⟨12, "bob", "Bob", "B"⟩],
    organization := [⟨1, "org one", "", "LLC"⟩, ⟨2, "org two", "", "JSC"⟩],
    organization_responsible := exMembers }

/-- The example state before any tender or bid was written. -/
def exDb0 : DB := { exDb with tender := [], tender_history := [], bid := [], bid_history := [] }

/-- Tender 7 is created, edited, rolled back to version 1; tender 8 is created in between. -/
def exTenderOps : List TenderOp :=
  [.create 7 100 "road" "old text" "Construction" 1 11,
   .edit 7 "" "new text" "",
   .create 8 101 "bridge" "steel" "Delivery" 2 12,
   .rollback 7 1]

/-- The state reached by `exTenderOps`. -/
def exDbT : DB := (runTenderOps exDb0 exTenderOps).getD exDb0

/-- The example state with tender 7 and no bid. -/
def exDb1 : DB := { exDb with bid := [], bid_history := [] }

/-- Bid 9 is created, published, renamed. -/
def exBidOps : List BidOp :=
  [.create 9 200 "offer" "first" 7 "User" 11,
   .status 9 "Published",
   .edit 9 "" "second"]

/-- The state reached by `exBidOps`. -/
def exDbB : DB := (runBidOps exDb1 exBidOps).getD exDb1

/-- The example state with a second bid, 10, written by organization 2 (five
responsible users) on tender 7. -/
def exDbQ : DB :=
  { exDb with bid := exDb.bid ++
      [{ Id := 10, Name := "offer of org two", Description := "steel", Status := "Published",
         TenderId := 7, AuthorType := "Organization", AuthorId := 2, Version := 1,
         CreatedAt := 300, rejects := 0, approves := 0 }] }

/-- The state after two approvals of bid 9, whose deciding organization 1 has two
responsible users: the quorum 2 is reached. -/
def exDbApproved : DB := (runDecisions exDbQ 9 ["Approved", "Approved"]).2

/-- The state after one rejection of bid 9. -/
def exDbRejected : DB := (runDecisions exDbQ 9 ["Rejected"]).2

/-- The state after one approval of bid 9 (quorum 2): the next approval reaches the quorum. -/
def exDbOne : DB := (runDecisions exDbQ 9 ["Approved"]).2

/-- The decision counters of every bid: `(id, approves, rejects)` for each row of `bid`. -/
def decisionCounters (db : DB) : List (UUID × Int × Int) :=
  db.bid.map (fun r => (r.Id, r.approves, r.rejects))

/-- The versioned attributes of every bid: the rows of `bid` without the two counters. -/
def bidAttributes (db : DB) : List Bid :=
  db.bid.map (fun r => r.toBid)

/-- The example state with a third employee, 13, who represents no organization,
and a bid 14 of that user on tender 7. -/
def exDbNoOrg : DB :=
  { exDb with
    employee := exDb.employee ++ [⟨13, "cat", "Cat", "C"⟩],
    bid := exDb.bid ++
      [{ Id := 14, Name := "lone offer", Description := "wood", Status := "Published",
         TenderId := 7, AuthorType := "User", AuthorId := 13, Version := 1,
         CreatedAt := 400, rejects := 0, approves := 0 }] }

/-- The state reached by `exTenderOps` (tender 7 `road` of organization 1 and
tender 8 `bridge` of organization 2), with the employee 13, who represents no
organization, and two bids of user 11 on tender 7: `offer` was written before
`bargain`. -/
def exDbList : DB :=
  { exDbT with
    employee := exDbT.employee ++ [⟨13, "cat", "Cat", "C"⟩],
    bid := [{ Id := 9, Name := "offer", Description := "first", Status := "Created",
              TenderId := 7, AuthorType := "User", AuthorId := 11, Version := 1,
              CreatedAt := 200, rejects := 0, approves := 0 },
            { Id := 16, Name := "bargain", Description := "cheaper", Status := "Created",
              TenderId := 7, AuthorType := "User", AuthorId := 11, Version := 1,
              CreatedAt := 500, rejects := 0, approves := 0 }],
    bid_history := [] }

/-- The example state with a third organization, 3, that has no responsible
user, and a bid 15 of that organization on tender 7. -/
def exDbEmptyOrg : DB :=
  { exDb with
    organization := exDb.organization ++ [⟨3, "org three", "", "IE"⟩],
    bid := exDb.bid ++
      [{ Id := 15, Name := "offer of org three", Description := "sand", Status := "Published",
         TenderId := 7, AuthorType := "Organization", AuthorId := 3, Version := 1,
         CreatedAt := 600, rejects := 0, approves := 0 }] }

/-! ## Lemmas on the statements -/

@[simp] theorem fault_nil : fault [] = false := rfl

theorem find?_map_upd {α : Type} (key : α → UUID) (f : α → α) (hf : ∀ a, key (f a) = key a)
    (id : UUID) (l : List α) :
    (l.map (fun r => if key r == id then f r else r)).find? (fun r => key r == id) =
      (l.find? (fun r => key r == id)).map f := by
  induction l with
  | nil => rfl
  | cons a l ih =>
    rw [List.map_cons, List.find?_cons, List.find?_cons]
    by_cases h : (key a == id) = true
    · have h1 : (key (f a) == id) = true := by rw [hf]; exact h
      simp only [h, h1, if_true, Option.map_some']
    · have h1 : (key a == id) = false := by simpa using h
      simp only [h1, Bool.false_eq_true, if_false]
      exact ih

theorem find?_map_upd_ne {α : Type} (key : α → UUID) (f : α → α) (hf : ∀ a, key (f a) = key a)
    (id id2 : UUID) (hne : id2 ≠ id) (l : List α) :
    (l.map (fun r => if key r == id then f r else r)).find? (fun r => key r == id2) =
      l.find? (fun r => key r == id2) := by
  induction l with
  | nil => rfl
  | cons a l ih =>
    rw [List.map_cons, List.find?_cons, List.find?_cons]
    by_cases h : (key a == id) = true
    · have h0 : key a = id := by simpa using h
      have h1 : (key (f a) == id2) = false := by
        rw [hf, h0]; simpa using fun e : id = id2 => hne e.symm
      have h2 : (key a == id2) = false := by
        rw [h0]; simpa using fun e : id = id2 => hne e.symm
      simp only [h, h1, h2, if_true]
      exact ih
    · have h1 : (key a == id) = false := by simpa using h
      simp only [h1, Bool.false_eq_true, if_false]
      rw [ih]

theorem map_upd_absent {α : Type} (key : α → UUID) (f : α → α) (id : UUID) (l : List α)
    (h : l.any (fun r => key r == id) = false) :
    l.map (fun r => if key r == id then f r else r) = l := by
  induction l with
  | nil => rfl
  | cons a l ih =>
    rw [List.any_cons, Bool.or_eq_false_iff] at h
    rw [List.map_cons, ih h.2]
    simp only [h.1, Bool.false_eq_true, if_false]

theorem tender_history_insert_ok {db db1 : DB} {t : Tender}
    (h : tender_history_insert db t = .ok db1) :
    db1 = { db with tender_history := db.tender_history ++ [t] } ∧
      tender_history_select db t.Id t.Version = none := by
  unfold tender_history_insert at h
  split at h
  · cases h
  · split at h
    · cases h
    · rename_i hany
      refine ⟨by cases h; rfl, ?_⟩
      unfold tender_history_select
      rw [List.find?_eq_none]
      intro x hx hp
      exact hany (List.any_eq_true.mpr ⟨x, hx, hp⟩)

theorem tender_update_ok {db db1 : DB} {name description service_type status : String}
    {organization_id : UUID} {version : Int} {id : UUID}
    (h : tender_update db name description service_type status organization_id version id
      = .ok db1) :
    db1 = { db with tender := db.tender.map (fun r =>
      if r.Id == id then
        { r with Name := name, Description := description, ServiceType := service_type,
                 Status := status, OrganizationId := organization_id, Version := version }
      else r) } := by
  unfold tender_update at h
  split at h
  · cases h
  · split at h
    · rename_i hno
      cases h
      have hno2 : db.tender.any (fun r => r.Id == id) = false := by simpa using hno
      rw [map_upd_absent (fun r : TenderRow => r.Id) _ id db.tender hno2]
    · split at h
      · cases h
      · split at h
        · cases h
        · split at h
          · cases h
          · cases h; rfl

theorem bid_history_insert_ok {db db1 : DB} {b : Bid}
    (h : bid_history_insert db b = .ok db1) :
    db1 = { db with bid_history := db.bid_history ++ [b] } ∧
      bid_history_select db b.Id b.Version = none := by
  unfold bid_history_insert at h
  split at h
  · cases h
  · split at h
    · cases h
    · rename_i hany
      refine ⟨by cases h; rfl, ?_⟩
      unfold bid_history_select
      rw [List.find?_eq_none]
      intro x hx hp
      exact hany (List.any_eq_true.mpr ⟨x, hx, hp⟩)

theorem bid_update_ok {db db1 : DB} {name description status : String} {tender_id : UUID}
    {author_type : String} {author_id : UUID} {version : Int} {id : UUID}
    (h : bid_update db name description status tender_id author_type author_id version id
      = .ok db1) :
    db1 = { db with bid := db.bid.map (fun r =>
      if r.Id == id then
        { r with Name := name, Description := description, Status := status,
                 TenderId := tender_id, AuthorType := author_type,
                 AuthorId := author_id, Version := version }
      else r) } := by
  unfold bid_update at h
  split at h
  · cases h
  · split at h
    · rename_i hno
      cases h
      have hno2 : db.bid.any (fun r => r.Id == id) = false := by simpa using hno
      rw [map_upd_absent (fun r : BidRow => r.Id) _ id db.bid hno2]
    · split at h
      · cases h
      · split at h
        · cases h
        · split at h
          · cases h
          · cases h; rfl

theorem tender_select_id {db : DB} {id : UUID} {r : TenderRow}
    (h : tender_select db id = some r) : r.Id = id := by
  have := List.find?_some h
  simpa using this

theorem bid_select_id {db : DB} {id : UUID} {r : BidRow}
    (h : bid_select db id = some r) : r.Id = id := by
  have := List.find?_some h
  simpa using this

/-- What a rollback of a tender that returns without error did, on a healthy connection. -/
theorem RollBackTender_ok {db db1 : DB} {id : UUID} {v : Int} {ret : Tender}
    (h : TenderRepo.RollBackTender [] db id v = (.ok ret, db1)) :
    ∃ live old, tender_select db id = some live ∧
      tender_history_select db id live.Version = none ∧
      (db.tender_history ++ [live.toTender]).find?
        (fun x => x.Id == id && x.Version == v) = some old ∧
      ret = { old with Version := wrap32 (live.Version + 1) } ∧
      db1 = { db with
        tender_history := db.tender_history ++ [live.toTender],
        tender := db.tender.map (fun r =>
          if r.Id == id then
            { r with Name := old.Name, Description := old.Description,
                     ServiceType := old.ServiceType, Status := old.Status,
                     OrganizationId := old.OrganizationId,
                     Version := wrap32 (live.Version + 1) }
          else r) } := by
  unfold TenderRepo.RollBackTender at h
  simp only [fault_nil, List.drop_nil, Bool.false_eq_true, if_false] at h
  split at h
  · cases h
  · rename_i live hlive
    split at h
    · cases h
    · rename_i tx1 hins
      obtain ⟨htx1, hfresh⟩ := tender_history_insert_ok hins
      rw [tender_select_id hlive] at hfresh
      split at h
      · cases h
      · rename_i old hold
        have hoid : old.Id = id := by
          have := List.find?_some hold
          simp only [Bool.and_eq_true, beq_iff_eq] at this
          exact this.1
        split at h
        · cases h
        · rename_i tx2 hupd
          have htx2 := tender_update_ok hupd
          simp only [Prod.mk.injEq, Except.ok.injEq] at h
          refine ⟨live, old, hlive, hfresh, ?_, h.1.symm, ?_⟩
          · rw [htx1] at hold; exact hold
          · rw [← h.2, htx2, htx1]
            simp only [hoid]

/-- What a rollback of a bid that returns without error did, on a healthy connection. -/
theorem RollbackById_ok {db db1 : DB} {id : UUID} {v : Int} {ret : Bid}
    (h : BidRepo.RollbackById [] db id v = (.ok ret, db1)) :
    ∃ live old, bid_select db id = some live ∧
      bid_history_select db id live.Version = none ∧
      (db.bid_history ++ [live.toBid]).find?
        (fun x => x.Id == id && x.Version == v) = some old ∧
      ret = { live.toBid with
                Name := old.Name, Description := old.Description,
                Status := old.Status, TenderId := old.TenderId,
                AuthorType := old.AuthorType, AuthorId := old.AuthorId,
                Version := wrap32 (live.Version + 1) } ∧
      db1 = { db with
        bid_history := db.bid_history ++ [live.toBid],
        bid := db.bid.map (fun r =>
          if r.Id == id then
            { r with Name := old.Name, Description := old.Description,
                     Status := old.Status, TenderId := old.TenderId,
                     AuthorType := old.AuthorType, AuthorId := old.AuthorId,
                     Version := wrap32 (live.Version + 1) }
          else r) } := by
  unfold BidRepo.RollbackById at h
  simp only [fault_nil, List.drop_nil, Bool.false_eq_true, if_false] at h
  split at h
  · cases h
  · rename_i live hlive
    split at h
    · cases h
    · rename_i tx1 hins
      obtain ⟨htx1, hfresh⟩ := bid_history_insert_ok hins
      rw [bid_select_id hlive] at hfresh
      split at h
      · cases h
      · rename_i old hold
        split at h
        · cases h
        · rename_i tx2 hupd
          have htx2 := bid_update_ok hupd
          simp only [Prod.mk.injEq, Except.ok.injEq] at h
          refine ⟨live, old, hlive, hfresh, ?_, h.1.symm, ?_⟩
          · rw [htx1] at hold; exact hold
          · rw [← h.2, htx2, htx1]

/-! ## Rollback -/

theorem wrap32_succ {c : Int} (h1 : 1 ≤ c) (h2 : c < 2147483647) : wrap32 (c + 1) = c + 1 := by
  unfold wrap32
  omega

/-- C1 (rollback correctness).  On a healthy connection, a rollback of a tender
(`TenderRepo.RollBackTender`) or of a bid (`BidRepo.RollbackById`) to a version
`v` that has a history record `old`, when it returns without error, leaves a
live row whose attributes are those of `old` and whose version is the previous
live version plus one (so it is not `v` for any `v` up to the live version);
the returned entity carries the same values.  Versions are Go `int32`: the
live version is taken between 1 and 2147483646. -/
theorem rollback_restores_snapshot :
    (∀ (db db1 : DB) (id : UUID) (v : Int) (live : TenderRow) (old ret : Tender),
      tender_select db id = some live →
      tender_history_select db id v = some old →
      1 ≤ live.Version → live.Version < 2147483647 →
      TenderRepo.RollBackTender [] db id v = (.ok ret, db1) →
      ∃ live1, tender_select db1 id = some live1 ∧
        live1.Name = old.Name ∧ live1.Description = old.Description ∧
        live1.Status = old.Status ∧ live1.ServiceType = old.ServiceType ∧
        live1.OrganizationId = old.OrganizationId ∧
        live1.Version = live.Version + 1 ∧ (v ≤ live.Version → live1.Version ≠ v) ∧
        ret = { old with Version := live.Version + 1 }) ∧
    (∀ (db db1 : DB) (id : UUID) (v : Int) (live : BidRow) (old ret : Bid),
      bid_select db id = some live →
      bid_history_select db id v = some old →
      1 ≤ live.Version → live.Version < 2147483647 →
      BidRepo.RollbackById [] db id v = (.ok ret, db1) →
      ∃ live1, bid_select db1 id = some live1 ∧
        live1.Name = old.Name ∧ live1.Description = old.Description ∧
        live1.Status = old.Status ∧ live1.TenderId = old.TenderId ∧
        live1.AuthorType = old.AuthorType ∧ live1.AuthorId = old.AuthorId ∧
        live1.Version = live.Version + 1 ∧ (v ≤ live.Version → live1.Version ≠ v) ∧
        ret = live1.toBid) := by
  constructor
  · intro db db1 id v live old ret hlive hold h1 h2 hrun
    obtain ⟨live0, old0, hl0, _, hfind, hret, hdb⟩ := RollBackTender_ok hrun
    rw [hlive] at hl0
    cases hl0
    have hfind2 : (db.tender_history ++ [live.toTender]).find?
        (fun x => x.Id == id && x.Version == v) = some old := by
      rw [List.find?_append]
      unfold tender_history_select at hold
      rw [hold]; rfl
    rw [hfind2] at hfind
    cases hfind
    rw [wrap32_succ h1 h2] at hret hdb
    have hsel : tender_select db1 id = some
        { live with Name := old.Name, Description := old.Description,
                    ServiceType := old.ServiceType, Status := old.Status,
                    OrganizationId := old.OrganizationId,
                    Version := live.Version + 1 } := by
      rw [hdb]
      unfold tender_select
      have := find?_map_upd (fun r : TenderRow => r.Id)
        (fun r => { r with Name := old.Name, Description := old.Description,
                           ServiceType := old.ServiceType, Status := old.Status,
                           OrganizationId := old.OrganizationId,
                           Version := live.Version + 1 })
        (fun _ => rfl) id db.tender
      unfold tender_select at hlive
      rw [hlive] at this
      exact this
    refine ⟨_, hsel, rfl, rfl, rfl, rfl, rfl, rfl, ?_, hret⟩
    intro hv
    show live.Version + 1 ≠ v
    omega
  · intro db db1 id v live old ret hlive hold h1 h2 hrun
    obtain ⟨live0, old0, hl0, _, hfind, hret, hdb⟩ := RollbackById_ok hrun
    rw [hlive] at hl0
    cases hl0
    have hfind2 : (db.bid_history ++ [live.toBid]).find?
        (fun x => x.Id == id && x.Version == v) = some old := by
      rw [List.find?_append]
      unfold bid_history_select at hold
      rw [hold]; rfl
    rw [hfind2] at hfind
    cases hfind
    rw [wrap32_succ h1 h2] at hret hdb
    have hsel : bid_select db1 id = some
        { live with Name := old.Name, Description := old.Description,
                    Status := old.Status, TenderId := old.TenderId,
                    AuthorType := old.AuthorType, AuthorId := old.AuthorId,
                    Version := live.Version + 1 } := by
      rw [hdb]
      unfold bid_select
      have := find?_map_upd (fun r : BidRow => r.Id)
        (fun r => { r with Name := old.Name, Description := old.Description,
                           Status := old.Status, TenderId := old.TenderId,
                           AuthorType := old.AuthorType, AuthorId := old.AuthorId,
                           Version := live.Version + 1 })
        (fun _ => rfl) id db.bid
      unfold bid_select at hlive
      rw [hlive] at this
      exact this
    refine ⟨_, hsel, rfl, rfl, rfl, rfl, rfl, rfl, rfl, ?_, hret⟩
    intro hv
    show live.Version + 1 ≠ v
    omega

/-- C1 at the example state: tender 7 and bid 9, both at version 2, rolled back to version 1. -/
theorem rollback_restores_snapshot_witness :
    (∃ live1, tender_select (TenderRepo.RollBackTender [] exDb 7 1).2 7 = some live1 ∧
      live1.Description = "old text" ∧ live1.Status = "Created" ∧ live1.Version = 3) ∧
    (∃ live1, bid_select (BidRepo.RollbackById [] exDb 9 1).2 9 = some live1 ∧
      live1.Description = "first" ∧ live1.Status = "Created" ∧ live1.Version = 3) :=
  ⟨(rollback_restores_snapshot.1 exDb _ 7 1 _ _ _ rfl rfl (by decide) (by decide) rfl).imp
      (fun _ h => ⟨h.1, h.2.2.1, h.2.2.2.1, h.2.2.2.2.2.2.1⟩),
   (rollback_restores_snapshot.2 exDb _ 9 1 _ _ _ rfl rfl (by decide) (by decide) rfl).imp
      (fun _ h => ⟨h.1, h.2.2.1, h.2.2.2.1, h.2.2.2.2.2.2.2.1⟩)⟩

theorem tender_update_error {db : DB} {name description service_type status : String}
    {organization_id : UUID} {version : Int} {id : UUID} {e : Err}
    (h : tender_update db name description service_type status organization_id version id
      = .error e) : e = .sqlConstraint := by
  unfold tender_update at h
  repeat' split at h
  all_goals first | (cases h; rfl) | cases h

theorem bid_update_error {db : DB} {name description status : String} {tender_id : UUID}
    {author_type : String} {author_id : UUID} {version : Int} {id : UUID} {e : Err}
    (h : bid_update db name description status tender_id author_type author_id version id
      = .error e) : e = .sqlConstraint := by
  unfold bid_update at h
  repeat' split at h
  all_goals first | (cases h; rfl) | cases h

theorem tender_history_insert_of {db : DB} {t : Tender}
    (hcols : tender_columns_ok t.Name t.Description t.ServiceType t.Status = true)
    (hfresh : tender_history_select db t.Id t.Version = none) :
    tender_history_insert db t = .ok { db with tender_history := db.tender_history ++ [t] } := by
  unfold tender_history_insert
  have hany : db.tender_history.any (fun h => h.Id == t.Id && h.Version == t.Version) = false := by
    cases hb : db.tender_history.any (fun h => h.Id == t.Id && h.Version == t.Version) with
    | false => rfl
    | true =>
      obtain ⟨x, hx, hp⟩ := List.any_eq_true.mp hb
      unfold tender_history_select at hfresh
      exact absurd hp (List.find?_eq_none.mp hfresh x hx)
  simp only [hcols, hany, Bool.not_true, Bool.false_eq_true, if_false]

theorem bid_history_insert_of {db : DB} {b : Bid}
    (hcols : bid_columns_ok b.Name b.Description b.Status b.AuthorType = true)
    (hfresh : bid_history_select db b.Id b.Version = none) :
    bid_history_insert db b = .ok { db with bid_history := db.bid_history ++ [b] } := by
  unfold bid_history_insert
  have hany : db.bid_history.any (fun h => h.Id == b.Id && h.Version == b.Version) = false := by
    cases hb : db.bid_history.any (fun h => h.Id == b.Id && h.Version == b.Version) with
    | false => rfl
    | true =>
      obtain ⟨x, hx, hp⟩ := List.any_eq_true.mp hb
      unfold bid_history_select at hfresh
      exact absurd hp (List.find?_eq_none.mp hfresh x hx)
  simp only [hcols, hany, Bool.not_true, Bool.false_eq_true, if_false]

/-- The lookup of a rollback: the history extended by the snapshot of the live row
has no record `(id, v)` exactly when the old history has none and `v` is not
the live version. -/
theorem find?_snapshot_none {α : Type} (key : α → UUID) (ver : α → Int) (l : List α)
    (live : α) (id : UUID) (v : Int) (hid : key live = id) :
    (l ++ [live]).find? (fun x => key x == id && ver x == v) = none ↔
      (l.find? (fun x => key x == id && ver x == v) = none ∧ v ≠ ver live) := by
  rw [List.find?_append]
  cases hl : l.find? (fun x => key x == id && ver x == v) with
  | some a => simp
  | none =>
    by_cases hv : ver live = v
    · simp [List.find?_cons, hid, hv]
    · have hv2 : v ≠ ver live := fun e => hv e.symm
      simp [List.find?_cons, hid, hv, hv2]

/-- C2, refuted as stated: tender 7 and bid 9 are live at version 2 and version 2
has no history record, yet the rollback to version 2 returns without error, with
the live content at version 3. -/
theorem rollback_to_live_version_succeeds :
    ((tender_select exDb 7).map (fun r => r.Version) = some 2 ∧
      tender_history_select exDb 7 2 = none ∧
      (TenderRepo.RollBackTender [] exDb 7 2).1 =
        .ok { Id := 7, Name := "road", Description := "new text",
              ServiceType := "Construction", Status := "Published",
              OrganizationId := 1, Version := 3, CreatedAt := 100 }) ∧
    ((bid_select exDb 9).map (fun r => r.Version) = some 2 ∧
      bid_history_select exDb 9 2 = none ∧
      (BidRepo.RollbackById [] exDb 9 2).1 =
        .ok { Id := 9, Name := "offer", Description := "second", Status := "Published",
              TenderId := 7, AuthorType := "User", AuthorId := 11, Version := 3,
              CreatedAt := 200 }) :=
  ⟨⟨rfl, rfl, rfl⟩, ⟨rfl, rfl, rfl⟩⟩

/-- C2 (amended).  A rollback archives the live row before it searches the
history.  For a live row at version `c` that satisfies the column constraints
and whose version `c` is not yet archived, on a healthy connection: the
rollback fails with `sql.ErrNoRows` exactly when no history record
`(id, target)` existed before the call and `target` is not `c`; so a rollback
to `c` itself never fails that way, and when it returns without error the
entity returned is the live content with the next version. -/
theorem rollback_not_found_iff :
    (∀ (db : DB) (id : UUID) (v : Int) (live : TenderRow),
      tender_select db id = some live →
      tender_columns_ok live.Name live.Description live.ServiceType live.Status = true →
      tender_history_select db id live.Version = none →
      ((TenderRepo.RollBackTender [] db id v).1 = .error .sqlErrNoRows ↔
          (tender_history_select db id v = none ∧ v ≠ live.Version)) ∧
        (TenderRepo.RollBackTender [] db id live.Version).1 ≠ .error .sqlErrNoRows ∧
        ∀ ret db1, TenderRepo.RollBackTender [] db id live.Version = (.ok ret, db1) →
          ret = { live.toTender with Version := wrap32 (live.Version + 1) }) ∧
    (∀ (db : DB) (id : UUID) (v : Int) (live : BidRow),
      bid_select db id = some live →
      bid_columns_ok live.Name live.Description live.Status live.AuthorType = true →
      bid_history_select db id live.Version = none →
      ((BidRepo.RollbackById [] db id v).1 = .error .sqlErrNoRows ↔
          (bid_history_select db id v = none ∧ v ≠ live.Version)) ∧
        (BidRepo.RollbackById [] db id live.Version).1 ≠ .error .sqlErrNoRows ∧
        ∀ ret db1, BidRepo.RollbackById [] db id live.Version = (.ok ret, db1) →
          ret = { live.toBid with Version := wrap32 (live.Version + 1) }) := by
  constructor
  · intro db id v live hlive hcols hfresh
    have hid := tender_select_id hlive
    have key : ∀ w : Int, ((TenderRepo.RollBackTender [] db id w).1 = .error .sqlErrNoRows ↔
        (tender_history_select db id w = none ∧ w ≠ live.Version)) := by
      intro w
      have hins := @tender_history_insert_of db live.toTender hcols
        (by rw [hid]; exact hfresh)
      have hsnap := find?_snapshot_none (fun x : Tender => x.Id) (fun x => x.Version)
        db.tender_history live.toTender id w hid
      unfold TenderRepo.RollBackTender
      simp only [fault_nil, List.drop_nil, Bool.false_eq_true, if_false, hlive, hins]
      unfold tender_history_select
      cases hf : (db.tender_history ++ [live.toTender]).find?
          (fun x => x.Id == id && x.Version == w) with
      | none =>
        simp only [true_iff]
        exact hsnap.mp hf
      | some old =>
        have hne : ¬ (List.find? (fun x => x.Id == id && x.Version == w) db.tender_history = none ∧
            w ≠ live.Version) := by
          intro hc
          rw [hsnap.mpr hc] at hf
          cases hf
        simp only [hne, iff_false]
        split
        · rename_i e he
          have := tender_update_error he
          subst this
          simp
        · simp
    refine ⟨key v, ?_, ?_⟩
    · intro hc
      exact ((key live.Version).mp hc).2 rfl
    · intro ret db1 hrun
      obtain ⟨live0, old0, hl0, _, hfind, hret, _⟩ := RollBackTender_ok hrun
      rw [hlive] at hl0
      cases hl0
      rw [List.find?_append] at hfind
      unfold tender_history_select at hfresh
      rw [hfresh] at hfind
      simp [List.find?_cons, hid] at hfind
      subst hfind
      exact hret
  · intro db id v live hlive hcols hfresh
    have hid := bid_select_id hlive
    have key : ∀ w : Int, ((BidRepo.RollbackById [] db id w).1 = .error .sqlErrNoRows ↔
        (bid_history_select db id w = none ∧ w ≠ live.Version)) := by
      intro w
      have hins := @bid_history_insert_of db live.toBid hcols
        (by rw [hid]; exact hfresh)
      have hsnap := find?_snapshot_none (fun x : Bid => x.Id) (fun x => x.Version)
        db.bid_history live.toBid id w hid
      unfold BidRepo.RollbackById
      simp only [fault_nil, List.drop_nil, Bool.false_eq_true, if_false, hlive, hins]
      unfold bid_history_select
      cases hf : (db.bid_history ++ [live.toBid]).find?
          (fun x => x.Id == id && x.Version == w) with
      | none =>
        simp only [true_iff]
        exact hsnap.mp hf
      | some old =>
        have hne : ¬ (List.find? (fun x => x.Id == id && x.Version == w) db.bid_history = none ∧
            w ≠ live.Version) := by
          intro hc
          rw [hsnap.mpr hc] at hf
          cases hf
        simp only [hne, iff_false]
        split
        · rename_i e he
          have := bid_update_error he
          subst this
          simp
        · simp
    refine ⟨key v, ?_, ?_⟩
    · intro hc
      exact ((key live.Version).mp hc).2 rfl
    · intro ret db1 hrun
      obtain ⟨live0, old0, hl0, _, hfind, hret, _⟩ := RollbackById_ok hrun
      rw [hlive] at hl0
      cases hl0
      rw [List.find?_append] at hfind
      unfold bid_history_select at hfresh
      rw [hfresh] at hfind
      simp [List.find?_cons, hid] at hfind
      subst hfind
      exact hret

/-- C2 (amended) at the example state: version 5 of tender 7 and of bid 9 was never
written and is not the live version 2, so the rollback to it fails with
`sql.ErrNoRows`; the rollback to the live version 2 does not. -/
theorem rollback_not_found_iff_witness :
    ((TenderRepo.RollBackTender [] exDb 7 5).1 = .error .sqlErrNoRows ∧
      (TenderRepo.RollBackTender [] exDb 7 2).1 ≠ .error .sqlErrNoRows) ∧
    ((BidRepo.RollbackById [] exDb 9 5).1 = .error .sqlErrNoRows ∧
      (BidRepo.RollbackById [] exDb 9 2).1 ≠ .error .sqlErrNoRows) :=
  ⟨⟨(rollback_not_found_iff.1 exDb 7 5 _ rfl rfl rfl).1.mpr ⟨rfl, by decide⟩,
      (rollback_not_found_iff.1 exDb 7 5 _ rfl rfl rfl).2.1⟩,
   ⟨(rollback_not_found_iff.2 exDb 9 5 _ rfl rfl rfl).1.mpr ⟨rfl, by decide⟩,
      (rollback_not_found_iff.2 exDb 9 5 _ rfl rfl rfl).2.1⟩⟩

/-! ## The versioning invariant -/

theorem upTo_succ (n : Nat) : upTo (n + 1) = upTo n ++ [(n : Int) + 1] := by
  unfold upTo
  rw [List.range_succ, List.map_append]
  rfl

theorem versioned_create {ρ η : Type} (key : ρ → UUID) (ver : ρ → Int) (hkey : η → UUID)
    (hver : η → Int) (live : List ρ) (hist : List η) (cnt : UUID → Nat)
    (hinv : Versioned key ver hkey hver live hist cnt) (row : ρ)
    (hnew : live.find? (fun r => key r == key row) = none) (hver1 : ver row = 1) :
    Versioned key ver hkey hver (live ++ [row]) hist
      (fun j => cnt j + if key row = j then 1 else 0) := by
  intro j
  by_cases hj : key row = j
  · subst hj
    have h0 := ((hinv (key row)).1 hnew)
    have hsel : (live ++ [row]).find? (fun r => key r == key row) = some row := by
      rw [List.find?_append, hnew]
      simp [List.find?_cons]
    rw [hsel]
    refine ⟨fun h => Option.noConfusion h, ?_⟩
    intro r hr
    cases hr
    simp only [if_true, h0.1, Nat.zero_add, Nat.sub_self, le_refl, true_and]
    exact ⟨by simpa using hver1, h0.2⟩
  · have hsel : (live ++ [row]).find? (fun r => key r == j) =
        live.find? (fun r => key r == j) := by
      rw [List.find?_append]
      have : ([row].find? (fun r => key r == j)) = none := by
        simp [List.find?_cons, hj]
      rw [this]
      cases live.find? (fun r => key r == j) <;> rfl
    rw [hsel]
    simp only [hj, if_false, Nat.add_zero]
    exact hinv j

theorem versioned_mutate {ρ η : Type} (key : ρ → UUID) (ver : ρ → Int) (hkey : η → UUID)
    (hver : η → Int) (live : List ρ) (hist : List η) (cnt : UUID → Nat)
    (hinv : Versioned key ver hkey hver live hist cnt) (id : UUID) (r : ρ) (f : ρ → ρ)
    (snap : η) (hsel : live.find? (fun x => key x == id) = some r)
    (hf : ∀ x, key (f x) = key x) (hfv : ver (f r) = ver r + 1)
    (hsk : hkey snap = id) (hsv : hver snap = ver r) :
    Versioned key ver hkey hver (live.map (fun x => if key x == id then f x else x))
      (hist ++ [snap]) (fun j => cnt j + if id = j then 1 else 0) := by
  intro j
  by_cases hj : id = j
  · subst hj
    obtain ⟨h1, hv, hh⟩ := (hinv id).2 r hsel
    rw [find?_map_upd key f hf id live, hsel]
    refine ⟨fun h => Option.noConfusion h, ?_⟩
    intro r1 hr1
    simp only [Option.map_some', Option.some.injEq] at hr1
    subst hr1
    simp only [if_true]
    refine ⟨by omega, ?_, ?_⟩
    · rw [hfv, hv]; push_cast; rfl
    · rw [List.filter_append, List.map_append, hh]
      have hs : ([snap].filter (fun h => hkey h == id)).map hver = [hver snap] := by
        simp [List.filter_cons, hsk]
      rw [hs, hsv, hv]
      have hc : cnt id + 1 - 1 = (cnt id - 1) + 1 := by omega
      rw [hc, upTo_succ]
      congr 2
      have : ((cnt id - 1 : Nat) : Int) = (cnt id : Int) - 1 := by omega
      rw [this]; ring
  · have hne : j ≠ id := fun e => hj e.symm
    rw [find?_map_upd_ne key f hf id j hne live]
    simp only [hj, if_false, Nat.add_zero]
    have hs : (hist ++ [snap]).filter (fun h => hkey h == j) =
        hist.filter (fun h => hkey h == j) := by
      rw [List.filter_append]
      have : [snap].filter (fun h => hkey h == j) = [] := by
        simp [List.filter_cons, hsk, hj]
      rw [this, List.append_nil]
    rw [hs]
    exact hinv j

/-! ## What the successful calls did -/

/-- What `TenderRepo.UpdateTender` did when it returned without error, on a healthy connection. -/
theorem UpdateTender_ok {db db1 : DB} {t ret : Tender}
    (h : TenderRepo.UpdateTender [] db t = (.ok ret, db1)) :
    ∃ live, tender_select db t.Id = some live ∧
      tender_history_select db t.Id live.Version = none ∧
      ret = { t with Version := wrap32 (t.Version + 1) } ∧
      db1 = { db with
        tender_history := db.tender_history ++ [live.toTender],
        tender := db.tender.map (fun r =>
          if r.Id == t.Id then
            { r with Name := t.Name, Description := t.Description,
                     ServiceType := t.ServiceType, Status := t.Status,
                     OrganizationId := t.OrganizationId,
                     Version := wrap32 (t.Version + 1) }
          else r) } := by
  unfold TenderRepo.UpdateTender at h
  simp only [fault_nil, List.drop_nil, Bool.false_eq_true, if_false] at h
  split at h
  · cases h
  · rename_i live hlive
    split at h
    · cases h
    · rename_i tx1 hins
      obtain ⟨htx1, hfresh⟩ := tender_history_insert_ok hins
      rw [tender_select_id hlive] at hfresh
      split at h
      · cases h
      · rename_i tx2 hupd
        have htx2 := tender_update_ok hupd
        simp only [Prod.mk.injEq, Except.ok.injEq] at h
        refine ⟨live, hlive, hfresh, h.1.symm, ?_⟩
        rw [← h.2, htx2, htx1]

theorem GetTenderById_ok {db : DB} {id : UUID} {t : Tender}
    (h : TenderRepo.GetTenderById [] db id = .ok t) :
    ∃ live, tender_select db id = some live ∧ t = live.toTender := by
  unfold TenderRepo.GetTenderById at h
  simp only [fault_nil, Bool.false_eq_true, if_false] at h
  split at h
  · cases h
  · rename_i r hr
    cases h
    exact ⟨r, hr, rfl⟩

/-- `TenderService.UpdateTenderStatus`, when it returns without error on a healthy
connection, is a versioned write that changed the status only. -/
theorem UpdateTenderStatus_ok {db db1 : DB} {id : UUID} {status : String} {ret : Tender}
    (h : TenderService.UpdateTenderStatus [] db id status = (.ok ret, db1)) :
    TenderWrite db db1 id ret ∧
    ∃ live, tender_select db id = some live ∧
      ret = { live.toTender with Status := status, Version := wrap32 (live.Version + 1) } := by
  unfold TenderService.UpdateTenderStatus at h
  split at h
  · cases h
  · split at h
    · cases h
    · rename_i t ht
      obtain ⟨live, hlive, rfl⟩ := GetTenderById_ok ht
      have hid := tender_select_id hlive
      simp only [List.drop_nil] at h
      split at h
      · cases h
      · rename_i ret1 db2 hrun
        simp only [Prod.mk.injEq, Except.ok.injEq] at h
        obtain ⟨live2, hl2, hfresh, hret, hdb⟩ := UpdateTender_ok hrun
        simp only [hid] at hl2 hfresh hdb
        rw [hlive] at hl2
        cases hl2
        rw [← h.1, ← h.2]
        refine ⟨⟨live, tenderSet ret1, hlive, hfresh, fun r => ⟨rfl, rfl, rfl⟩,
          ⟨rfl, rfl, rfl, rfl, rfl, rfl⟩, ?_, ?_, ?_⟩, live, hlive, hret⟩
        · rw [hret]; exact hid
        · rw [hret]
        · rw [hdb, hret]; rfl

/-- `TenderService.UpdateTender`, when it returns without error on a healthy
connection, is a versioned write that kept status and organization. -/
theorem TenderService_UpdateTender_ok {db db1 : DB} {id : UUID}
    {name description serviceType : String} {ret : Tender}
    (h : TenderService.UpdateTender [] db id name description serviceType = (.ok ret, db1)) :
    TenderWrite db db1 id ret ∧
    ∃ live, tender_select db id = some live ∧
      ret = { live.toTender with
        Name := if name != "" then name else live.Name,
        Description := if description != "" then description else live.Description,
        ServiceType := if serviceType != "" then serviceType else live.ServiceType,
        Version := wrap32 (live.Version + 1) } := by
  unfold TenderService.UpdateTender at h
  split at h
  · cases h
  · rename_i t ht
    obtain ⟨live, hlive, rfl⟩ := GetTenderById_ok ht
    have hid := tender_select_id hlive
    simp only [List.drop_nil] at h
    split at h
    · cases h
    · split at h
      · cases h
      · rename_i ret1 db2 hrun
        simp only [Prod.mk.injEq, Except.ok.injEq] at h
        obtain ⟨live2, hl2, hfresh, hret, hdb⟩ := UpdateTender_ok hrun
        have hid2 : (if (serviceType != "") = true then
            { (if (description != "") = true then
                { (if (name != "") = true then { live.toTender with Name := name }
                    else live.toTender) with Description := description }
                else (if (name != "") = true then { live.toTender with Name := name }
                    else live.toTender)) with ServiceType := serviceType }
            else (if (description != "") = true then
                { (if (name != "") = true then { live.toTender with Name := name }
                    else live.toTender) with Description := description }
                else (if (name != "") = true then { live.toTender with Name := name }
                    else live.toTender))).Id = id := by
          split <;> split <;> split <;> exact hid
        rw [hid2] at hl2 hfresh hdb
        rw [hlive] at hl2
        cases hl2
        have hretE : ret1 = { live.toTender with
            Name := if name != "" then name else live.Name,
            Description := if description != "" then description else live.Description,
            ServiceType := if serviceType != "" then serviceType else live.ServiceType,
            Version := wrap32 (live.Version + 1) } := by
          rw [hret]
          split <;> split <;> split <;> simp_all
        rw [← h.1, ← h.2]
        refine ⟨⟨live, tenderSet ret1, hlive, hfresh, fun r => ⟨rfl, rfl, rfl⟩,
          ⟨rfl, rfl, rfl, rfl, rfl, rfl⟩, ?_, ?_, ?_⟩, live, hlive, hretE⟩
        · rw [hretE]; exact hid
        · rw [hretE]
        · rw [hdb, hret]; rfl

/-- `TenderService.RollBackTender`, when it returns without error on a healthy
connection, is a versioned write. -/
theorem TenderService_RollBackTender_ok {db db1 : DB} {id : UUID} {v : Int} {ret : Tender}
    (h : TenderService.RollBackTender [] db id v = (.ok ret, db1)) :
    TenderWrite db db1 id ret := by
  unfold TenderService.RollBackTender at h
  split at h
  · cases h
  · rename_i t ht
    obtain ⟨live, hlive, rfl⟩ := GetTenderById_ok ht
    have hid := tender_select_id hlive
    simp only [List.drop_nil, hid] at h
    split at h
    · cases h
    · rename_i ret1 db2 hrun
      simp only [Prod.mk.injEq, Except.ok.injEq] at h
      obtain ⟨live2, old, hl2, hfresh, hfind, hret, hdb⟩ := RollBackTender_ok hrun
      rw [hlive] at hl2
      cases hl2
      have hoid : old.Id = id := by
        have := List.find?_some hfind
        simp only [Bool.and_eq_true, beq_iff_eq] at this
        exact this.1
      rw [← h.1, ← h.2]
      refine ⟨live, tenderSet ret1, hlive, hfresh, fun r => ⟨rfl, rfl, rfl⟩,
        ⟨rfl, rfl, rfl, rfl, rfl, rfl⟩, ?_, ?_, ?_⟩
      · rw [hret]; exact hoid
      · rw [hret]
      · rw [hdb, hret]; rfl

theorem bid_update_status_ok {db db1 : DB} {status : String} {version : Int} {id : UUID}
    (h : bid_update_status db status version id = .ok db1) :
    db1 = { db with bid := db.bid.map (fun r =>
      if r.Id == id then { r with Status := status, Version := version } else r) } := by
  unfold bid_update_status at h
  split at h
  · cases h
  · cases h; rfl

theorem bid_update_edit_ok {db db1 : DB} {name description : String} {version : Int}
    {id : UUID} (h : bid_update_edit db name description version id = .ok db1) :
    db1 = { db with bid := db.bid.map (fun r =>
      if r.Id == id then
        { r with Name := name, Description := description, Version := version }
      else r) } := by
  unfold bid_update_edit at h
  split at h
  · rename_i hno
    cases h
    have hno2 : db.bid.any (fun r => r.Id == id) = false := by simpa using hno
    rw [map_upd_absent (fun r : BidRow => r.Id) _ id db.bid hno2]
  · split at h
    · cases h
    · split at h
      · cases h
      · cases h; rfl

/-- `BidRepo.UpdateBidStatusById`, when it returns without error on a healthy
connection, is a versioned write that changed the status only. -/
theorem UpdateBidStatusById_ok {db db1 : DB} {id : UUID} {status : String} {ret : Bid}
    (h : BidRepo.UpdateBidStatusById [] db id status = (.ok ret, db1)) :
    BidWrite db db1 id ret ∧
    ∃ live, bid_select db id = some live ∧
      ret = { live.toBid with Version := wrap32 (live.Version + 1), Status := status } := by
  unfold BidRepo.UpdateBidStatusById at h
  simp only [fault_nil, List.drop_nil, Bool.false_eq_true, if_false] at h
  split at h
  · cases h
  · rename_i live hlive
    have hid := bid_select_id hlive
    split at h
    · cases h
    · rename_i tx1 hins
      obtain ⟨htx1, hfresh⟩ := bid_history_insert_ok hins
      rw [hid] at hfresh
      split at h
      · cases h
      · rename_i tx2 hupd
        have htx2 := bid_update_status_ok hupd
        simp only [Prod.mk.injEq, Except.ok.injEq] at h
        refine ⟨⟨live, (fun r => { r with
              Status := status
              Version := wrap32 (live.Version + 1) }), hlive, hfresh,
          fun r => ⟨rfl, rfl, rfl, rfl⟩, ?_, ?_, ?_, ?_⟩, live, hlive, h.1.symm⟩
        · rw [← h.1]
        · rw [← h.1]; exact hid
        · rw [← h.1]
        · rw [← h.2, htx2, htx1]

/-- `BidRepo.EditBidById`, when it returns without error on a healthy connection,
is a versioned write that changed name and description only. -/
theorem EditBidById_ok {db db1 : DB} {id : UUID} {name description : String} {ret : Bid}
    (h : BidRepo.EditBidById [] db id name description = (.ok ret, db1)) :
    BidWrite db db1 id ret ∧
    ∃ live, bid_select db id = some live ∧
      ret = { live.toBid with Version := wrap32 (live.Version + 1), Name := name,
                              Description := description } := by
  unfold BidRepo.EditBidById at h
  simp only [fault_nil, List.drop_nil, Bool.false_eq_true, if_false] at h
  split at h
  · cases h
  · rename_i live hlive
    have hid := bid_select_id hlive
    split at h
    · cases h
    · rename_i tx1 hins
      obtain ⟨htx1, hfresh⟩ := bid_history_insert_ok hins
      rw [hid] at hfresh
      split at h
      · cases h
      · rename_i tx2 hupd
        have htx2 := bid_update_edit_ok hupd
        simp only [Prod.mk.injEq, Except.ok.injEq] at h
        refine ⟨⟨live, (fun r => { r with
              Name := name
              Description := description
              Version := wrap32 (live.Version + 1) }), hlive, hfresh,
          fun r => ⟨rfl, rfl, rfl, rfl⟩, ?_, ?_, ?_, ?_⟩, live, hlive, h.1.symm⟩
        · rw [← h.1]
        · rw [← h.1]; exact hid
        · rw [← h.1]
        · rw [← h.2, htx2, htx1]

/-- `BidRepo.RollbackById`, when it returns without error on a healthy connection,
is a versioned write. -/
theorem RollbackById_write {db db1 : DB} {id : UUID} {v : Int} {ret : Bid}
    (h : BidRepo.RollbackById [] db id v = (.ok ret, db1)) : BidWrite db db1 id ret := by
  obtain ⟨live, old, hlive, hfresh, _, hret, hdb⟩ := RollbackById_ok h
  have hid := bid_select_id hlive
  refine ⟨live, (fun r => { r with
        Name := old.Name, Description := old.Description,
        Status := old.Status, TenderId := old.TenderId, AuthorType := old.AuthorType,
        AuthorId := old.AuthorId, Version := wrap32 (live.Version + 1) }), hlive, hfresh,
    fun r => ⟨rfl, rfl, rfl, rfl⟩, ?_, ?_, ?_, hdb⟩
  · rw [hret]
  · rw [hret]; exact hid
  · rw [hret]

theorem GetBidById_ok {db : DB} {id : UUID} {b : Bid}
    (h : BidRepo.GetBidById [] db id = .ok b) :
    ∃ live, bid_select db id = some live ∧ b = live.toBid := by
  unfold BidRepo.GetBidById at h
  simp only [fault_nil, Bool.false_eq_true, if_false] at h
  split at h
  · cases h
  · rename_i r hr
    cases h
    exact ⟨r, hr, rfl⟩

theorem BidService_UpdateBidStatusById_ok {db db1 : DB} {id : UUID} {status : String}
    {ret : Bid} (h : BidService.UpdateBidStatusById [] db id status = (.ok ret, db1)) :
    BidRepo.UpdateBidStatusById [] db id status = (.ok ret, db1) := by
  unfold BidService.UpdateBidStatusById at h
  split at h
  · cases h
  · split at h
    · cases h
    · simp only [List.drop_nil] at h
      split at h
      · cases h
      · rename_i ret1 db2 hrun
        simp only [Prod.mk.injEq, Except.ok.injEq] at h
        rw [hrun, h.1, h.2]

theorem BidService_EditBidById_ok {db db1 : DB} {id : UUID} {name description : String}
    {ret : Bid} (h : BidService.EditBidById [] db id name description = (.ok ret, db1)) :
    ∃ live, bid_select db id = some live ∧
      BidRepo.EditBidById [] db id (if name == "" then live.Name else name)
        (if description == "" then live.Description else description) = (.ok ret, db1) := by
  unfold BidService.EditBidById at h
  split at h
  · cases h
  · rename_i b hb
    obtain ⟨live, hlive, rfl⟩ := GetBidById_ok hb
    simp only [List.drop_nil] at h
    split at h
    · cases h
    · rename_i ret1 db2 hrun
      simp only [Prod.mk.injEq, Except.ok.injEq] at h
      exact ⟨live, hlive, by rw [hrun, h.1, h.2]⟩

theorem BidService_RollbackById_ok {db db1 : DB} {id : UUID} {v : Int}
    {ret : Bid} (h : BidService.RollbackById [] db id v = (.ok ret, db1)) :
    BidRepo.RollbackById [] db id v = (.ok ret, db1) := by
  unfold BidService.RollbackById at h
  split at h
  · cases h
  · simp only [List.drop_nil] at h
    split at h
    · cases h
    · rename_i ret1 db2 hrun
      simp only [Prod.mk.injEq, Except.ok.injEq] at h
      rw [hrun, h.1, h.2]

/-! ## The invariant along a sequence of calls -/

theorem upTo_length (n : Nat) : (upTo n).length = n := by
  simp [upTo]

theorem find?_none_of_any_false {α : Type} (p : α → Bool) (l : List α)
    (h : l.any p = false) : l.find? p = none := by
  rw [List.find?_eq_none]
  intro x hx hp
  have : l.any p = true := List.any_eq_true.mpr ⟨x, hx, hp⟩
  rw [h] at this
  cases this

theorem tenderWrite_inv {db db1 : DB} {id : UUID} {ret : Tender} {cnt : UUID → Nat}
    (hw : TenderWrite db db1 id ret) (hinv : TenderInv db cnt) (hb : cnt id < 2147483647) :
    TenderInv db1 (fun j => cnt j + if id = j then 1 else 0) := by
  obtain ⟨live, f, hsel, _, hf, hfl, _, hver, hdb⟩ := hw
  have hid := tender_select_id hsel
  obtain ⟨h1, hv, _⟩ := (hinv id).2 live hsel
  have hv2 : live.Version = (cnt id : Int) := hv
  have hfv : (f live).Version = live.Version + 1 := by
    rw [hfl.2.2.2.2.2, hver]
    exact wrap32_succ (by omega) (by omega)
  have := versioned_mutate (fun r : TenderRow => r.Id) (fun r => r.Version)
    (fun h : Tender => h.Id) (fun h => h.Version) db.tender db.tender_history cnt hinv id
    live f live.toTender hsel (fun x => (hf x).1) hfv hid rfl
  unfold TenderInv
  rw [hdb]
  exact this

theorem bidWrite_inv {db db1 : DB} {id : UUID} {ret : Bid} {cnt : UUID → Nat}
    (hw : BidWrite db db1 id ret) (hinv : BidInv db cnt) (hb : cnt id < 2147483647) :
    BidInv db1 (fun j => cnt j + if id = j then 1 else 0) := by
  obtain ⟨live, f, hsel, _, hf, hfl, _, hver, hdb⟩ := hw
  have hid := bid_select_id hsel
  obtain ⟨h1, hv, _⟩ := (hinv id).2 live hsel
  have hv2 : live.Version = (cnt id : Int) := hv
  have hfv : (f live).Version = live.Version + 1 := by
    have : (f live).Version = ret.Version := by rw [← hfl]
    rw [this, hver]
    exact wrap32_succ (by omega) (by omega)
  have := versioned_mutate (fun r : BidRow => r.Id) (fun r => r.Version)
    (fun h : Bid => h.Id) (fun h => h.Version) db.bid db.bid_history cnt hinv id
    live f live.toBid hsel (fun x => (hf x).1) hfv hid rfl
  unfold BidInv
  rw [hdb]
  exact this

theorem CreateTender_inv {db db1 : DB} {u : UUID} {t : Time} {n d s : String} {o usr : UUID}
    {ret : Tender} {cnt : UUID → Nat}
    (h : TenderRepo.CreateTender [] db u t n d s o usr = (.ok ret, db1))
    (hinv : TenderInv db cnt) :
    TenderInv db1 (fun j => cnt j + if u = j then 1 else 0) := by
  unfold TenderRepo.CreateTender at h
  simp only [fault_nil, Bool.false_eq_true, if_false] at h
  split at h
  · cases h
  · rename_i db2 hins
    simp only [Prod.mk.injEq, Except.ok.injEq] at h
    unfold tender_insert at hins
    split at hins
    · cases hins
    · split at hins
      · cases hins
      · rename_i hpk
        split at hins
        · cases hins
        · split at hins
          · cases hins
          · split at hins
            · cases hins
            · cases hins
              have hnone := find?_none_of_any_false _ _ ((Bool.not_eq_true _).mp hpk)
              have := versioned_create (fun r : TenderRow => r.Id) (fun r => r.Version)
                (fun h : Tender => h.Id) (fun h => h.Version) db.tender db.tender_history
                cnt hinv
                { Id := u, Name := n, Description := d, ServiceType := s, Status := "Created",
                  OrganizationId := o, Version := 1, CreatedAt := t, user_id := usr }
                hnone rfl
              unfold TenderInv
              rw [← h.2]
              exact this

theorem CreateBid_inv {db db1 : DB} {u : UUID} {t : Time} {n d : String} {tid : UUID}
    {aty : String} {aid : UUID} {ret : Bid} {cnt : UUID → Nat}
    (h : BidRepo.CreateBid [] db u t n d tid aty aid = (.ok ret, db1))
    (hinv : BidInv db cnt) :
    BidInv db1 (fun j => cnt j + if u = j then 1 else 0) := by
  unfold BidRepo.CreateBid at h
  simp only [fault_nil, Bool.false_eq_true, if_false] at h
  split at h
  · cases h
  · rename_i db2 hins
    simp only [Prod.mk.injEq, Except.ok.injEq] at h
    unfold bid_insert at hins
    split at hins
    · cases hins
    · split at hins
      · cases hins
      · rename_i hpk
        split at hins
        · cases hins
        · split at hins
          · cases hins
          · cases hins
            have hnone := find?_none_of_any_false _ _ ((Bool.not_eq_true _).mp hpk)
            have := versioned_create (fun r : BidRow => r.Id) (fun r => r.Version)
              (fun h : Bid => h.Id) (fun h => h.Version) db.bid db.bid_history
              cnt hinv
              { Id := u, Name := n, Description := d, Status := "Created", TenderId := tid,
                AuthorType := aty, AuthorId := aid, Version := 1, CreatedAt := t,
                rejects := 0, approves := 0 }
              hnone rfl
            unfold BidInv
            rw [← h.2]
            exact this

theorem TenderOp_run_inv {db db1 : DB} {op : TenderOp} {ret : Tender} {cnt : UUID → Nat}
    (h : op.run db = (.ok ret, db1)) (hinv : TenderInv db cnt)
    (hb : cnt op.target < 2147483647) :
    TenderInv db1 (fun j => cnt j + if op.target = j then 1 else 0) := by
  cases op with
  | create u t n d s o usr => exact CreateTender_inv h hinv
  | edit id n d s => exact tenderWrite_inv (TenderService_UpdateTender_ok h).1 hinv hb
  | status id st => exact tenderWrite_inv (UpdateTenderStatus_ok h).1 hinv hb
  | rollback id v => exact tenderWrite_inv (TenderService_RollBackTender_ok h) hinv hb

theorem BidOp_run_inv {db db1 : DB} {op : BidOp} {ret : Bid} {cnt : UUID → Nat}
    (h : op.run db = (.ok ret, db1)) (hinv : BidInv db cnt)
    (hb : cnt op.target < 2147483647) :
    BidInv db1 (fun j => cnt j + if op.target = j then 1 else 0) := by
  cases op with
  | create u t n d tid aty aid => exact CreateBid_inv h hinv
  | edit id n d =>
    obtain ⟨_, _, hrun⟩ := BidService_EditBidById_ok h
    exact bidWrite_inv (EditBidById_ok hrun).1 hinv hb
  | status id st =>
    exact bidWrite_inv (UpdateBidStatusById_ok (BidService_UpdateBidStatusById_ok h)).1 hinv hb
  | rollback id v => exact bidWrite_inv (RollbackById_write (BidService_RollbackById_ok h)) hinv hb

theorem runTenderOps_inv (ops : List TenderOp) :
    ∀ (db db1 : DB) (cnt : UUID → Nat), TenderInv db cnt →
      (∀ j, cnt j + ops.countP (fun op => op.target == j) < 2147483648) →
      runTenderOps db ops = some db1 →
      TenderInv db1 (fun j => cnt j + ops.countP (fun op => op.target == j)) := by
  induction ops with
  | nil =>
    intro db db1 cnt hinv _ hrun
    simp only [runTenderOps, Option.some.injEq] at hrun
    subst hrun
    simpa using hinv
  | cons op ops ih =>
    intro db db1 cnt hinv hb hrun
    simp only [runTenderOps] at hrun
    split at hrun
    · rename_i ret db2 hop
      have hbt : cnt op.target < 2147483647 := by
        have := hb op.target
        simp only [List.countP_cons, beq_self_eq_true, if_true] at this
        omega
      have hstep := TenderOp_run_inv hop hinv hbt
      have hres := ih db2 db1 _ hstep (by
        intro j
        have := hb j
        simp only [List.countP_cons, beq_iff_eq] at this
        omega) hrun
      have hfun : (fun j => cnt j + List.countP (fun op => op.target == j) (op :: ops)) =
          (fun j => cnt j + (if op.target = j then 1 else 0) +
            List.countP (fun op => op.target == j) ops) := by
        funext j
        simp only [List.countP_cons, beq_iff_eq]
        omega
      rw [hfun]
      exact hres
    · cases hrun

theorem runBidOps_inv (ops : List BidOp) :
    ∀ (db db1 : DB) (cnt : UUID → Nat), BidInv db cnt →
      (∀ j, cnt j + ops.countP (fun op => op.target == j) < 2147483648) →
      runBidOps db ops = some db1 →
      BidInv db1 (fun j => cnt j + ops.countP (fun op => op.target == j)) := by
  induction ops with
  | nil =>
    intro db db1 cnt hinv _ hrun
    simp only [runBidOps, Option.some.injEq] at hrun
    subst hrun
    simpa using hinv
  | cons op ops ih =>
    intro db db1 cnt hinv hb hrun
    simp only [runBidOps] at hrun
    split at hrun
    · rename_i ret db2 hop
      have hbt : cnt op.target < 2147483647 := by
        have := hb op.target
        simp only [List.countP_cons, beq_self_eq_true, if_true] at this
        omega
      have hstep := BidOp_run_inv hop hinv hbt
      have hres := ih db2 db1 _ hstep (by
        intro j
        have := hb j
        simp only [List.countP_cons, beq_iff_eq] at this
        omega) hrun
      have hfun : (fun j => cnt j + List.countP (fun op => op.target == j) (op :: ops)) =
          (fun j => cnt j + (if op.target = j then 1 else 0) +
            List.countP (fun op => op.target == j) ops) := by
        funext j
        simp only [List.countP_cons, beq_iff_eq]
        omega
      rw [hfun]
      exact hres
    · cases hrun

/-- C3 (history invariant).  Start from a database without tenders (without bids)
and run any sequence of creations, edits, status updates and rollbacks, one
after another on a healthy connection, all of which return without error and
which are fewer than 2147483647 (versions are Go `int32`).  Then for every
live tender (bid), with `N` the number of calls about it, its creation
included: `N ≥ 1`, the live row holds version `N`, and the versions of its
history records, in the order they were written, are exactly `1, .., N-1`;
so there are `N-1` of them, without gap or duplicate. -/
theorem history_contiguous :
    (∀ (db0 db : DB) (ops : List TenderOp) (id : UUID) (live : TenderRow),
      db0.tender = [] → db0.tender_history = [] → ops.length < 2147483647 →
      runTenderOps db0 ops = some db → tender_select db id = some live →
      1 ≤ tenderCalls ops id ∧ live.Version = (tenderCalls ops id : Nat) ∧
        tender_versions db id = upTo (tenderCalls ops id - 1) ∧
        (db.tender_history.filter (fun h => h.Id == id)).length = tenderCalls ops id - 1) ∧
    (∀ (db0 db : DB) (ops : List BidOp) (id : UUID) (live : BidRow),
      db0.bid = [] → db0.bid_history = [] → ops.length < 2147483647 →
      runBidOps db0 ops = some db → bid_select db id = some live →
      1 ≤ bidCalls ops id ∧ live.Version = (bidCalls ops id : Nat) ∧
        bid_versions db id = upTo (bidCalls ops id - 1) ∧
        (db.bid_history.filter (fun h => h.Id == id)).length = bidCalls ops id - 1) := by
  constructor
  · intro db0 db ops id live ht hh hlen hrun hsel
    have h0 : TenderInv db0 (fun _ => 0) := by
      intro j
      rw [ht, hh]
      exact ⟨fun _ => ⟨rfl, rfl⟩, fun r hr => by cases hr⟩
    have hinv := runTenderOps_inv ops db0 db (fun _ => 0) h0 (by
      intro j
      have := List.countP_le_length (fun op : TenderOp => op.target == j) (l := ops)
      show 0 + _ < _
      omega) hrun
    obtain ⟨h1, hv, hvs⟩ := (hinv id).2 live hsel
    simp only [Nat.zero_add] at h1 hv hvs
    refine ⟨h1, hv, hvs, ?_⟩
    have := congrArg List.length hvs
    rw [List.length_map, upTo_length] at this
    exact this
  · intro db0 db ops id live ht hh hlen hrun hsel
    have h0 : BidInv db0 (fun _ => 0) := by
      intro j
      rw [ht, hh]
      exact ⟨fun _ => ⟨rfl, rfl⟩, fun r hr => by cases hr⟩
    have hinv := runBidOps_inv ops db0 db (fun _ => 0) h0 (by
      intro j
      have := List.countP_le_length (fun op : BidOp => op.target == j) (l := ops)
      show 0 + _ < _
      omega) hrun
    obtain ⟨h1, hv, hvs⟩ := (hinv id).2 live hsel
    simp only [Nat.zero_add] at h1 hv hvs
    refine ⟨h1, hv, hvs, ?_⟩
    have := congrArg List.length hvs
    rw [List.length_map, upTo_length] at this
    exact this

/-- C3 at the example sequences: three calls about tender 7 (and three about bid 9)
leave it live at version 3 with history versions 1 and 2. -/
theorem history_contiguous_witness :
    (∃ live, tender_select exDbT 7 = some live ∧ live.Version = 3 ∧
      tender_versions exDbT 7 = [1, 2]) ∧
    (∃ live, bid_select exDbB 9 = some live ∧ live.Version = 3 ∧
      bid_versions exDbB 9 = [1, 2]) :=
  ⟨⟨_, rfl,
      (history_contiguous.1 exDb0 exDbT exTenderOps 7 _ rfl rfl (by decide) rfl rfl).2.1.trans rfl,
      (history_contiguous.1 exDb0 exDbT exTenderOps 7 _ rfl rfl (by decide) rfl rfl).2.2.1.trans rfl⟩,
   ⟨_, rfl,
      (history_contiguous.2 exDb1 exDbB exBidOps 9 _ rfl rfl (by decide) rfl rfl).2.1.trans rfl,
      (history_contiguous.2 exDb1 exDbB exBidOps 9 _ rfl rfl (by decide) rfl rfl).2.2.1.trans rfl⟩⟩

/-! ## Archive before mutate -/

theorem tenderWrite_archive {db db1 : DB} {id : UUID} {ret : Tender}
    (hw : TenderWrite db db1 id ret) {r : TenderRow} (hr : tender_select db id = some r)
    (h1 : 1 ≤ r.Version) (h2 : r.Version < 2147483647) :
    tender_history_select db1 id r.Version = some r.toTender ∧
      (∃ live1, tender_select db1 id = some live1 ∧ live1.Version = r.Version + 1) ∧
      ret.Version = r.Version + 1 := by
  obtain ⟨live, f, hsel, hfresh, hf, hfl, _, hver, hdb⟩ := hw
  rw [hr] at hsel
  cases hsel
  have hid := tender_select_id hr
  rw [wrap32_succ h1 h2] at hver
  refine ⟨?_, ⟨f r, ?_, by rw [hfl.2.2.2.2.2, hver]⟩, hver⟩
  · rw [hdb]
    unfold tender_history_select at hfresh ⊢
    simp only [List.find?_append, hfresh, List.find?_cons, hid, beq_self_eq_true,
      Bool.and_self, Option.none_or]
  · rw [hdb]
    unfold tender_select at hr ⊢
    have := find?_map_upd (fun x : TenderRow => x.Id) f (fun x => (hf x).1) id db.tender
    rw [hr] at this
    exact this

theorem bidWrite_archive {db db1 : DB} {id : UUID} {ret : Bid}
    (hw : BidWrite db db1 id ret) {r : BidRow} (hr : bid_select db id = some r)
    (h1 : 1 ≤ r.Version) (h2 : r.Version < 2147483647) :
    bid_history_select db1 id r.Version = some r.toBid ∧
      (∃ live1, bid_select db1 id = some live1 ∧ live1.Version = r.Version + 1) ∧
      ret.Version = r.Version + 1 := by
  obtain ⟨live, f, hsel, hfresh, hf, hfl, _, hver, hdb⟩ := hw
  rw [hr] at hsel
  cases hsel
  have hid := bid_select_id hr
  rw [wrap32_succ h1 h2] at hver
  refine ⟨?_, ⟨f r, ?_, by rw [← hver, ← hfl]⟩, hver⟩
  · rw [hdb]
    unfold bid_history_select at hfresh ⊢
    simp only [List.find?_append, hfresh, List.find?_cons, hid, beq_self_eq_true,
      Bool.and_self, Option.none_or]
  · rw [hdb]
    unfold bid_select at hr ⊢
    have := find?_map_upd (fun x : BidRow => x.Id) f (fun x => (hf x).1) id db.bid
    rw [hr] at this
    exact this

/-- `TenderRepo.UpdateTender`, called with the live version, is a versioned write. -/
theorem UpdateTender_write {db db1 : DB} {t ret : Tender} {r : TenderRow}
    (hr : tender_select db t.Id = some r) (hv : t.Version = r.Version)
    (h : TenderRepo.UpdateTender [] db t = (.ok ret, db1)) : TenderWrite db db1 t.Id ret := by
  obtain ⟨live, hlive, hfresh, hret, hdb⟩ := UpdateTender_ok h
  rw [hr] at hlive
  cases hlive
  refine ⟨r, tenderSet ret, hr, hfresh, fun x => ⟨rfl, rfl, rfl⟩,
    ⟨rfl, rfl, rfl, rfl, rfl, rfl⟩, ?_, ?_, ?_⟩
  · rw [hret]
  · rw [hret, ← hv]
  · rw [hdb, hret]; rfl

/-- C4 (archive before mutate).  On a healthy connection, every edit and every
status update of a tender or a bid that returns without error, made on a
live row `r` of version `c` (between 1 and 2147483646, versions being Go
`int32`), leaves a history record keyed `(id, c)` that equals `r` as it was
before the call, and a live row of version `c + 1`, which is also the version
of the entity returned.  Stated for `TenderRepo.UpdateTender` called with the
live version, for the two tender services that call it, and for
`BidRepo.EditBidById` and `BidRepo.UpdateBidStatusById`. -/
theorem archive_before_mutate :
    (∀ (db db1 : DB) (t ret : Tender) (r : TenderRow),
      tender_select db t.Id = some r → t.Version = r.Version →
      1 ≤ r.Version → r.Version < 2147483647 →
      TenderRepo.UpdateTender [] db t = (.ok ret, db1) →
      tender_history_select db1 t.Id r.Version = some r.toTender ∧
        (∃ live1, tender_select db1 t.Id = some live1 ∧ live1.Version = r.Version + 1) ∧
        ret.Version = r.Version + 1) ∧
    (∀ (db db1 : DB) (id : UUID) (name description serviceType : String) (ret : Tender)
      (r : TenderRow),
      tender_select db id = some r → 1 ≤ r.Version → r.Version < 2147483647 →
      TenderService.UpdateTender [] db id name description serviceType = (.ok ret, db1) →
      tender_history_select db1 id r.Version = some r.toTender ∧
        (∃ live1, tender_select db1 id = some live1 ∧ live1.Version = r.Version + 1) ∧
        ret.Version = r.Version + 1) ∧
    (∀ (db db1 : DB) (id : UUID) (status : String) (ret : Tender) (r : TenderRow),
      tender_select db id = some r → 1 ≤ r.Version → r.Version < 2147483647 →
      TenderService.UpdateTenderStatus [] db id status = (.ok ret, db1) →
      tender_history_select db1 id r.Version = some r.toTender ∧
        (∃ live1, tender_select db1 id = some live1 ∧ live1.Version = r.Version + 1) ∧
        ret.Version = r.Version + 1) ∧
    (∀ (db db1 : DB) (id : UUID) (name description : String) (ret : Bid) (r : BidRow),
      bid_select db id = some r → 1 ≤ r.Version → r.Version < 2147483647 →
      BidRepo.EditBidById [] db id name description = (.ok ret, db1) →
      bid_history_select db1 id r.Version = some r.toBid ∧
        (∃ live1, bid_select db1 id = some live1 ∧ live1.Version = r.Version + 1) ∧
        ret.Version = r.Version + 1) ∧
    (∀ (db db1 : DB) (id : UUID) (status : String) (ret : Bid) (r : BidRow),
      bid_select db id = some r → 1 ≤ r.Version → r.Version < 2147483647 →
      BidRepo.UpdateBidStatusById [] db id status = (.ok ret, db1) →
      bid_history_select db1 id r.Version = some r.toBid ∧
        (∃ live1, bid_select db1 id = some live1 ∧ live1.Version = r.Version + 1) ∧
        ret.Version = r.Version + 1) := by
  refine ⟨?_, ?_, ?_, ?_, ?_⟩
  · intro db db1 t ret r hr hv h1 h2 h
    exact tenderWrite_archive (UpdateTender_write hr hv h) hr h1 h2
  · intro db db1 id name description serviceType ret r hr h1 h2 h
    exact tenderWrite_archive (TenderService_UpdateTender_ok h).1 hr h1 h2
  · intro db db1 id status ret r hr h1 h2 h
    exact tenderWrite_archive (UpdateTenderStatus_ok h).1 hr h1 h2
  · intro db db1 id name description ret r hr h1 h2 h
    exact bidWrite_archive (EditBidById_ok h).1 hr h1 h2
  · intro db db1 id status ret r hr h1 h2 h
    exact bidWrite_archive (UpdateBidStatusById_ok h).1 hr h1 h2

/-- C4 at the example state: tender 7 (version 2) is closed by a status update and
bid 9 (version 2) is renamed; version 2 of each is archived as it was. -/
theorem archive_before_mutate_witness :
    (tender_history_select (TenderService.UpdateTenderStatus [] exDb 7 "Closed").2 7 2 =
        (tender_select exDb 7).map (fun r => r.toTender) ∧
      (TenderService.UpdateTenderStatus [] exDb 7 "Closed").1.toOption.map
        (fun t => (t.Status, t.Version)) = some ("Closed", 3)) ∧
    (bid_history_select (BidRepo.EditBidById [] exDb 9 "offer two" "third").2 9 2 =
        (bid_select exDb 9).map (fun r => r.toBid) ∧
      (BidRepo.EditBidById [] exDb 9 "offer two" "third").1.toOption.map
        (fun b => (b.Name, b.Version)) = some ("offer two", 3)) :=
  ⟨⟨(archive_before_mutate.2.2.1 exDb _ 7 "Closed" _ _ rfl (by decide) (by decide) rfl).1,
      rfl⟩,
   ⟨(archive_before_mutate.2.2.2.1 exDb _ 9 "offer two" "third" _ _ rfl (by decide)
      (by decide) rfl).1, rfl⟩⟩

/-! ## Rollback and the history -/

theorem find?_append_of_some {α : Type} (p : α → Bool) (l1 l2 : List α) (a : α)
    (h : l1.find? p = some a) : (l1 ++ l2).find? p = some a := by
  rw [List.find?_append, h]
  rfl

/-- A rollback of a tender to a version with a record: what it returns, the live
row and the same record afterwards. -/
theorem RollBackTender_found {db db1 : DB} {id : UUID} {v : Int} {live : TenderRow}
    {old ret : Tender} (hlive : tender_select db id = some live)
    (hold : tender_history_select db id v = some old)
    (hrun : TenderRepo.RollBackTender [] db id v = (.ok ret, db1)) :
    ret = { old with Version := wrap32 (live.Version + 1) } ∧
      (∃ live1, tender_select db1 id = some live1 ∧
        live1.Version = wrap32 (live.Version + 1)) ∧
      tender_history_select db1 id v = some old ∧
      db1.tender_history = db.tender_history ++ [live.toTender] := by
  obtain ⟨live0, old0, hl0, _, hfind, hret, hdb⟩ := RollBackTender_ok hrun
  rw [hlive] at hl0
  cases hl0
  unfold tender_history_select at hold
  rw [find?_append_of_some _ _ _ _ hold] at hfind
  cases hfind
  refine ⟨hret, ⟨tenderSet ret live, ?_, by rw [hret]; rfl⟩, ?_, by rw [hdb]⟩
  · rw [hdb]
    unfold tender_select at hlive ⊢
    have := find?_map_upd (fun x : TenderRow => x.Id) (tenderSet ret) (fun _ => rfl) id
      db.tender
    rw [hlive] at this
    subst hret
    exact this
  · rw [hdb]
    unfold tender_history_select
    exact find?_append_of_some _ _ _ _ hold

/-- A rollback of a bid to a version with a record: what it returns, the live row
and the same record afterwards. -/
theorem RollbackById_found {db db1 : DB} {id : UUID} {v : Int} {live : BidRow}
    {old ret : Bid} (hlive : bid_select db id = some live)
    (hold : bid_history_select db id v = some old)
    (hrun : BidRepo.RollbackById [] db id v = (.ok ret, db1)) :
    ret = { live.toBid with
        Name := old.Name, Description := old.Description, Status := old.Status,
        TenderId := old.TenderId, AuthorType := old.AuthorType, AuthorId := old.AuthorId,
        Version := wrap32 (live.Version + 1) } ∧
      (∃ live1, bid_select db1 id = some live1 ∧ live1.toBid = ret) ∧
      bid_history_select db1 id v = some old ∧
      db1.bid_history = db.bid_history ++ [live.toBid] := by
  obtain ⟨live0, old0, hl0, _, hfind, hret, hdb⟩ := RollbackById_ok hrun
  rw [hlive] at hl0
  cases hl0
  unfold bid_history_select at hold
  rw [find?_append_of_some _ _ _ _ hold] at hfind
  cases hfind
  have hsel := find?_map_upd (fun x : BidRow => x.Id) (fun r => { r with
      Name := old.Name, Description := old.Description, Status := old.Status,
      TenderId := old.TenderId, AuthorType := old.AuthorType, AuthorId := old.AuthorId,
      Version := wrap32 (live.Version + 1) }) (fun _ => rfl) id db.bid
  unfold bid_select at hlive
  rw [hlive] at hsel
  have hs2 : bid_select db1 id = some { live with
      Name := old.Name, Description := old.Description, Status := old.Status,
      TenderId := old.TenderId, AuthorType := old.AuthorType, AuthorId := old.AuthorId,
      Version := wrap32 (live.Version + 1) } := by
    rw [hdb]
    exact hsel
  refine ⟨hret, ⟨_, hs2, by rw [hret]⟩, ?_, by rw [hdb]⟩
  · rw [hdb]
    unfold bid_history_select
    exact find?_append_of_some _ _ _ _ hold

/-- C5 (rollback keeps the history).  On a healthy connection, a rollback of a
tender or of a bid that returns without error leaves the history table equal
to the old one followed by exactly one new record, the live row as it was
before the call (at its own version): every old record is still there, every
lookup by `(id, version)` that found a record finds the same record, and the
only record added is that snapshot.  The history of the other kind of
entity is untouched. -/
theorem rollback_keeps_history :
    (∀ (db db1 : DB) (id : UUID) (v : Int) (live : TenderRow) (ret : Tender),
      tender_select db id = some live →
      TenderRepo.RollBackTender [] db id v = (.ok ret, db1) →
      db1.tender_history = db.tender_history ++ [live.toTender] ∧
        (∀ h, h ∈ db.tender_history → h ∈ db1.tender_history) ∧
        (∀ h, h ∈ db1.tender_history → h ∈ db.tender_history ∨ h = live.toTender) ∧
        (∀ i w h, tender_history_select db i w = some h →
          tender_history_select db1 i w = some h) ∧
        db1.bid_history = db.bid_history) ∧
    (∀ (db db1 : DB) (id : UUID) (v : Int) (live : BidRow) (ret : Bid),
      bid_select db id = some live →
      BidRepo.RollbackById [] db id v = (.ok ret, db1) →
      db1.bid_history = db.bid_history ++ [live.toBid] ∧
        (∀ h, h ∈ db.bid_history → h ∈ db1.bid_history) ∧
        (∀ h, h ∈ db1.bid_history → h ∈ db.bid_history ∨ h = live.toBid) ∧
        (∀ i w h, bid_history_select db i w = some h →
          bid_history_select db1 i w = some h) ∧
        db1.tender_history = db.tender_history) := by
  constructor
  · intro db db1 id v live ret hlive hrun
    obtain ⟨live0, old0, hl0, _, _, _, hdb⟩ := RollBackTender_ok hrun
    rw [hlive] at hl0
    cases hl0
    have hh : db1.tender_history = db.tender_history ++ [live.toTender] := by rw [hdb]
    refine ⟨hh, ?_, ?_, ?_, by rw [hdb]⟩
    · intro h hm
      rw [hh]
      exact List.mem_append_left _ hm
    · intro h hm
      rw [hh, List.mem_append, List.mem_singleton] at hm
      exact hm
    · intro i w h hsel
      unfold tender_history_select at hsel ⊢
      rw [hh]
      exact find?_append_of_some _ _ _ _ hsel
  · intro db db1 id v live ret hlive hrun
    obtain ⟨live0, old0, hl0, _, _, _, hdb⟩ := RollbackById_ok hrun
    rw [hlive] at hl0
    cases hl0
    have hh : db1.bid_history = db.bid_history ++ [live.toBid] := by rw [hdb]
    refine ⟨hh, ?_, ?_, ?_, by rw [hdb]⟩
    · intro h hm
      rw [hh]
      exact List.mem_append_left _ hm
    · intro h hm
      rw [hh, List.mem_append, List.mem_singleton] at hm
      exact hm
    · intro i w h hsel
      unfold bid_history_select at hsel ⊢
      rw [hh]
      exact find?_append_of_some _ _ _ _ hsel

/-- C5 at the example state: after the rollback of tender 7 and of bid 9 to version 1
the history holds the old record of version 1 and the snapshot of version 2. -/
theorem rollback_keeps_history_witness :
    (tender_versions (TenderRepo.RollBackTender [] exDb 7 1).2 7 = [1, 2] ∧
      (TenderRepo.RollBackTender [] exDb 7 1).2.tender_history =
        exDb.tender_history ++ (exDb.tender.map (fun r => r.toTender))) ∧
    (bid_versions (BidRepo.RollbackById [] exDb 9 1).2 9 = [1, 2] ∧
      (BidRepo.RollbackById [] exDb 9 1).2.bid_history =
        exDb.bid_history ++ (exDb.bid.map (fun r => r.toBid))) :=
  ⟨⟨rfl, (rollback_keeps_history.1 exDb _ 7 1 _ _ rfl rfl).1⟩,
   ⟨rfl, (rollback_keeps_history.2 exDb _ 9 1 _ _ rfl rfl).1⟩⟩

/-- C6 (rollback idempotent content).  On a healthy connection, for a tender or a
bid live at version `c` (between 1 and 2147483645, versions being Go `int32`)
and a target version with a history record, two rollbacks to that target run
one after the other, both returning without error, return the versions `c + 1`
and `c + 2`, which differ, and entities that agree in every other field. -/
theorem rollback_twice_same_content :
    (∀ (db db1 db2 : DB) (id : UUID) (v : Int) (live : TenderRow) (old ret1 ret2 : Tender),
      tender_select db id = some live → tender_history_select db id v = some old →
      1 ≤ live.Version → live.Version < 2147483646 →
      TenderRepo.RollBackTender [] db id v = (.ok ret1, db1) →
      TenderRepo.RollBackTender [] db1 id v = (.ok ret2, db2) →
      ret1.Version = live.Version + 1 ∧ ret2.Version = live.Version + 2 ∧
        ret1.Version ≠ ret2.Version ∧ { ret2 with Version := ret1.Version } = ret1) ∧
    (∀ (db db1 db2 : DB) (id : UUID) (v : Int) (live : BidRow) (old ret1 ret2 : Bid),
      bid_select db id = some live → bid_history_select db id v = some old →
      1 ≤ live.Version → live.Version < 2147483646 →
      BidRepo.RollbackById [] db id v = (.ok ret1, db1) →
      BidRepo.RollbackById [] db1 id v = (.ok ret2, db2) →
      ret1.Version = live.Version + 1 ∧ ret2.Version = live.Version + 2 ∧
        ret1.Version ≠ ret2.Version ∧ { ret2 with Version := ret1.Version } = ret1) := by
  constructor
  · intro db db1 db2 id v live old ret1 ret2 hlive hold h1 h2 hrun1 hrun2
    obtain ⟨hret1, ⟨live1, hlive1, hv1⟩, hold1, _⟩ := RollBackTender_found hlive hold hrun1
    obtain ⟨hret2, _, _, _⟩ := RollBackTender_found hlive1 hold1 hrun2
    rw [wrap32_succ h1 (by omega)] at hret1 hv1
    rw [hv1, wrap32_succ (by omega) (by omega)] at hret2
    subst hret1 hret2
    refine ⟨rfl, ?_, ?_, rfl⟩
    · show live.Version + 1 + 1 = live.Version + 2
      ring
    · show live.Version + 1 ≠ live.Version + 1 + 1
      omega
  · intro db db1 db2 id v live old ret1 ret2 hlive hold h1 h2 hrun1 hrun2
    obtain ⟨hret1, ⟨live1, hlive1, hl1⟩, hold1, _⟩ := RollbackById_found hlive hold hrun1
    obtain ⟨hret2, _, _, _⟩ := RollbackById_found hlive1 hold1 hrun2
    rw [wrap32_succ h1 (by omega)] at hret1
    rw [hl1] at hret2
    subst hret1
    rw [wrap32_succ (by show (1 : Int) ≤ live.Version + 1; omega)
      (by show live.Version + 1 < 2147483647; omega)] at hret2
    subst hret2
    refine ⟨rfl, ?_, ?_, rfl⟩
    · show live.Version + 1 + 1 = live.Version + 2
      ring
    · show live.Version + 1 ≠ live.Version + 1 + 1
      omega

/-- C6 at the example state: tender 7 and bid 9 (version 2) rolled back twice to
version 1 come back at versions 3 and 4 with the content of version 1. -/
theorem rollback_twice_same_content_witness :
    ((TenderRepo.RollBackTender [] (TenderRepo.RollBackTender [] exDb 7 1).2 7 1).1.toOption.map
        (fun t => (t.Description, t.Version)) = some ("old text", 4) ∧
      (TenderRepo.RollBackTender [] exDb 7 1).1.toOption.map
        (fun t => (t.Description, t.Version)) = some ("old text", 2 + 1)) ∧
    ((BidRepo.RollbackById [] (BidRepo.RollbackById [] exDb 9 1).2 9 1).1.toOption.map
        (fun b => (b.Description, b.Version)) = some ("first", 4) ∧
      (BidRepo.RollbackById [] exDb 9 1).1.toOption.map
        (fun b => (b.Description, b.Version)) = some ("first", 2 + 1)) :=
  ⟨⟨rfl, by
      have h := rollback_twice_same_content.1 exDb _ _ 7 1 _ _ _ _ rfl rfl (by decide)
        (by decide) rfl rfl
      rw [← h.1]; rfl⟩,
   ⟨rfl, by
      have h := rollback_twice_same_content.2 exDb _ _ 9 1 _ _ _ _ rfl rfl (by decide)
        (by decide) rfl rfl
      rw [← h.1]; rfl⟩⟩

/-! ## The decision engine -/

theorem orgId_nil_snd (db : DB) (bid : Bid) :
    (BidService.SubmitDecisionById.orgId [] db bid).2 = [] := by
  unfold BidService.SubmitDecisionById.orgId
  split
  · rfl
  · split
    · rfl
    · split
      · rfl
      · split <;> rfl

/-- `BidService.SubmitDecisionById` on a healthy connection, for a bid that exists,
an allowed decision and a deciding organization that resolves: the rest of the
function as one expression. -/
theorem SubmitDecisionById_eq {db : DB} {id : UUID} {decision : String} {row : BidRow}
    {orgId : UUID} {usersId : List UUID} (hrow : bid_select db id = some row)
    (hdec : decision = "Approved" ∨ decision = "Rejected")
    (horg : (BidService.SubmitDecisionById.orgId [] db row.toBid).1 = .ok orgId)
    (hus : OrganizationRepo.GetResponsibleUsersId [] db orgId = .ok usersId) :
    BidService.SubmitDecisionById [] db id decision =
      if row.rejects > 0 then (.error (.new "bid is already rejected"), db)
      else if row.approves > min 3 (usersId.length : Int) then
        (.error (.new "bid is already approved"), db)
      else if decision = "Approved" then
        (if int4_ok (row.approves + 1) then
          (.ok row.toBid,
            if row.approves + 1 ≥ min 3 (usersId.length : Int) then
              tender_close (setApproves db id (row.approves + 1)) row.TenderId
            else setApproves db id (row.approves + 1))
        else (.error (.new "can not approve bid"), db))
      else
        (if int4_ok (row.rejects + 1) then (.ok row.toBid, setRejects db id (row.rejects + 1))
        else (.error (.new "can not reject bid"), db)) := by
  have hpair : BidService.SubmitDecisionById.orgId [] db row.toBid = (.ok orgId, []) :=
    Prod.ext horg (orgId_nil_snd db row.toBid)
  have hget : BidRepo.GetBidById [] db id = .ok row.toBid := by
    unfold BidRepo.GetBidById
    simp only [fault_nil, Bool.false_eq_true, if_false, hrow]
  have hdis : BidRepo.GetDisicions [] db id = .ok (row.rejects, row.approves) := by
    unfold BidRepo.GetDisicions
    simp only [fault_nil, Bool.false_eq_true, if_false, hrow]
  have hd : (decision != "Approved" && decision != "Rejected") = false := by
    rcases hdec with h | h <;> subst h <;> decide
  unfold BidService.SubmitDecisionById
  simp only [hget, hd, Bool.false_eq_true, if_false, List.drop_nil, hpair, hus, hdis]
  by_cases hr : row.rejects > 0
  · simp only [hr, if_true]
  · simp only [hr, if_false]
    by_cases ha : row.approves > min 3 (usersId.length : Int)
    · simp only [ha, if_true]
    · simp only [ha, if_false]
      by_cases hA : decision = "Approved"
      · subst hA
        simp only [beq_self_eq_true, if_true]
        unfold BidRepo.UpdateApproves bid_update_approves
        simp only [fault_nil, List.drop_nil, Bool.false_eq_true, if_false]
        by_cases hi : int4_ok (row.approves + 1) = true
        · simp only [hi, Bool.not_true, Bool.false_eq_true, if_false, if_true]
          by_cases hc : row.approves + 1 ≥ min 3 (usersId.length : Int)
          · simp only [hc, decide_True, if_true]
            rfl
          · simp only [hc, decide_False, Bool.false_eq_true, if_false]
            rfl
        · simp only [hi, Bool.not_false, if_true, if_false]
          simp only [Bool.not_eq_true] at hi
          simp [hi]
      · have hb : (decision == "Approved") = false := by simpa using hA
        simp only [hb, Bool.false_eq_true, if_false, hA]
        unfold BidRepo.UpdateRejects bid_update_rejects
        simp only [fault_nil, Bool.false_eq_true, if_false]
        by_cases hi : int4_ok (row.rejects + 1) = true
        · simp only [hi, Bool.not_true, Bool.false_eq_true, if_false, if_true]
          rfl
        · simp only [Bool.not_eq_true] at hi
          simp [hi]

/-- C7, the code at the failing input.  Bid 9 has `approves = 2 = quorum` and its
tender 7 is already `Closed`; the guard of line 185 is `approves > quorum`, so
a further `Approved` is accepted and stored as `approves = 3`, and a
`Rejected` is accepted and stored as `rejects = 1`.  Only from
`approves = 3` on is the call refused as already approved. -/
theorem decision_accepted_at_quorum :
    (bid_select exDbApproved 9).map (fun r => (r.approves, r.rejects)) = some (2, 0) ∧
    (tender_select exDbApproved 7).map (fun t => t.Status) = some "Closed" ∧
    (BidService.SubmitDecisionById [] exDbApproved 9 "Approved").1.toOption.isSome = true ∧
    (bid_select (BidService.SubmitDecisionById [] exDbApproved 9 "Approved").2 9).map
      (fun r => (r.approves, r.rejects)) = some (3, 0) ∧
    (BidService.SubmitDecisionById [] exDbApproved 9 "Rejected").1.toOption.isSome = true ∧
    (bid_select (BidService.SubmitDecisionById [] exDbApproved 9 "Rejected").2 9).map
      (fun r => (r.approves, r.rejects)) = some (2, 1) ∧
    (BidService.SubmitDecisionById []
      (BidService.SubmitDecisionById [] exDbApproved 9 "Approved").2 9 "Approved").1 =
        .error (.new "bid is already approved") :=
  ⟨rfl, rfl, rfl, rfl, rfl, rfl, rfl⟩

theorem orgId_congr {db d : DB} (h1 : d.organization_responsible = db.organization_responsible)
    (h2 : d.organization = db.organization) (bid : Bid) :
    BidService.SubmitDecisionById.orgId [] d bid =
      BidService.SubmitDecisionById.orgId [] db bid := by
  unfold BidService.SubmitDecisionById.orgId OrganizationRepo.GetOrganizationsByUserId
  rw [h1, h2]

theorem GetResponsibleUsersId_congr {db d : DB}
    (h1 : d.organization_responsible = db.organization_responsible) (orgId : UUID) :
    OrganizationRepo.GetResponsibleUsersId [] d orgId =
      OrganizationRepo.GetResponsibleUsersId [] db orgId := by
  unfold OrganizationRepo.GetResponsibleUsersId
  rw [h1]

theorem bid_select_setApproves {db : DB} {id : UUID} {row : BidRow} (a : Int)
    (h : bid_select db id = some row) :
    bid_select (setApproves db id a) id = some { row with approves := a } := by
  unfold bid_select at h ⊢
  have := find?_map_upd (fun x : BidRow => x.Id) (fun r => { r with approves := a })
    (fun _ => rfl) id db.bid
  rw [h] at this
  exact this

theorem bid_select_setRejects {db : DB} {id : UUID} {row : BidRow} (a : Int)
    (h : bid_select db id = some row) :
    bid_select (setRejects db id a) id = some { row with rejects := a } := by
  unfold bid_select at h ⊢
  have := find?_map_upd (fun x : BidRow => x.Id) (fun r => { r with rejects := a })
    (fun _ => rfl) id db.bid
  rw [h] at this
  exact this

/-- A call that returns without error resolved the deciding organization and its users. -/
theorem SubmitDecisionById_ok_resolves {db db1 : DB} {id : UUID} {decision : String}
    {row : BidRow} {ret : Bid} (hrow : bid_select db id = some row)
    (h : BidService.SubmitDecisionById [] db id decision = (.ok ret, db1)) :
    ∃ orgId usersId,
      (BidService.SubmitDecisionById.orgId [] db row.toBid).1 = .ok orgId ∧
      OrganizationRepo.GetResponsibleUsersId [] db orgId = .ok usersId ∧
      (decision = "Approved" ∨ decision = "Rejected") := by
  have hget : BidRepo.GetBidById [] db id = .ok row.toBid := by
    unfold BidRepo.GetBidById
    simp only [fault_nil, Bool.false_eq_true, if_false, hrow]
  unfold BidService.SubmitDecisionById at h
  simp only [hget, List.drop_nil] at h
  split at h
  · cases h
  · rename_i hdec
    split at h
    · cases h
    · rename_i orgId faults1 hpair
      have hf : faults1 = [] := by
        have := orgId_nil_snd db row.toBid
        rw [hpair] at this
        exact this
      subst hf
      split at h
      · cases h
      · rename_i usersId hus
        refine ⟨orgId, usersId, by rw [hpair], hus, ?_⟩
        simp only [Bool.and_eq_true, bne_iff_ne, ne_eq, not_and, Decidable.not_not] at hdec
        by_cases hA : decision = "Approved"
        · exact Or.inl hA
        · exact Or.inr (hdec hA)

theorem GetDisicions_val {faults : List Bool} {db : DB} {id : UUID} {r a : Int}
    (h : BidRepo.GetDisicions faults db id = .ok (r, a)) :
    ∃ row, bid_select db id = some row ∧ r = row.rejects ∧ a = row.approves := by
  unfold BidRepo.GetDisicions at h
  split at h
  · cases h
  · split at h
    · cases h
    · rename_i row hrow
      simp only [Except.ok.injEq, Prod.mk.injEq] at h
      exact ⟨row, hrow, h.1.symm, h.2.symm⟩

/-- A bid with a rejection: no call is accepted and no call changes the database,
whatever the decision string and whatever the connection does. -/
theorem rejected_refused {db : DB} {id : UUID} {row : BidRow}
    (hrow : bid_select db id = some row) (hrej : row.rejects > 0)
    (faults : List Bool) (decision : String) :
    (BidService.SubmitDecisionById faults db id decision).2 = db ∧
      ∀ b, (BidService.SubmitDecisionById faults db id decision).1 ≠ .ok b := by
  unfold BidService.SubmitDecisionById
  split
  · exact ⟨rfl, fun b h => by cases h⟩
  · split
    · exact ⟨rfl, fun b h => by cases h⟩
    · split
      · exact ⟨rfl, fun b h => by cases h⟩
      · split
        · exact ⟨rfl, fun b h => by cases h⟩
        · split
          · exact ⟨rfl, fun b h => by cases h⟩
          · rename_i rejects approves hdis
            obtain ⟨row1, hrow1, hr, _⟩ := GetDisicions_val hdis
            rw [hrow] at hrow1
            cases hrow1
            have : rejects > 0 := by rw [hr]; exact hrej
            rw [if_pos this]
            exact ⟨rfl, fun b h => by cases h⟩

theorem runDecisions_rejected {db : DB} {id : UUID} {row : BidRow} {orgId : UUID}
    {usersId : List UUID} (hrow : bid_select db id = some row) (hrej : row.rejects > 0)
    (horg : (BidService.SubmitDecisionById.orgId [] db row.toBid).1 = .ok orgId)
    (hus : OrganizationRepo.GetResponsibleUsersId [] db orgId = .ok usersId)
    (ds : List String) (hds : ∀ d ∈ ds, d = "Approved" ∨ d = "Rejected") :
    runDecisions db id ds =
      (ds.map (fun _ => .error (.new "bid is already rejected")), db) := by
  induction ds with
  | nil => rfl
  | cons d rest ih =>
    have hd := hds d (List.mem_cons_self d rest)
    have hstep := SubmitDecisionById_eq hrow hd horg hus
    simp only [hrej, if_true] at hstep
    simp only [runDecisions, hstep, List.map_cons]
    rw [ih (fun x hx => hds x (List.mem_cons_of_mem d hx))]

/-- An accepted `Rejected` decision on a bid whose `rejects` counter is not
negative stores `rejects = 1` and writes nothing else. -/
theorem rejected_accepted {db db1 : DB} {id : UUID} {row : BidRow} {ret : Bid}
    (hrow : bid_select db id = some row) (h0 : 0 ≤ row.rejects)
    (hrun : BidService.SubmitDecisionById [] db id "Rejected" = (.ok ret, db1)) :
    db1 = setRejects db id 1 ∧ row.rejects = 0 := by
  obtain ⟨orgId, usersId, horg, hus, _⟩ := SubmitDecisionById_ok_resolves hrow hrun
  have hstep := SubmitDecisionById_eq hrow (Or.inr rfl) horg hus
  rw [hrun] at hstep
  split at hstep
  · cases hstep
  · rename_i hr
    have hz : row.rejects = 0 := by omega
    split at hstep
    · cases hstep
    · have hne : ¬ ("Rejected" = "Approved") := by decide
      rw [if_neg hne] at hstep
      split at hstep
      · simp only [Prod.mk.injEq, Except.ok.injEq] at hstep
        rw [hz] at hstep
        exact ⟨hstep.2, hz⟩
      · cases hstep

/-- C8 (rejected lock-in).  For a bid whose `rejects` counter is above 0:
no later call of `BidService.SubmitDecisionById` is accepted and none changes
the database (counters, bid, parent tender), whatever the decision and
whatever the connection does; and on a healthy connection, when the deciding
organization of the bid resolves, every call with `Approved` or `Rejected`,
and every sequence of such calls, fails with `bid is already rejected`.  In
particular, after a `Rejected` decision was accepted for a bid (whose counter
was not negative), every sequence of later calls with `Approved` or
`Rejected` fails with `bid is already rejected` and leaves the database as
the rejection left it. -/
theorem rejected_lock_in :
    (∀ (db : DB) (id : UUID) (row : BidRow),
      bid_select db id = some row → row.rejects > 0 →
      (∀ (faults : List Bool) (decision : String),
        (BidService.SubmitDecisionById faults db id decision).2 = db ∧
          ∀ b, (BidService.SubmitDecisionById faults db id decision).1 ≠ .ok b) ∧
      (∀ (orgId : UUID) (usersId : List UUID),
        (BidService.SubmitDecisionById.orgId [] db row.toBid).1 = .ok orgId →
        OrganizationRepo.GetResponsibleUsersId [] db orgId = .ok usersId →
        (∀ decision, decision = "Approved" ∨ decision = "Rejected" →
          BidService.SubmitDecisionById [] db id decision =
            (.error (.new "bid is already rejected"), db)) ∧
        (∀ ds : List String, (∀ d ∈ ds, d = "Approved" ∨ d = "Rejected") →
          runDecisions db id ds =
            (ds.map (fun _ => .error (.new "bid is already rejected")), db)))) ∧
    (∀ (db db1 : DB) (id : UUID) (row : BidRow) (ret : Bid),
      bid_select db id = some row → 0 ≤ row.rejects →
      BidService.SubmitDecisionById [] db id "Rejected" = (.ok ret, db1) →
      (bid_select db1 id).map (fun r => r.rejects) = some 1 ∧
      ∀ ds : List String, (∀ d ∈ ds, d = "Approved" ∨ d = "Rejected") →
        runDecisions db1 id ds =
          (ds.map (fun _ => .error (.new "bid is already rejected")), db1)) := by
  constructor
  · intro db id row hrow hrej
    refine ⟨fun faults decision => rejected_refused hrow hrej faults decision, ?_⟩
    intro orgId usersId horg hus
    refine ⟨?_, fun ds hds => runDecisions_rejected hrow hrej horg hus ds hds⟩
    intro decision hd
    have hstep := SubmitDecisionById_eq hrow hd horg hus
    simp only [hrej, if_true] at hstep
    exact hstep
  · intro db db1 id row ret hrow h0 hrun
    obtain ⟨orgId, usersId, horg, hus, _⟩ := SubmitDecisionById_ok_resolves hrow hrun
    obtain ⟨hdb, _⟩ := rejected_accepted hrow h0 hrun
    have hrow1 : bid_select db1 id = some { row with rejects := 1 } := by
      rw [hdb]
      exact bid_select_setRejects 1 hrow
    have horg1 : (BidService.SubmitDecisionById.orgId [] db1 row.toBid).1 = .ok orgId := by
      rw [orgId_congr (by rw [hdb]) (by rw [hdb])]
      exact horg
    have hus1 : OrganizationRepo.GetResponsibleUsersId [] db1 orgId = .ok usersId := by
      rw [GetResponsibleUsersId_congr (by rw [hdb])]
      exact hus
    refine ⟨by rw [hrow1]; rfl, fun ds hds => ?_⟩
    have hpos : ({ row with rejects := 1 } : BidRow).rejects > 0 := by
      show (1 : Int) > 0
      decide
    exact runDecisions_rejected hrow1 hpos horg1 hus1 ds hds

/-- C8 at the example state: bid 9 is rejected once; an approval and a rejection
that follow are both refused as already rejected and leave the state as it is. -/
theorem rejected_lock_in_witness :
    runDecisions exDbRejected 9 ["Approved", "Rejected"] =
      ([.error (.new "bid is already rejected"), .error (.new "bid is already rejected")],
        exDbRejected) :=
  (rejected_lock_in.2 exDbQ exDbRejected 9 _ _ rfl (by decide) rfl).2
    ["Approved", "Rejected"] (by decide)

/-! ## Approvals up to the quorum -/

theorem tender_select_close {db : DB} {id : UUID} {t : TenderRow}
    (h : tender_select db id = some t) :
    tender_select (tender_close db id) id = some { t with Status := "Closed" } := by
  unfold tender_select at h ⊢
  have := find?_map_upd (fun x : TenderRow => x.Id) (fun r => { r with Status := "Closed" })
    (fun _ => rfl) id db.tender
  rw [h] at this
  exact this

theorem afterApprovals_step {db : DB} {id : UUID} {row : BidRow} {orgId : UUID}
    {usersId : List UUID} {j : Nat} {d : DB}
    (horg : (BidService.SubmitDecisionById.orgId [] db row.toBid).1 = .ok orgId)
    (hus : OrganizationRepo.GetResponsibleUsersId [] db orgId = .ok usersId)
    (hP : AfterApprovals db id row usersId j d) :
    AfterApprovals db id row usersId (j + 1)
      (BidService.SubmitDecisionById [] d id "Approved").2 := by
  obtain ⟨hm, ho, rowj, tj, hrowj, hbid, hrej, happ, htj, hclosed⟩ := hP
  have horg2 : (BidService.SubmitDecisionById.orgId [] d rowj.toBid).1 = .ok orgId := by
    rw [hbid, orgId_congr hm ho]; exact horg
  have hus2 : OrganizationRepo.GetResponsibleUsersId [] d orgId = .ok usersId := by
    rw [GetResponsibleUsersId_congr hm]; exact hus
  have hstep := SubmitDecisionById_eq hrowj (Or.inl rfl) horg2 hus2
  have hr0 : ¬ rowj.rejects > 0 := by rw [hrej]; decide
  have hq0 : (0 : Int) ≤ min 3 (usersId.length : Int) := by omega
  have hq3 : min 3 (usersId.length : Int) ≤ 3 := by omega
  have htid : rowj.TenderId = row.TenderId := by exact congrArg Bid.TenderId hbid
  simp only [hr0, if_false, if_true] at hstep
  by_cases hbig : rowj.approves > min 3 (usersId.length : Int)
  · simp only [hbig, if_true] at hstep
    rw [hstep]
    refine ⟨hm, ho, rowj, tj, hrowj, hbid, hrej, ?_, htj, ?_⟩
    · rw [happ]; omega
    · have hj : (1 ≤ j ∧ min 3 (usersId.length : Int) ≤ (j : Int)) := by
        rw [happ] at hbig; omega
      constructor
      · intro _; omega
      · intro _; exact hclosed.mpr hj
  · have hjq : (j : Int) ≤ min 3 (usersId.length : Int) := by rw [happ] at hbig; omega
    have haj : rowj.approves = (j : Int) := by rw [happ]; omega
    have hi : int4_ok (rowj.approves + 1) = true := by
      unfold int4_ok
      simp only [Bool.and_eq_true, decide_eq_true_eq]
      omega
    simp only [hbig, if_false, hi, if_true] at hstep
    by_cases hc : rowj.approves + 1 ≥ min 3 (usersId.length : Int)
    · simp only [hc, if_true] at hstep
      rw [hstep]
      refine ⟨hm, ho, { rowj with approves := rowj.approves + 1 },
        { tj with Status := "Closed" }, bid_select_setApproves _ hrowj, hbid, hrej, ?_,
        ?_, ?_⟩
      · show rowj.approves + 1 = _
        rw [haj]; omega
      · rw [htid]
        exact tender_select_close htj
      · constructor
        · intro _; rw [haj] at hc; omega
        · intro _; rfl
    · simp only [hc, if_false] at hstep
      rw [hstep]
      refine ⟨hm, ho, { rowj with approves := rowj.approves + 1 }, tj,
        bid_select_setApproves _ hrowj, hbid, hrej, ?_, htj, ?_⟩
      · show rowj.approves + 1 = _
        rw [haj]; omega
      · rw [haj] at hc
        constructor
        · intro h
          have := hclosed.mp h
          omega
        · intro h
          omega

theorem afterApprovals_run {db : DB} {id : UUID} {row : BidRow} {orgId : UUID}
    {usersId : List UUID}
    (horg : (BidService.SubmitDecisionById.orgId [] db row.toBid).1 = .ok orgId)
    (hus : OrganizationRepo.GetResponsibleUsersId [] db orgId = .ok usersId) (k : Nat) :
    ∀ (j : Nat) (d : DB), AfterApprovals db id row usersId j d →
      AfterApprovals db id row usersId (j + k)
        (runDecisions d id (List.replicate k "Approved")).2 := by
  induction k with
  | zero => intro j d hP; exact hP
  | succ k ih =>
    intro j d hP
    have h1 := afterApprovals_step horg hus hP
    have h2 := ih (j + 1) _ h1
    have hidx : j + (k + 1) = j + 1 + k := by omega
    rw [hidx]
    exact h2

/-- C9 (quorum boundary).  `BidService.SubmitDecisionById` computes the quorum as
`min(3, n)` for the `n` responsible users of the deciding organization.
Start from a bid with `approves = 0` and `rejects = 0` whose deciding
organization resolves and whose parent tender is not `Closed`, and submit `k ≥ 1`
decisions `Approved` one after the other on a healthy connection (the
membership tables are not written by these calls).  Then the parent tender is
`Closed` after the k-th call if and only if `k ≥ min(3, n)`, and the counter
then holds `min(k, min(3, n) + 1)`. -/
theorem quorum_boundary (db : DB) (id : UUID) (row : BidRow) (orgId : UUID)
    (usersId : List UUID) (t : TenderRow) (k : Nat)
    (hrow : bid_select db id = some row) (ha : row.approves = 0) (hr : row.rejects = 0)
    (horg : (BidService.SubmitDecisionById.orgId [] db row.toBid).1 = .ok orgId)
    (hus : OrganizationRepo.GetResponsibleUsersId [] db orgId = .ok usersId)
    (ht : tender_select db row.TenderId = some t) (hopen : t.Status ≠ "Closed")
    (hk : 1 ≤ k) :
    ((tender_select (runDecisions db id (List.replicate k "Approved")).2 row.TenderId).map
        (fun t => t.Status) = some "Closed" ↔ min 3 usersId.length ≤ k) ∧
      (bid_select (runDecisions db id (List.replicate k "Approved")).2 id).map
        (fun r => r.approves) = some (min (k : Int) (min 3 (usersId.length : Int) + 1)) := by
  have h0 : AfterApprovals db id row usersId 0 db := by
    refine ⟨rfl, rfl, row, t, hrow, rfl, hr, ?_, ht, ?_⟩
    · rw [ha]; omega
    · constructor
      · intro h; exact absurd h hopen
      · intro h; omega
  have hk2 := afterApprovals_run horg hus k 0 db h0
  rw [Nat.zero_add] at hk2
  obtain ⟨_, _, rowk, tk, hrowk, _, _, happ, htk, hclosed⟩ := hk2
  rw [htk, hrowk]
  simp only [Option.map_some', Option.some.injEq]
  refine ⟨?_, happ⟩
  rw [hclosed]
  omega

/-- C9 at the example state: bid 9 is decided by organization 1 (two responsible
users), bid 10 by organization 2 (five); tender 7 is closed by the second
approval of bid 9 and not by the first, by the third approval of bid 10 and not
by the second. -/
theorem quorum_boundary_witness :
    ((tender_select (runDecisions exDbQ 9 (List.replicate 2 "Approved")).2 7).map
        (fun t => t.Status) = some "Closed" ∧
      (tender_select (runDecisions exDbQ 9 (List.replicate 1 "Approved")).2 7).map
        (fun t => t.Status) ≠ some "Closed") ∧
    ((tender_select (runDecisions exDbQ 10 (List.replicate 3 "Approved")).2 7).map
        (fun t => t.Status) = some "Closed" ∧
      (tender_select (runDecisions exDbQ 10 (List.replicate 2 "Approved")).2 7).map
        (fun t => t.Status) ≠ some "Closed") :=
  ⟨⟨(quorum_boundary exDbQ 9 _ 1 [11, 12] _ 2 rfl rfl rfl rfl rfl rfl (by decide)
        (by decide)).1.mpr (by decide),
      fun h => absurd ((quorum_boundary exDbQ 9 _ 1 [11, 12] _ 1 rfl rfl rfl rfl rfl rfl
        (by decide) (by decide)).1.mp h) (by decide)⟩,
   ⟨(quorum_boundary exDbQ 10 _ 2 [21, 22, 23, 24, 25] _ 3 rfl rfl rfl rfl rfl rfl (by decide)
        (by decide)).1.mpr (by decide),
      fun h => absurd ((quorum_boundary exDbQ 10 _ 2 [21, 22, 23, 24, 25] _ 2 rfl rfl rfl rfl
        rfl rfl (by decide) (by decide)).1.mp h) (by decide)⟩⟩

/-! ## One accepted approval -/

/-- C10 (approve step).  On a healthy connection, an `Approved` decision that is
accepted for a bid with counters `(approves = a, rejects = 0)` resolved a
deciding organization with some responsible users `usersId`, the quorum being
`min(3, n)` for their number `n`, and then: the stored row of the bid is the
old row with `approves = a + 1` (so `rejects` is still 0); when `a + 1` is at
least the quorum the table `tender` is the old one with the parent tender's
status set to `Closed`; when `a + 1` is below the quorum the table `tender` is
unchanged; so a parent tender that was not `Closed` is `Closed` afterwards if
and only if `a + 1` is at least the quorum. -/
theorem approve_step (db db1 : DB) (id : UUID) (row : BidRow) (ret : Bid)
    (hrow : bid_select db id = some row) (hrej : row.rejects = 0)
    (hrun : BidService.SubmitDecisionById [] db id "Approved" = (.ok ret, db1)) :
    ∃ (orgId : UUID) (usersId : List UUID),
      (BidService.SubmitDecisionById.orgId [] db row.toBid).1 = .ok orgId ∧
      OrganizationRepo.GetResponsibleUsersId [] db orgId = .ok usersId ∧
      bid_select db1 id = some { row with approves := row.approves + 1 } ∧
      (row.approves + 1 ≥ min 3 (usersId.length : Int) →
        db1.tender = db.tender.map (fun r =>
          if r.Id == row.TenderId then { r with Status := "Closed" } else r)) ∧
      (row.approves + 1 < min 3 (usersId.length : Int) → db1.tender = db.tender) ∧
      (∀ t, tender_select db row.TenderId = some t → t.Status ≠ "Closed" →
        ((tender_select db1 row.TenderId).map (fun t => t.Status) = some "Closed" ↔
          row.approves + 1 ≥ min 3 (usersId.length : Int))) := by
  obtain ⟨orgId, usersId, horg, hus, _⟩ := SubmitDecisionById_ok_resolves hrow hrun
  refine ⟨orgId, usersId, horg, hus, ?_⟩
  have hstep := SubmitDecisionById_eq hrow (Or.inl rfl) horg hus
  rw [hrun] at hstep
  have hr0 : ¬ row.rejects > 0 := by rw [hrej]; decide
  simp only [hr0, if_false, if_true] at hstep
  split at hstep
  · cases hstep
  · split at hstep
    · simp only [Prod.mk.injEq, Except.ok.injEq] at hstep
      obtain ⟨_, hdb⟩ := hstep
      by_cases hc : row.approves + 1 ≥ min 3 (usersId.length : Int)
      · rw [if_pos hc] at hdb
        refine ⟨?_, fun _ => by rw [hdb]; rfl, fun hlt => by omega, ?_⟩
        · rw [hdb]
          exact bid_select_setApproves _ hrow
        · intro t ht _
          have : tender_select db1 row.TenderId = some { t with Status := "Closed" } := by
            rw [hdb]
            exact tender_select_close ht
          rw [this]
          simp only [Option.map_some', true_iff, hc]
      · rw [if_neg hc] at hdb
        refine ⟨?_, fun h => absurd h hc, fun _ => by rw [hdb]; rfl, ?_⟩
        · rw [hdb]
          exact bid_select_setApproves _ hrow
        · intro t ht hopen
          have : tender_select db1 row.TenderId = some t := by
            rw [hdb]
            exact ht
          rw [this]
          simp only [Option.map_some', Option.some.injEq, hopen, hc]
    · cases hstep

/-- C10 at the example state: the first approval of bid 9 (quorum 2) stores
`approves = 1` and leaves tender 7 as it is; the second stores `approves = 2`
and closes it. -/
theorem approve_step_witness :
    (bid_select (BidService.SubmitDecisionById [] exDbQ 9 "Approved").2 9 =
        (bid_select exDbQ 9).map (fun r => { r with approves := 0 + 1 }) ∧
      (BidService.SubmitDecisionById [] exDbQ 9 "Approved").2.tender = exDbQ.tender) ∧
    (tender_select exDbApproved 7).map (fun t => t.Status) = some "Closed" := by
  obtain ⟨orgId, usersId, horg, hus, hsel, _, hsame, _⟩ :=
    approve_step exDbQ _ 9 _ _ rfl rfl rfl
  have hu : usersId = [11, 12] := by
    have ho : orgId = 1 := by
      have h1 : (BidService.SubmitDecisionById.orgId [] exDbQ
        (⟨9, "offer", "second", "Published", 7, "User", 11, 2, 200⟩ : Bid)).1 = .ok 1 := rfl
      rw [h1] at horg
      cases horg
      rfl
    subst ho
    have h2 : OrganizationRepo.GetResponsibleUsersId [] exDbQ 1 = .ok [11, 12] := rfl
    rw [h2] at hus
    cases hus
    rfl
  subst hu
  exact ⟨⟨hsel, hsame (by decide)⟩, rfl⟩

/-! ## The decision engine on any connection -/

theorem GetBidById_val {faults : List Bool} {db : DB} {id : UUID} {b : Bid}
    (h : BidRepo.GetBidById faults db id = .ok b) :
    ∃ row, bid_select db id = some row ∧ b = row.toBid := by
  unfold BidRepo.GetBidById at h
  split at h
  · cases h
  · split at h
    · cases h
    · rename_i r hr
      cases h
      exact ⟨r, hr, rfl⟩

theorem GetResponsibleUsersId_val {faults : List Bool} {db : DB} {orgId : UUID}
    {usersId : List UUID}
    (h : OrganizationRepo.GetResponsibleUsersId faults db orgId = .ok usersId) :
    OrganizationRepo.GetResponsibleUsersId [] db orgId = .ok usersId := by
  unfold OrganizationRepo.GetResponsibleUsersId at h ⊢
  split at h
  · cases h
  · simp only [fault_nil, Bool.false_eq_true, if_false]
    exact h

theorem GetOrganizationsByUserId_val {faults : List Bool} {db : DB} {userId : UUID}
    {orgs : List Organization}
    (h : OrganizationRepo.GetOrganizationsByUserId faults db userId = .ok orgs) :
    OrganizationRepo.GetOrganizationsByUserId [] db userId = .ok orgs := by
  unfold OrganizationRepo.GetOrganizationsByUserId at h ⊢
  split at h
  · cases h
  · simp only [fault_nil, Bool.false_eq_true, if_false]
    exact h

theorem orgId_val {faults faults1 : List Bool} {db : DB} {bid : Bid} {orgId : UUID}
    (h : BidService.SubmitDecisionById.orgId faults db bid = (.ok orgId, faults1)) :
    (BidService.SubmitDecisionById.orgId [] db bid).1 = .ok orgId := by
  unfold BidService.SubmitDecisionById.orgId at h ⊢
  split at h
  · rename_i hty
    simp only [Prod.mk.injEq, Except.ok.injEq] at h
    simp only [hty, if_true, h.1]
  · rename_i hty
    simp only [hty, if_false]
    split at h
    · cases h
    · rename_i orgs horgs
      rw [GetOrganizationsByUserId_val horgs]
      split at h
      · cases h
      · rename_i hguard
        simp only [hguard, if_false]
        split at h
        · cases h
        · simp only [Prod.mk.injEq, Except.ok.injEq] at h
          simp only [h.1, Bool.false_eq_true, if_false]

theorem UpdateApproves_cases (faults : List Bool) (db : DB) (bidId : UUID) (approves : Int)
    (tenderId : UUID) (closeTender : Bool) :
    (∃ e, BidRepo.UpdateApproves faults db bidId approves tenderId closeTender
        = (.error e, db)) ∨
      BidRepo.UpdateApproves faults db bidId approves tenderId closeTender = (.ok (), db) ∨
      BidRepo.UpdateApproves faults db bidId approves tenderId closeTender =
        (.ok (), if closeTender then tender_close (setApproves db bidId approves) tenderId
          else setApproves db bidId approves) := by
  unfold BidRepo.UpdateApproves bid_update_approves
  split
  · exact Or.inl ⟨_, rfl⟩
  · split
    · exact Or.inl ⟨_, rfl⟩
    · split
      · rename_i e he
        split at he
        · cases he
          exact Or.inl ⟨_, rfl⟩
        · cases he
      · rename_i tx1 htx
        split at htx
        · cases htx
        · cases htx
          cases closeTender
          · simp only [Bool.false_eq_true, if_false]
            split
            · exact Or.inr (Or.inl rfl)
            · exact Or.inr (Or.inr rfl)
          · simp only [if_true]
            split
            · exact Or.inl ⟨_, rfl⟩
            · split
              · exact Or.inr (Or.inl rfl)
              · exact Or.inr (Or.inr rfl)

theorem UpdateRejects_cases (faults : List Bool) (db : DB) (bidId : UUID) (rejects : Int) :
    (∃ e, BidRepo.UpdateRejects faults db bidId rejects = (.error e, db)) ∨
      BidRepo.UpdateRejects faults db bidId rejects = (.ok (), setRejects db bidId rejects) := by
  unfold BidRepo.UpdateRejects bid_update_rejects
  split
  · exact Or.inl ⟨_, rfl⟩
  · split
    · rename_i e he
      split at he
      · cases he
        exact Or.inl ⟨_, rfl⟩
      · cases he
    · rename_i db1 hdb
      split at hdb
      · cases hdb
      · cases hdb
        exact Or.inr rfl

/-- `BidService.SubmitDecisionById` on any connection: either it returns an error
and the database is as before, or the bid exists, its deciding organization
resolves, it is neither rejected nor above the quorum, and the call returns
the bid: after `Approved` with the database as before (the commit failed and
its result was dropped) or with the counter written and, from the quorum on,
the tender closed; after `Rejected` with the `rejects` counter written. -/
theorem SubmitDecisionById_cases (faults : List Bool) (db : DB) (id : UUID)
    (decision : String) :
    (∃ e, BidService.SubmitDecisionById faults db id decision = (.error e, db)) ∨
    (∃ (row : BidRow) (orgId : UUID) (usersId : List UUID),
      bid_select db id = some row ∧
      (BidService.SubmitDecisionById.orgId [] db row.toBid).1 = .ok orgId ∧
      OrganizationRepo.GetResponsibleUsersId [] db orgId = .ok usersId ∧
      ¬ row.rejects > 0 ∧ ¬ row.approves > min 3 (usersId.length : Int) ∧
      ((decision = "Approved" ∧
          (BidService.SubmitDecisionById faults db id decision = (.ok row.toBid, db) ∨
            BidService.SubmitDecisionById faults db id decision =
              (.ok row.toBid,
                if row.approves + 1 ≥ min 3 (usersId.length : Int) then
                  tender_close (setApproves db id (row.approves + 1)) row.TenderId
                else setApproves db id (row.approves + 1)))) ∨
        (decision = "Rejected" ∧
          BidService.SubmitDecisionById faults db id decision =
            (.ok row.toBid, setRejects db id (row.rejects + 1))))) := by
  unfold BidService.SubmitDecisionById
  split
  · exact Or.inl ⟨_, rfl⟩
  · rename_i bid hbid
    obtain ⟨row, hrow, rfl⟩ := GetBidById_val hbid
    split
    · exact Or.inl ⟨_, rfl⟩
    · rename_i hdec
      split
      · exact Or.inl ⟨_, rfl⟩
      · rename_i orgId faults1 horg
        have horg0 := orgId_val horg
        split
        · exact Or.inl ⟨_, rfl⟩
        · rename_i usersId hus
          have hus0 := GetResponsibleUsersId_val hus
          split
          · exact Or.inl ⟨_, rfl⟩
          · rename_i rejects approves hdis
            obtain ⟨row1, hrow1, hr, ha⟩ := GetDisicions_val hdis
            rw [hrow] at hrow1
            cases hrow1
            subst hr ha
            split
            · exact Or.inl ⟨_, rfl⟩
            · rename_i hrej
              dsimp only
              split
              · exact Or.inl ⟨_, rfl⟩
              · rename_i happ
                split
                · rename_i hA
                  have hA2 : decision = "Approved" := by simpa using hA
                  rcases UpdateApproves_cases (List.drop 2 faults1) db id (row.approves + 1)
                    row.TenderId (decide (row.approves + 1 ≥ min 3 (usersId.length : Int)))
                    with ⟨e, he⟩ | he | he
                  · rw [he]
                    exact Or.inl ⟨_, rfl⟩
                  · rw [he]
                    exact Or.inr ⟨row, orgId, usersId, hrow, horg0, hus0, hrej, happ,
                      Or.inl ⟨hA2, Or.inl rfl⟩⟩
                  · rw [he]
                    refine Or.inr ⟨row, orgId, usersId, hrow, horg0, hus0, hrej, happ,
                      Or.inl ⟨hA2, Or.inr ?_⟩⟩
                    simp only [decide_eq_true_eq]
                · rename_i hA
                  have hR : decision = "Rejected" := by
                    simp only [Bool.and_eq_true, bne_iff_ne, ne_eq, not_and,
                      Decidable.not_not] at hdec
                    exact hdec (by simpa using hA)
                  rcases UpdateRejects_cases (List.drop 2 faults1) db id (row.rejects + 1)
                    with ⟨e, he⟩ | he
                  · rw [he]
                    exact Or.inl ⟨_, rfl⟩
                  · rw [he]
                    exact Or.inr ⟨row, orgId, usersId, hrow, horg0, hus0, hrej, happ,
                      Or.inr ⟨hR, rfl⟩⟩

/-! ## One accepted rejection -/

theorem bid_select_setRejects_ne {db : DB} {id j : UUID} (a : Int) (h : j ≠ id) :
    bid_select (setRejects db id a) j = bid_select db j := by
  unfold bid_select
  exact find?_map_upd_ne (fun x : BidRow => x.Id) (fun r => { r with rejects := a })
    (fun _ => rfl) id j h db.bid

/-- C11 (the reject step has no cascade).  On any connection, a `Rejected`
decision that is accepted for a bid stored as `row` returns the bid and leaves
the database equal to the old one except for the `rejects` column of that
bid, which is the old value plus 1: the stored row is `row` with only
`rejects` changed (same `approves`, attributes and version), every other bid
is as before, and the tables `tender` (so the parent tender and its status),
`tender_history`, `bid_history` and `review` are the same. -/
theorem reject_step (faults : List Bool) (db db1 : DB) (id : UUID) (row : BidRow) (ret : Bid)
    (hrow : bid_select db id = some row)
    (hrun : BidService.SubmitDecisionById faults db id "Rejected" = (.ok ret, db1)) :
    ret = row.toBid ∧
      db1 = setRejects db id (row.rejects + 1) ∧
      bid_select db1 id = some { row with rejects := row.rejects + 1 } ∧
      (∀ j, j ≠ id → bid_select db1 j = bid_select db j) ∧
      db1.tender = db.tender ∧ db1.tender_history = db.tender_history ∧
      db1.bid_history = db.bid_history ∧ db1.review = db.review := by
  rcases SubmitDecisionById_cases faults db id "Rejected" with
    ⟨e, he⟩ | ⟨row1, _, _, hrow1, _, _, _, _, hcase⟩
  · rw [he] at hrun
    cases hrun
  · rw [hrow] at hrow1
    cases hrow1
    rcases hcase with ⟨hA, _⟩ | ⟨_, he⟩
    · exact absurd hA (by decide)
    · rw [he] at hrun
      simp only [Prod.mk.injEq, Except.ok.injEq] at hrun
      obtain ⟨hret, hdb⟩ := hrun
      subst hdb
      exact ⟨hret.symm, rfl, bid_select_setRejects _ hrow,
        fun j hj => bid_select_setRejects_ne _ hj, rfl, rfl, rfl, rfl⟩

/-- C11 at the example state: the rejection of bid 9 stores `rejects = 1`, keeps
`approves = 0`, and leaves tender 7 and bid 10 as they are. -/
theorem reject_step_witness :
    (bid_select (BidService.SubmitDecisionById [] exDbQ 9 "Rejected").2 9).map
        (fun r => (r.rejects, r.approves, r.Version)) = some (0 + 1, 0, 2) ∧
      (BidService.SubmitDecisionById [] exDbQ 9 "Rejected").2.tender = exDbQ.tender ∧
      bid_select (BidService.SubmitDecisionById [] exDbQ 9 "Rejected").2 10 =
        bid_select exDbQ 10 :=
  have h := reject_step [] exDbQ (BidService.SubmitDecisionById [] exDbQ 9 "Rejected").2 9
    _ _ rfl rfl
  ⟨(congrArg (Option.map (fun r : BidRow => (r.rejects, r.approves, r.Version)))
      h.2.2.1).trans rfl, h.2.2.2.2.1, h.2.2.2.1 10 (by decide)⟩

/-! ## Counter write and tender close -/

theorem GetBidById_cons_false (fs : List Bool) (db : DB) (id : UUID) :
    BidRepo.GetBidById (false :: fs) db id = BidRepo.GetBidById [] db id := rfl

theorem GetDisicions_cons_false (fs : List Bool) (db : DB) (id : UUID) :
    BidRepo.GetDisicions (false :: fs) db id = BidRepo.GetDisicions [] db id := rfl

theorem GetResponsibleUsersId_cons_false (fs : List Bool) (db : DB) (orgId : UUID) :
    OrganizationRepo.GetResponsibleUsersId (false :: fs) db orgId =
      OrganizationRepo.GetResponsibleUsersId [] db orgId := rfl

theorem GetOrganizationsByUserId_cons_false (fs : List Bool) (db : DB) (userId : UUID) :
    OrganizationRepo.GetOrganizationsByUserId (false :: fs) db userId =
      OrganizationRepo.GetOrganizationsByUserId [] db userId := rfl

theorem orgId_cons_false (fs : List Bool) (db : DB) (bid : Bid) :
    BidService.SubmitDecisionById.orgId (false :: fs) db bid =
      ((BidService.SubmitDecisionById.orgId [] db bid).1,
        if bid.AuthorType == OrgBidAuthorType then false :: fs else fs) := by
  unfold BidService.SubmitDecisionById.orgId
  rw [GetOrganizationsByUserId_cons_false]
  split
  · rfl
  · split
    · rfl
    · split
      · rfl
      · split <;> rfl

/-- `BidService.SubmitDecisionById` when its lookups succeed (the bid, the
organizations of a user who is the author, the responsible users, the
counters: three round trips for a bid of an organization, four for a bid of a
user) and the write that follows runs on the fault list `fs`. -/
theorem SubmitDecisionById_eq_of_replicate {db : DB} {id : UUID} {decision : String} {row : BidRow}
    {orgId : UUID} {usersId : List UUID} (hrow : bid_select db id = some row)
    (hdec : decision = "Approved" ∨ decision = "Rejected")
    (horg : (BidService.SubmitDecisionById.orgId [] db row.toBid).1 = .ok orgId)
    (hus : OrganizationRepo.GetResponsibleUsersId [] db orgId = .ok usersId)
    (fs : List Bool) :
    BidService.SubmitDecisionById
        (List.replicate (if row.AuthorType == OrgBidAuthorType then 3 else 4) false ++ fs)
        db id decision =
      if row.rejects > 0 then (.error (.new "bid is already rejected"), db)
      else if row.approves > min 3 (usersId.length : Int) then
        (.error (.new "bid is already approved"), db)
      else if decision = "Approved" then
        (match BidRepo.UpdateApproves fs db id (row.approves + 1) row.TenderId
            (decide (row.approves + 1 ≥ min 3 (usersId.length : Int))) with
          | (.error _, db1) => (.error (.new "can not approve bid"), db1)
          | (.ok _, db1) => (.ok row.toBid, db1))
      else
        (match BidRepo.UpdateRejects fs db id (row.rejects + 1) with
          | (.error _, db1) => (.error (.new "can not reject bid"), db1)
          | (.ok _, db1) => (.ok row.toBid, db1)) := by
  have hget : BidRepo.GetBidById [] db id = .ok row.toBid := by
    unfold BidRepo.GetBidById
    simp only [fault_nil, Bool.false_eq_true, if_false, hrow]
  have hdis : BidRepo.GetDisicions [] db id = .ok (row.rejects, row.approves) := by
    unfold BidRepo.GetDisicions
    simp only [fault_nil, Bool.false_eq_true, if_false, hrow]
  have hd : (decision != "Approved" && decision != "Rejected") = false := by
    rcases hdec with h | h <;> subst h <;> decide
  have hmain : ∀ gs : List Bool,
      (gs = false :: false :: false :: fs ∧ (row.AuthorType == OrgBidAuthorType) = true) ∨
      (gs = false :: false :: false :: false :: fs ∧
        (row.AuthorType == OrgBidAuthorType) = false) →
      BidService.SubmitDecisionById gs db id decision =
        if row.rejects > 0 then (.error (.new "bid is already rejected"), db)
        else if row.approves > min 3 (usersId.length : Int) then
          (.error (.new "bid is already approved"), db)
        else if decision = "Approved" then
          (match BidRepo.UpdateApproves fs db id (row.approves + 1) row.TenderId
              (decide (row.approves + 1 ≥ min 3 (usersId.length : Int))) with
            | (.error _, db1) => (.error (.new "can not approve bid"), db1)
            | (.ok _, db1) => (.ok row.toBid, db1))
        else
          (match BidRepo.UpdateRejects fs db id (row.rejects + 1) with
            | (.error _, db1) => (.error (.new "can not reject bid"), db1)
            | (.ok _, db1) => (.ok row.toBid, db1)) := by
    intro gs hgs
    have hty : (row.toBid.AuthorType == OrgBidAuthorType) = (row.AuthorType == OrgBidAuthorType) :=
      rfl
    unfold BidService.SubmitDecisionById
    rcases hgs with ⟨rfl, ht⟩ | ⟨rfl, ht⟩ <;>
    · simp only [GetBidById_cons_false, hget, hd, Bool.false_eq_true, if_false,
        List.drop_succ_cons, List.drop_zero, orgId_cons_false, horg, hty, ht, if_true,
        GetResponsibleUsersId_cons_false, hus, GetDisicions_cons_false, hdis]
      by_cases hr : row.rejects > 0
      · simp only [hr, if_true]
      · simp only [hr, if_false]
        by_cases ha : row.approves > min 3 (usersId.length : Int)
        · simp only [ha, if_true]
        · simp only [ha, if_false]
          by_cases hA : decision = "Approved"
          · subst hA
            simp only [beq_self_eq_true, if_true]
          · have hb : (decision == "Approved") = false := by simpa using hA
            simp only [hb, Bool.false_eq_true, if_false, hA]
  apply hmain
  cases ht : (row.AuthorType == OrgBidAuthorType)
  · exact Or.inr ⟨rfl, rfl⟩
  · exact Or.inl ⟨rfl, rfl⟩

theorem UpdateApproves_close_fails (rest : List Bool) (db : DB) (bidId : UUID)
    (approves : Int) (tenderId : UUID) :
    ∃ e, BidRepo.UpdateApproves (false :: false :: true :: rest) db bidId approves tenderId
      true = (.error e, db) := by
  unfold BidRepo.UpdateApproves
  simp only [fault, List.headD_cons, Bool.false_eq_true, if_false, List.drop_succ_cons,
    List.drop_zero, if_true]
  split
  · exact ⟨_, rfl⟩
  · exact ⟨_, rfl⟩

theorem tender_select_close_setApproves {db : DB} {id tid : UUID} {a : Int} {t : TenderRow}
    (h : tender_select db tid = some t) :
    tender_select (tender_close (setApproves db id a) tid) tid =
      some { t with Status := "Closed" } :=
  @tender_select_close (setApproves db id a) tid t h

/-- C12 (counter write and tender close are atomic).  `BidRepo.UpdateApproves`
with `closeTender` runs `Begin`, the counter update, the tender-close update
and `Commit`.  (1) When the first two succeed and the tender-close update
fails, it returns an error and the database is as before.  (2) On any
connection it ends in one of three ways: an error with the database as
before, nil with the database as before (the commit failed and its result was
dropped), or nil with the counter written and the tender closed.  (3) For an
`Approved` decision that reaches the quorum, when the lookups, `Begin` and
the counter update succeed and the tender-close update fails,
`BidService.SubmitDecisionById` returns the error `can not approve bid` and
the database, the counter included, is as before.  (4) On any connection such
a decision leaves the database either as before or with the counter
incremented and the parent tender `Closed`: never one without the other. -/
theorem approve_close_atomic :
    (∀ (rest : List Bool) (db : DB) (bidId : UUID) (approves : Int) (tenderId : UUID),
      ∃ e, BidRepo.UpdateApproves (false :: false :: true :: rest) db bidId approves
        tenderId true = (.error e, db)) ∧
    (∀ (faults : List Bool) (db : DB) (bidId : UUID) (approves : Int) (tenderId : UUID),
      (∃ e, BidRepo.UpdateApproves faults db bidId approves tenderId true = (.error e, db)) ∨
        BidRepo.UpdateApproves faults db bidId approves tenderId true = (.ok (), db) ∨
        BidRepo.UpdateApproves faults db bidId approves tenderId true =
          (.ok (), tender_close (setApproves db bidId approves) tenderId)) ∧
    (∀ (rest : List Bool) (db : DB) (id : UUID) (row : BidRow) (orgId : UUID)
      (usersId : List UUID),
      bid_select db id = some row →
      (BidService.SubmitDecisionById.orgId [] db row.toBid).1 = .ok orgId →
      OrganizationRepo.GetResponsibleUsersId [] db orgId = .ok usersId →
      ¬ row.rejects > 0 → ¬ row.approves > min 3 (usersId.length : Int) →
      row.approves + 1 ≥ min 3 (usersId.length : Int) →
      BidService.SubmitDecisionById
          (List.replicate (if row.AuthorType == OrgBidAuthorType then 3 else 4) false ++
            false :: false :: true :: rest) db id "Approved" =
        (.error (.new "can not approve bid"), db)) ∧
    (∀ (faults : List Bool) (db : DB) (id : UUID) (row : BidRow) (orgId : UUID)
      (usersId : List UUID),
      bid_select db id = some row →
      (BidService.SubmitDecisionById.orgId [] db row.toBid).1 = .ok orgId →
      OrganizationRepo.GetResponsibleUsersId [] db orgId = .ok usersId →
      row.approves + 1 ≥ min 3 (usersId.length : Int) →
      (∃ e, BidService.SubmitDecisionById faults db id "Approved" = (.error e, db)) ∨
        BidService.SubmitDecisionById faults db id "Approved" = (.ok row.toBid, db) ∨
        (BidService.SubmitDecisionById faults db id "Approved" =
            (.ok row.toBid, tender_close (setApproves db id (row.approves + 1)) row.TenderId) ∧
          bid_select (tender_close (setApproves db id (row.approves + 1)) row.TenderId) id =
            some { row with approves := row.approves + 1 } ∧
          ∀ t, tender_select db row.TenderId = some t →
            tender_select (tender_close (setApproves db id (row.approves + 1)) row.TenderId)
              row.TenderId = some { t with Status := "Closed" })) := by
  refine ⟨UpdateApproves_close_fails, ?_, ?_, ?_⟩
  · intro faults db bidId approves tenderId
    have h := UpdateApproves_cases faults db bidId approves tenderId true
    simp only [if_true] at h
    exact h
  · intro rest db id row orgId usersId hrow horg hus hr ha hq
    rw [SubmitDecisionById_eq_of_replicate hrow (Or.inl rfl) horg hus]
    obtain ⟨e, he⟩ := UpdateApproves_close_fails rest db id (row.approves + 1) row.TenderId
    have hd : decide (row.approves + 1 ≥ min 3 (usersId.length : Int)) = true := by
      simpa using hq
    simp only [hr, ha, if_false, if_true, hd, he]
  · intro faults db id row orgId usersId hrow horg hus hq
    rcases SubmitDecisionById_cases faults db id "Approved" with
      ⟨e, he⟩ | ⟨row1, orgId1, usersId1, hrow1, horg1, hus1, _, _, hcase⟩
    · exact Or.inl ⟨e, he⟩
    · rw [hrow] at hrow1
      cases hrow1
      rw [horg] at horg1
      cases horg1
      rw [hus] at hus1
      cases hus1
      rcases hcase with ⟨_, he | he⟩ | ⟨hR, _⟩
      · exact Or.inr (Or.inl he)
      · rw [if_pos hq] at he
        exact Or.inr (Or.inr ⟨he, bid_select_setApproves _ hrow,
          fun t ht => tender_select_close_setApproves ht⟩)
      · exact absurd hR (by decide)

/-- C12 at the example state: bid 9 has one approval and quorum 2; the second
approval whose tender-close update fails (seventh round trip) returns the
error and leaves the counter at 1 and tender 7 not closed. -/
theorem approve_close_atomic_witness :
    BidService.SubmitDecisionById [false, false, false, false, false, false, true] exDbOne 9
        "Approved" = (.error (.new "can not approve bid"), exDbOne) ∧
      (bid_select exDbOne 9).map (fun r => r.approves) = some 1 ∧
      (tender_select exDbOne 7).map (fun t => t.Status) = some "Published" :=
  ⟨approve_close_atomic.2.2.1 [] exDbOne 9 _ 1 [11, 12] rfl rfl rfl (by decide) (by decide)
    (by decide), rfl, rfl⟩

/-! ## The deciding organization -/

/-- For a bid of an organization the deciding organization is the author. -/
theorem orgId_of_organization (faults : List Bool) (db : DB) (bid : Bid)
    (h : bid.AuthorType = OrgBidAuthorType) :
    BidService.SubmitDecisionById.orgId faults db bid = (.ok bid.AuthorId, faults) := by
  unfold BidService.SubmitDecisionById.orgId
  simp only [h, beq_self_eq_true, if_true]

/-- For a bid of a user the deciding organization is the first one returned for the author. -/
theorem orgId_of_user (db : DB) (bid : Bid) (org : Organization) (orgs : List Organization)
    (h : bid.AuthorType ≠ OrgBidAuthorType)
    (ho : OrganizationRepo.GetOrganizationsByUserId [] db bid.AuthorId = .ok (org :: orgs)) :
    (BidService.SubmitDecisionById.orgId [] db bid).1 = .ok org.Id := by
  unfold BidService.SubmitDecisionById.orgId
  have hb : (bid.AuthorType == OrgBidAuthorType) = false := by simpa using h
  simp only [hb, Bool.false_eq_true, if_false, ho]
  rfl

/-- For a bid of a user without organization the guard of line 165 does not
fire and indexing the empty result panics. -/
theorem orgId_of_user_without_organization (db : DB) (bid : Bid)
    (h : bid.AuthorType ≠ OrgBidAuthorType)
    (ho : OrganizationRepo.GetOrganizationsByUserId [] db bid.AuthorId = .ok []) :
    (BidService.SubmitDecisionById.orgId [] db bid).1 = .error .panicIndex := by
  unfold BidService.SubmitDecisionById.orgId
  have hb : (bid.AuthorType == OrgBidAuthorType) = false := by simpa using h
  simp only [hb, Bool.false_eq_true, if_false, ho]
  rfl

/-- C13, the code at the failing input.  Bid 14 was written by user 13, who
represents no organization: the lookup returns no rows and no error, the
guard `err != nil || orgs != nil && len(orgs) == 0` is false for the nil
slice, and `orgs[0]` panics.  The call does not return
`ErrorUserIsNotOrgResponsible`; the database is as before.  (For bid 10, of
organization 2, the deciding organization is the author; for bid 9, of user
11, it is the first organization returned for the user.) -/
theorem decision_panics_without_organization :
    OrganizationRepo.GetOrganizationsByUserId [] exDbNoOrg 13 = .ok [] ∧
    BidService.SubmitDecisionById [] exDbNoOrg 14 "Approved" =
      (.error .panicIndex, exDbNoOrg) ∧
    BidService.SubmitDecisionById [] exDbNoOrg 14 "Rejected" =
      (.error .panicIndex, exDbNoOrg) ∧
    (BidService.SubmitDecisionById.orgId [] exDbQ
      ⟨10, "offer of org two", "steel", "Published", 7, "Organization", 2, 1, 300⟩).1 =
        .ok 2 ∧
    (BidService.SubmitDecisionById.orgId [] exDbQ
      ⟨9, "offer", "second", "Published", 7, "User", 11, 2, 200⟩).1 = .ok 1 :=
  ⟨rfl, rfl, rfl, rfl, rfl⟩

/-! ## Access checks -/

theorem GetTenderById_of_select {db : DB} {id : UUID} {t : TenderRow} (rest : List Bool)
    (h : tender_select db id = some t) :
    TenderRepo.GetTenderById (false :: rest) db id = .ok t.toTender := by
  unfold TenderRepo.GetTenderById
  simp only [fault, List.headD_cons, Bool.false_eq_true, if_false, h]

theorem GetTenderById_of_none {db : DB} {id : UUID} (faults : List Bool)
    (h : tender_select db id = none) :
    ∃ e, TenderRepo.GetTenderById faults db id = .error e := by
  unfold TenderRepo.GetTenderById
  split
  · exact ⟨_, rfl⟩
  · rw [h]
    exact ⟨_, rfl⟩

theorem GetTenderById_val {faults : List Bool} {db : DB} {id : UUID} {t : Tender}
    (h : TenderRepo.GetTenderById faults db id = .ok t) :
    ∃ row, tender_select db id = some row ∧ t = row.toTender := by
  unfold TenderRepo.GetTenderById at h
  split at h
  · cases h
  · split at h
    · cases h
    · rename_i r hr
      cases h
      exact ⟨r, hr, rfl⟩

theorem GetUserByName_of_find {db : DB} {name : String} {u : User} (rest : List Bool)
    (h : db.employee.find? (fun x => x.Username == name) = some u) :
    UserRepo.GetUserByName (false :: rest) db name = .ok u := by
  unfold UserRepo.GetUserByName
  simp only [fault, List.headD_cons, Bool.false_eq_true, if_false, h]

theorem GetUserByName_of_none {db : DB} {name : String} (faults : List Bool)
    (h : db.employee.find? (fun x => x.Username == name) = none) :
    ∃ e, UserRepo.GetUserByName faults db name = .error e := by
  unfold UserRepo.GetUserByName
  split
  · exact ⟨_, rfl⟩
  · rw [h]
    exact ⟨_, rfl⟩

theorem any_beq_iff_mem (l : List UUID) (a : UUID) :
    l.any (fun x => x == a) = true ↔ a ∈ l := by
  rw [List.any_eq_true]
  constructor
  · rintro ⟨x, hx, he⟩
    have : x = a := by simpa using he
    exact this ▸ hx
  · intro h
    exact ⟨a, h, by simp⟩

/-- C14 (canWrite decides membership).  For an existing tender `t`, a non-empty
username that resolves to the user `u` and the responsible users `usersId` of
the organization of the tender, on a healthy connection:
`TenderService.CheckWriteRightByUsername` returns nil exactly when the id of
`u` is in `usersId`, and `ErrorUserIsNotOrgResponsible` otherwise; the same for
`BidService.CheckRWRightsByUsername` with the errors of its package.  For a
tender that does not exist both return their tender-not-found error (on any
connection), and for a non-empty username that does not resolve both return
their user-not-found error. -/
theorem canWrite_decides_membership :
    (∀ (db : DB) (tenderId : UUID) (username : String) (t : TenderRow) (u : User)
      (usersId : List UUID),
      tender_select db tenderId = some t → username ≠ "" →
      db.employee.find? (fun x => x.Username == username) = some u →
      OrganizationRepo.GetResponsibleUsersId [] db t.OrganizationId = .ok usersId →
      (TenderService.CheckWriteRightByUsername [] db tenderId username = .ok () ↔
          u.Id ∈ usersId) ∧
        (u.Id ∉ usersId → TenderService.CheckWriteRightByUsername [] db tenderId username =
          .error .tenderErrorUserIsNotOrgResponsible) ∧
        (BidService.CheckRWRightsByUsername [] db tenderId username = .ok () ↔
          u.Id ∈ usersId) ∧
        (u.Id ∉ usersId → BidService.CheckRWRightsByUsername [] db tenderId username =
          .error .bidErrorUserIsNotOrgResponsible)) ∧
    (∀ (faults : List Bool) (db : DB) (tenderId : UUID) (username : String),
      tender_select db tenderId = none →
      TenderService.CheckWriteRightByUsername faults db tenderId username =
          .error .tenderErrorTenderNorFound ∧
        BidService.CheckRWRightsByUsername faults db tenderId username =
          .error .bidErrorTenderNotFound) ∧
    (∀ (rest : List Bool) (db : DB) (tenderId : UUID) (username : String) (t : TenderRow),
      tender_select db tenderId = some t → username ≠ "" →
      db.employee.find? (fun x => x.Username == username) = none →
      TenderService.CheckWriteRightByUsername (false :: rest) db tenderId username =
          .error .tenderErrorUserNorFound ∧
        BidService.CheckRWRightsByUsername (false :: rest) db tenderId username =
          .error .bidErrorUserNotFound) := by
  refine ⟨?_, ?_, ?_⟩
  · intro db tenderId username t u usersId ht hne hu hus
    have hget : TenderRepo.GetTenderById [] db tenderId = .ok t.toTender := by
      unfold TenderRepo.GetTenderById
      simp only [fault_nil, Bool.false_eq_true, if_false, ht]
    have huser : UserRepo.GetUserByName [] db username = .ok u := by
      unfold UserRepo.GetUserByName
      simp only [fault_nil, Bool.false_eq_true, if_false, hu]
    have hb : (username == "") = false := by simpa using hne
    have hT : TenderService.CheckWriteRightByUsername [] db tenderId username =
        if usersId.any (fun userId => userId == u.Id) then .ok ()
        else .error .tenderErrorUserIsNotOrgResponsible := by
      unfold TenderService.CheckWriteRightByUsername
      simp only [hget, hb, Bool.false_eq_true, if_false, List.drop_nil, huser, hus]
    have hB : BidService.CheckRWRightsByUsername [] db tenderId username =
        if usersId.any (fun userId => userId == u.Id) then .ok ()
        else .error .bidErrorUserIsNotOrgResponsible := by
      unfold BidService.CheckRWRightsByUsername
      simp only [hget, hb, Bool.false_eq_true, if_false, List.drop_nil, huser, hus]
    rw [hT, hB]
    by_cases hm : u.Id ∈ usersId
    · have := (any_beq_iff_mem usersId u.Id).mpr hm
      simp only [this, if_true, hm, true_iff, not_true_eq_false, false_implies, and_self]
    · have : usersId.any (fun userId => userId == u.Id) = false := by
        cases hb2 : usersId.any (fun userId => userId == u.Id)
        · rfl
        · exact absurd ((any_beq_iff_mem usersId u.Id).mp hb2) hm
      simp only [this, Bool.false_eq_true, if_false]
      exact ⟨⟨fun h => (by cases h), fun h => absurd h hm⟩, fun _ => trivial,
        ⟨fun h => (by cases h), fun h => absurd h hm⟩, fun _ => trivial⟩
  · intro faults db tenderId username hnone
    obtain ⟨e, he⟩ := GetTenderById_of_none faults hnone
    unfold TenderService.CheckWriteRightByUsername BidService.CheckRWRightsByUsername
    simp only [he, and_self]
  · intro rest db tenderId username t ht hne hu
    have hget := GetTenderById_of_select rest ht
    have hb : (username == "") = false := by simpa using hne
    obtain ⟨e, he⟩ := GetUserByName_of_none (List.drop 1 (false :: rest)) hu
    unfold TenderService.CheckWriteRightByUsername BidService.CheckRWRightsByUsername
    simp only [hget, hb, Bool.false_eq_true, if_false, he, and_self]

/-- C14 at the example state: tender 7 belongs to organization 1, whose responsible
users are 11 (`ann`) and 12; `ann` may write, `cat` (user 13) may not, `zed`
is no user, and tender 99 does not exist. -/
theorem canWrite_decides_membership_witness :
    TenderService.CheckWriteRightByUsername [] exDbNoOrg 7 "ann" = .ok () ∧
    TenderService.CheckWriteRightByUsername [] exDbNoOrg 7 "cat" =
      .error .tenderErrorUserIsNotOrgResponsible ∧
    BidService.CheckRWRightsByUsername [] exDbNoOrg 7 "cat" =
      .error .bidErrorUserIsNotOrgResponsible ∧
    TenderService.CheckWriteRightByUsername [] exDbNoOrg 99 "ann" =
      .error .tenderErrorTenderNorFound ∧
    TenderService.CheckWriteRightByUsername [false] exDbNoOrg 7 "zed" =
      .error .tenderErrorUserNorFound :=
  ⟨(canWrite_decides_membership.1 exDbNoOrg 7 "ann" _ ⟨11, "ann", "Ann", "A"⟩ [11, 12] rfl
      (by decide) rfl rfl).1.mpr (by decide),
   (canWrite_decides_membership.1 exDbNoOrg 7 "cat" _ ⟨13, "cat", "Cat", "C"⟩ [11, 12] rfl
      (by decide) rfl rfl).2.1 (by decide),
   (canWrite_decides_membership.1 exDbNoOrg 7 "cat" _ ⟨13, "cat", "Cat", "C"⟩ [11, 12] rfl
      (by decide) rfl rfl).2.2.2 (by decide),
   (canWrite_decides_membership.2.1 [] exDbNoOrg 99 "ann" rfl).1,
   (canWrite_decides_membership.2.2 [] exDbNoOrg 7 "zed" _ rfl (by decide) rfl).1⟩

/-- C15, refuted as stated: for the existing tender 7 the check with the empty
username returns `ErrorUserIsNotOrgResponsible`, which the handlers answer
with 403, and not the user-not-found error (401) returned for the
unresolvable username `zed`.  The same holds for the check of the bid service. -/
theorem canWrite_empty_username_is_forbidden :
    TenderService.CheckWriteRightByUsername [] exDb 7 "" =
      .error .tenderErrorUserIsNotOrgResponsible ∧
    TenderService.CheckWriteRightByUsername [] exDb 7 "zed" =
      .error .tenderErrorUserNorFound ∧
    tenderRightsStatus .tenderErrorUserIsNotOrgResponsible = 403 ∧
    tenderRightsStatus .tenderErrorUserNorFound = 401 ∧
    BidService.CheckRWRightsByUsername [] exDb 7 "" =
      .error .bidErrorUserIsNotOrgResponsible ∧
    BidService.CheckRWRightsByUsername [] exDb 7 "zed" = .error .bidErrorUserNotFound ∧
    bidRightsStatus .bidErrorUserIsNotOrgResponsible = 403 ∧
    bidRightsStatus .bidErrorUserNotFound = 401 :=
  ⟨rfl, rfl, rfl, rfl, rfl, rfl, rfl, rfl⟩

/-- C15 (amended).  For every existing tender, whatever the later round trips do,
`TenderService.CheckWriteRightByUsername` and
`BidService.CheckRWRightsByUsername` called with the empty username return
`ErrorUserIsNotOrgResponsible` (line 267: the test `username == ""` comes
before the user lookup), the kind the handlers answer with 403; the
user-not-found kind (401) is returned for a non-empty username that does not
resolve. -/
theorem canWrite_empty_username :
    (∀ (rest : List Bool) (db : DB) (tenderId : UUID) (t : TenderRow),
      tender_select db tenderId = some t →
      TenderService.CheckWriteRightByUsername (false :: rest) db tenderId "" =
          .error .tenderErrorUserIsNotOrgResponsible ∧
        BidService.CheckRWRightsByUsername (false :: rest) db tenderId "" =
          .error .bidErrorUserIsNotOrgResponsible) ∧
    (tenderRightsStatus .tenderErrorUserIsNotOrgResponsible = 403 ∧
      bidRightsStatus .bidErrorUserIsNotOrgResponsible = 403) ∧
    (∀ (rest : List Bool) (db : DB) (tenderId : UUID) (username : String) (t : TenderRow),
      tender_select db tenderId = some t → username ≠ "" →
      db.employee.find? (fun x => x.Username == username) = none →
      TenderService.CheckWriteRightByUsername (false :: rest) db tenderId username =
          .error .tenderErrorUserNorFound ∧
        BidService.CheckRWRightsByUsername (false :: rest) db tenderId username =
          .error .bidErrorUserNotFound) ∧
    (tenderRightsStatus .tenderErrorUserNorFound = 401 ∧
      bidRightsStatus .bidErrorUserNotFound = 401) := by
  refine ⟨?_, ⟨rfl, rfl⟩, ?_, ⟨rfl, rfl⟩⟩
  · intro rest db tenderId t ht
    have hget := GetTenderById_of_select rest ht
    unfold TenderService.CheckWriteRightByUsername BidService.CheckRWRightsByUsername
    simp only [hget, beq_self_eq_true, if_true, and_self]
  · intro rest db tenderId username t ht hne hu
    have hget := GetTenderById_of_select rest ht
    have hb : (username == "") = false := by simpa using hne
    obtain ⟨e, he⟩ := GetUserByName_of_none (List.drop 1 (false :: rest)) hu
    unfold TenderService.CheckWriteRightByUsername BidService.CheckRWRightsByUsername
    simp only [hget, hb, Bool.false_eq_true, if_false, he, and_self]

/-- C15 (amended) at the example state, with every round trip after the first failing. -/
theorem canWrite_empty_username_witness :
    TenderService.CheckWriteRightByUsername [false, true, true] exDb 7 "" =
      .error .tenderErrorUserIsNotOrgResponsible ∧
    BidService.CheckRWRightsByUsername [false, true, true] exDb 7 "" =
      .error .bidErrorUserIsNotOrgResponsible :=
  canWrite_empty_username.1 [true, true] exDb 7 _ rfl

/-- C16 (public read).  For every existing tender whose status is `Published`
and every username (empty, unknown or known),
`TenderService.CheckReadRightByUsername` returns nil as soon as the tender is
read: for every content of the tables `employee` and
`organization_responsible`, and also when every round trip after the first
would fail, so neither the user lookup nor the organization lookup is
consulted. -/
theorem published_read_is_public (rest : List Bool) (db : DB) (tenderId : UUID)
    (username : String) (t : TenderRow) (ht : tender_select db tenderId = some t)
    (hp : t.Status = TenderStatusPublished) :
    TenderService.CheckReadRightByUsername (false :: rest) db tenderId username = .ok () := by
  have hget := GetTenderById_of_select rest ht
  unfold TenderService.CheckReadRightByUsername
  have hs : (t.toTender.Status == TenderStatusPublished) = true := by
    rw [hp]; exact beq_self_eq_true _
  simp only [hget, hs, if_true]

/-- C16 at the example state: tender 7 is `Published`; the empty username and an
unknown one may read it, also on a connection on which every lookup fails. -/
theorem published_read_is_public_witness :
    TenderService.CheckReadRightByUsername [false, true, true] exDb 7 "" = .ok () ∧
    TenderService.CheckReadRightByUsername [] exDb 7 "zed" = .ok () :=
  ⟨published_read_is_public [true, true] exDb 7 "" _ rfl rfl,
   published_read_is_public [] exDb 7 "zed" _ rfl rfl⟩

/-- C17 (read equals write when unpublished).  For every database, every
connection, every username and every tender id whose tender is absent or has
a status other than `Published`, `TenderService.CheckReadRightByUsername`
returns exactly what `TenderService.CheckWriteRightByUsername` returns. -/
theorem read_equals_write_unpublished (faults : List Bool) (db : DB) (tenderId : UUID)
    (username : String)
    (h : ∀ t, tender_select db tenderId = some t → t.Status ≠ TenderStatusPublished) :
    TenderService.CheckReadRightByUsername faults db tenderId username =
      TenderService.CheckWriteRightByUsername faults db tenderId username := by
  unfold TenderService.CheckReadRightByUsername TenderService.CheckWriteRightByUsername
  cases hget : TenderRepo.GetTenderById faults db tenderId with
  | error e => rfl
  | ok t =>
    obtain ⟨row, hrow, rfl⟩ := GetTenderById_val hget
    have hs : (row.toTender.Status == TenderStatusPublished) = false := by
      have := h row hrow
      simpa using this
    simp only [hs, Bool.false_eq_true, if_false]

/-- C17 at the example states: tender 7 is `Created` in `exDbT`, and tender 99 is
absent; read and write checks agree for a responsible user, for the empty
username and for the absent tender. -/
theorem read_equals_write_unpublished_witness :
    (TenderService.CheckReadRightByUsername [] exDbT 7 "ann" =
        TenderService.CheckWriteRightByUsername [] exDbT 7 "ann" ∧
      TenderService.CheckReadRightByUsername [] exDbT 7 "ann" = .ok ()) ∧
    (TenderService.CheckReadRightByUsername [] exDbT 7 "" =
        TenderService.CheckWriteRightByUsername [] exDbT 7 "" ∧
      TenderService.CheckReadRightByUsername [] exDbT 7 "" =
        .error .tenderErrorUserIsNotOrgResponsible) ∧
    TenderService.CheckReadRightByUsername [] exDbT 99 "ann" =
      TenderService.CheckWriteRightByUsername [] exDbT 99 "ann" :=
  have h7 : ∀ t, tender_select exDbT 7 = some t → t.Status ≠ TenderStatusPublished :=
    fun t ht hp => by
      have h1 : (tender_select exDbT 7).map (fun r => r.Status) = some "Created" := rfl
      rw [ht] at h1
      simp only [Option.map_some', Option.some.injEq] at h1
      rw [hp] at h1
      exact absurd h1 (by decide)
  ⟨⟨read_equals_write_unpublished [] exDbT 7 "ann" h7, rfl⟩,
   ⟨read_equals_write_unpublished [] exDbT 7 "" h7, rfl⟩,
   read_equals_write_unpublished [] exDbT 99 "ann" (fun t ht => by cases ht)⟩

/-! ## Tender creation -/

theorem GetUserByName_val {faults : List Bool} {db : DB} {name : String} {u : User}
    (h : UserRepo.GetUserByName faults db name = .ok u) :
    db.employee.find? (fun x => x.Username == name) = some u := by
  unfold UserRepo.GetUserByName at h
  split at h
  · cases h
  · split at h
    · cases h
    · rename_i r hr
      cases h
      exact hr

/-- `TenderRepo.CreateTender` on any connection: an error leaves the database as it
is; without error the row returned was appended, with version 1 and status
`Created`, and its id was not in the table. -/
theorem CreateTender_cases (faults : List Bool) (db : DB) (u : UUID) (t : Time)
    (n d s : String) (o usr : UUID) :
    (∃ e, TenderRepo.CreateTender faults db u t n d s o usr = (.error e, db)) ∨
    (tender_select db u = none ∧
      TenderRepo.CreateTender faults db u t n d s o usr =
        (.ok { Id := u, Name := n, Description := d, ServiceType := s, Status := "Created",
               OrganizationId := o, Version := 1, CreatedAt := t },
         { db with tender := db.tender ++
            [{ Id := u, Name := n, Description := d, ServiceType := s, Status := "Created",
               OrganizationId := o, Version := 1, CreatedAt := t, user_id := usr }] })) := by
  unfold TenderRepo.CreateTender
  split
  · exact Or.inl ⟨_, rfl⟩
  · split
    · exact Or.inl ⟨_, rfl⟩
    · rename_i db1 hins
      unfold tender_insert at hins
      split at hins
      · cases hins
      · split at hins
        · cases hins
        · rename_i hpk
          split at hins
          · cases hins
          · split at hins
            · cases hins
            · split at hins
              · cases hins
              · cases hins
                exact Or.inr ⟨find?_none_of_any_false _ _ ((Bool.not_eq_true _).mp hpk), rfl⟩

/-- C18 (tender creation is gated on the target organization).
`TenderService.CreateTender`: (1) for a creator username that resolves to no
user it returns the user-not-found error and the database is as before, on any
connection; (2) for a user none of whose organizations is the requested one
(the user may represent none) it returns `ErrorUserIsNotOrgResponsible` and
the database is as before, whatever the later round trips do; (3) whenever it
returns a tender, the username resolves to a user, the requested organization
is among the organizations returned for that user, the tender has version 1
and status `Created`, and the database is the old one with exactly that row
appended to `tender`; (4) whenever it returns an error, nothing was inserted. -/
theorem create_tender_gated :
    (∀ (faults : List Bool) (db : DB) (u : UUID) (t : Time) (n d s : String) (o : UUID)
      (name : String),
      db.employee.find? (fun x => x.Username == name) = none →
      TenderService.CreateTender faults db u t n d s o name =
        (.error .tenderErrorUserNorFound, db)) ∧
    (∀ (rest : List Bool) (db : DB) (u : UUID) (t : Time) (n d s : String) (o : UUID)
      (name : String) (user : User) (orgs : List Organization),
      db.employee.find? (fun x => x.Username == name) = some user →
      OrganizationRepo.GetOrganizationsByUserId [] db user.Id = .ok orgs →
      (∀ org ∈ orgs, org.Id ≠ o) →
      TenderService.CreateTender (false :: rest) db u t n d s o name =
        (.error .tenderErrorUserIsNotOrgResponsible, db)) ∧
    (∀ (faults : List Bool) (db db1 : DB) (u : UUID) (t : Time) (n d s : String) (o : UUID)
      (name : String) (ret : Tender),
      TenderService.CreateTender faults db u t n d s o name = (.ok ret, db1) →
      ∃ (user : User) (orgs : List Organization),
        db.employee.find? (fun x => x.Username == name) = some user ∧
        OrganizationRepo.GetOrganizationsByUserId [] db user.Id = .ok orgs ∧
        (∃ org ∈ orgs, org.Id = o) ∧
        ret.Version = 1 ∧ ret.Status = TenderStatusCreated ∧
        ret = { Id := u, Name := n, Description := d, ServiceType := s, Status := "Created",
                OrganizationId := o, Version := 1, CreatedAt := t } ∧
        db1 = { db with tender := db.tender ++
          [{ toTender := ret, user_id := user.Id }] } ∧
        tender_select db u = none ∧
        tender_select db1 u = some { toTender := ret, user_id := user.Id }) ∧
    (∀ (faults : List Bool) (db db1 : DB) (u : UUID) (t : Time) (n d s : String) (o : UUID)
      (name : String) (e : Err),
      TenderService.CreateTender faults db u t n d s o name = (.error e, db1) → db1 = db) := by
  refine ⟨?_, ?_, ?_, ?_⟩
  · intro faults db u t n d s o name hnone
    obtain ⟨e, he⟩ := GetUserByName_of_none faults hnone
    unfold TenderService.CreateTender
    simp only [he]
  · intro rest db u t n d s o name user orgs huser horgs hno
    have hu := GetUserByName_of_find rest huser
    unfold TenderService.CreateTender
    simp only [hu, List.drop_succ_cons, List.drop_zero]
    cases hg : OrganizationRepo.GetOrganizationsByUserId rest db user.Id with
    | error e => rfl
    | ok orgs1 =>
      have := GetOrganizationsByUserId_val hg
      rw [horgs] at this
      cases this
      simp only
      split
      · rfl
      · have hany : orgs.any (fun org => o == org.Id) = false := by
          cases hb : orgs.any (fun org => o == org.Id)
          · rfl
          · obtain ⟨org, hmem, heq⟩ := List.any_eq_true.mp hb
            have : o = org.Id := by simpa using heq
            exact absurd this.symm (hno org hmem)
        simp only [hany, Bool.not_false, if_true]
  · intro faults db db1 u t n d s o name ret hrun
    unfold TenderService.CreateTender at hrun
    split at hrun
    · cases hrun
    · rename_i user huser
      have hfind := GetUserByName_val huser
      split at hrun
      · cases hrun
      · rename_i orgs horgs
        have horgs0 := GetOrganizationsByUserId_val horgs
        split at hrun
        · cases hrun
        · simp only at hrun
          split at hrun
          · cases hrun
          · rename_i hresp
            have hmem : ∃ org ∈ orgs, org.Id = o := by
              simp only [Bool.not_eq_true, Bool.not_eq_false_eq_eq_true] at hresp
              obtain ⟨org, hm, heq⟩ := List.any_eq_true.mp hresp
              have hoe : o = org.Id := by simpa using heq
              exact ⟨org, hm, hoe.symm⟩
            rcases CreateTender_cases (List.drop 2 faults) db u t n d s o user.Id with
              ⟨e, he⟩ | ⟨hfresh, he⟩
            · rw [he] at hrun
              cases hrun
            · rw [he] at hrun
              simp only [Prod.mk.injEq, Except.ok.injEq] at hrun
              obtain ⟨hret, hdb⟩ := hrun
              subst hret
              refine ⟨user, orgs, hfind, horgs0, hmem, rfl, rfl, rfl, hdb.symm, hfresh, ?_⟩
              rw [← hdb]
              unfold tender_select at hfresh ⊢
              simp only [List.find?_append, hfresh, List.find?_cons, beq_self_eq_true,
                Option.none_or]
  · intro faults db db1 u t n d s o name e hrun
    unfold TenderService.CreateTender at hrun
    split at hrun
    · cases hrun; rfl
    · split at hrun
      · cases hrun; rfl
      · split at hrun
        · cases hrun; rfl
        · simp only at hrun
          split at hrun
          · cases hrun; rfl
          · rename_i user _ _ orgs _ _ _
            rcases CreateTender_cases (List.drop 2 faults) db u t n d s o user.Id with
              ⟨e2, he⟩ | ⟨_, he⟩
            · rw [he] at hrun
              cases hrun; rfl
            · rw [he] at hrun
              cases hrun

/-- C18 at the example state without tenders: `ann` (user 11) represents
organization 1 only.  Her tender for organization 1 is created with version 1
and status `Created`; her tender for organization 2 is refused and so is the
tender of the unknown `zed`, and nothing is inserted. -/
theorem create_tender_gated_witness :
    (∃ ret db1,
      TenderService.CreateTender [] exDb0 7 100 "road" "old text" "Construction" 1 "ann" =
        (.ok ret, db1) ∧ ret.Version = 1 ∧ ret.Status = "Created" ∧
      (tender_select db1 7).map (fun r => r.toTender) = some ret) ∧
    TenderService.CreateTender [] exDb0 7 100 "road" "old text" "Construction" 1 "zed" =
      (.error .tenderErrorUserNorFound, exDb0) ∧
    TenderService.CreateTender [false] exDb0 7 100 "road" "old text" "Construction" 2 "ann" =
      (.error .tenderErrorUserIsNotOrgResponsible, exDb0) := by
  refine ⟨⟨_, _, rfl, ?_⟩, create_tender_gated.1 [] exDb0 7 100 _ _ _ 1 "zed" rfl,
    create_tender_gated.2.1 [] exDb0 7 100 _ _ _ 2 "ann" ⟨11, "ann", "Ann", "A"⟩
      [⟨1, "org one", "", "LLC"⟩] rfl rfl (by decide)⟩
  obtain ⟨user, orgs, _, _, _, hv, hs, _, _, _, hsel⟩ :=
    create_tender_gated.2.2.1 [] exDb0 _ 7 100 "road" "old text" "Construction" 1 "ann" _ rfl
  exact ⟨hv, hs, by rw [hsel]; rfl⟩

/-! ## Partial edit -/

/-- After a versioned write the stored row of the tender carries the attributes
and the version of the tender returned. -/
theorem tenderWrite_stored {db db1 : DB} {id : UUID} {ret : Tender}
    (hw : TenderWrite db db1 id ret) :
    ∃ live live1, tender_select db id = some live ∧ tender_select db1 id = some live1 ∧
      live1.Name = ret.Name ∧ live1.Description = ret.Description ∧
      live1.ServiceType = ret.ServiceType ∧ live1.Status = ret.Status ∧
      live1.OrganizationId = ret.OrganizationId ∧ live1.Version = ret.Version ∧
      live1.CreatedAt = live.CreatedAt ∧ live1.user_id = live.user_id := by
  obtain ⟨live, f, hsel, _, hf, hfl, _, _, hdb⟩ := hw
  refine ⟨live, f live, hsel, ?_, hfl.1, hfl.2.1, hfl.2.2.1, hfl.2.2.2.1, hfl.2.2.2.2.1,
    hfl.2.2.2.2.2, (hf live).2.1, (hf live).2.2⟩
  rw [hdb]
  unfold tender_select at hsel ⊢
  have := find?_map_upd (fun x : TenderRow => x.Id) f (fun x => (hf x).1) id db.tender
  rw [hsel] at this
  exact this

/-- After a versioned write the stored row of the bid is the bid returned, with
the counters and `created_at` of the old row. -/
theorem bidWrite_stored {db db1 : DB} {id : UUID} {ret : Bid}
    (hw : BidWrite db db1 id ret) :
    ∃ live live1, bid_select db id = some live ∧ bid_select db1 id = some live1 ∧
      live1.toBid = ret ∧ live1.rejects = live.rejects ∧ live1.approves = live.approves ∧
      live1.CreatedAt = live.CreatedAt := by
  obtain ⟨live, f, hsel, _, hf, hfl, _, _, hdb⟩ := hw
  refine ⟨live, f live, hsel, ?_, hfl, (hf live).2.2.1, (hf live).2.2.2, (hf live).2.1⟩
  rw [hdb]
  unfold bid_select at hsel ⊢
  have := find?_map_upd (fun x : BidRow => x.Id) f (fun x => (hf x).1) id db.bid
  rw [hsel] at this
  exact this

theorem ite_bne_empty (a b : String) :
    (if (a != "") = true then a else b) = (if a = "" then b else a) := by
  by_cases h : a = ""
  · subst h
    rfl
  · have hb : (a != "") = true := by simpa using h
    simp only [hb, if_true, h, if_false]

theorem ite_beq_empty (a b : String) :
    (if (a == "") = true then b else a) = (if a = "" then b else a) := by
  by_cases h : a = ""
  · subst h
    rfl
  · have hb : (a == "") = false := by simpa using h
    simp only [hb, Bool.false_eq_true, if_false, h]

/-- What `TenderService.UpdateTender` returns and stores, when it returns a tender. -/
theorem UpdateTender_fields {db db1 : DB} {id : UUID} {name description serviceType : String}
    {ret : Tender} {live : TenderRow} (hlive : tender_select db id = some live)
    (h1 : 1 ≤ live.Version) (h2 : live.Version < 2147483647)
    (hrun : TenderService.UpdateTender [] db id name description serviceType = (.ok ret, db1)) :
    ret = { live.toTender with
        Name := if name = "" then live.Name else name,
        Description := if description = "" then live.Description else description,
        ServiceType := if serviceType = "" then live.ServiceType else serviceType,
        Version := live.Version + 1 } ∧
      ∃ live1, tender_select db1 id = some live1 ∧ live1.toTender = ret ∧
        live1.user_id = live.user_id := by
  obtain ⟨hw, live0, hl0, hret⟩ := TenderService_UpdateTender_ok hrun
  rw [hlive] at hl0
  cases hl0
  rw [wrap32_succ h1 h2, ite_bne_empty, ite_bne_empty, ite_bne_empty] at hret
  refine ⟨hret, ?_⟩
  obtain ⟨live2, live1, hl2, hsel1, hn, hd, hs, hst, ho, hv, hc, hu⟩ := tenderWrite_stored hw
  rw [hlive] at hl2
  cases hl2
  refine ⟨live1, hsel1, ?_, hu⟩
  have hid1 : live1.Id = id := tender_select_id hsel1
  have hid : live.Id = id := tender_select_id hlive
  have hc2 : live1.CreatedAt = ret.CreatedAt := by rw [hc, hret]
  have hi2 : live1.Id = ret.Id := by rw [hid1, hret]; exact hid.symm
  cases hl1 : live1.toTender
  cases hr : ret
  rw [hl1] at hn hd hs hst ho hv hc2 hi2
  rw [hr] at hn hd hs hst ho hv hc2 hi2
  simp only at hn hd hs hst ho hv hc2 hi2
  subst hn hd hs hst ho hv hc2 hi2
  rfl

theorem tender_update_of {db : DB} {name description service_type status : String}
    {organization_id : UUID} {version : Int} {id : UUID}
    (hst : tender_service_type.contains service_type = true)
    (hstatus : tender_status.contains status = true)
    (hn : name.length ≤ 100) (hd : description.length ≤ 500)
    (huniq : ∀ r ∈ db.tender, r.Id ≠ id → r.Name ≠ name)
    (hfk : db.organization.any (fun o => o.Id == organization_id) = true) :
    ∃ db1, tender_update db name description service_type status organization_id version id
      = .ok db1 := by
  unfold tender_update
  have h1 : (!(tender_service_type.contains service_type &&
      tender_status.contains status)) = false := by
    rw [hst, hstatus]; rfl
  have h3 : (!(decide (name.length ≤ 100) && decide (description.length ≤ 500))) = false := by
    simp only [hn, hd, decide_True, Bool.and_self, Bool.not_true]
  have h4 : (!(db.tender.all (fun r => r.Id == id || r.Name != name))) = false := by
    rw [Bool.not_eq_false', List.all_eq_true]
    intro r hr
    by_cases hid : r.Id = id
    · simp [hid]
    · simp [hid, huniq r hr hid]
  have h5 : (!(db.tender.all (fun r => r.Id != id || r.OrganizationId == organization_id ||
      db.organization.any (fun o => o.Id == organization_id)))) = false := by
    rw [Bool.not_eq_false', List.all_eq_true]
    intro r _
    rw [hfk, Bool.or_true]
  simp only [h1, h3, h4, h5, Bool.false_eq_true, if_false]
  split <;> exact ⟨_, rfl⟩

theorem bid_update_edit_of {db : DB} {name description : String} {version : Int} {id : UUID}
    (hn : name.length ≤ 100) (hd : description.length ≤ 500)
    (huniq : ∀ r ∈ db.bid, r.Id ≠ id → r.Name ≠ name) :
    ∃ db1, bid_update_edit db name description version id = .ok db1 := by
  unfold bid_update_edit
  have h3 : (!(decide (name.length ≤ 100) && decide (description.length ≤ 500))) = false := by
    simp only [hn, hd, decide_True, Bool.and_self, Bool.not_true]
  have h4 : (!(db.bid.all (fun r => r.Id == id || r.Name != name))) = false := by
    rw [Bool.not_eq_false', List.all_eq_true]
    intro r hr
    by_cases hid : r.Id = id
    · simp [hid]
    · simp [hid, huniq r hr hid]
  simp only [h3, h4, Bool.false_eq_true, if_false]
  split <;> exact ⟨_, rfl⟩

/-- `TenderRepo.UpdateTender` returns a tender when the live row satisfies the
column constraints, its version is not yet archived and the new values pass
the constraints of the table. -/
theorem TenderRepo_UpdateTender_succeeds {db : DB} {t : Tender} {live : TenderRow}
    (hlive : tender_select db t.Id = some live)
    (hcols : tender_columns_ok live.Name live.Description live.ServiceType live.Status = true)
    (hfresh : tender_history_select db t.Id live.Version = none)
    (hst : tender_service_type.contains t.ServiceType = true)
    (hstatus : tender_status.contains t.Status = true)
    (hn : t.Name.length ≤ 100) (hd : t.Description.length ≤ 500)
    (huniq : ∀ r ∈ db.tender, r.Id ≠ t.Id → r.Name ≠ t.Name)
    (hfk : db.organization.any (fun o => o.Id == t.OrganizationId) = true) :
    ∃ ret db1, TenderRepo.UpdateTender [] db t = (.ok ret, db1) := by
  have hid := tender_select_id hlive
  have hins := @tender_history_insert_of db live.toTender hcols (by rw [hid]; exact hfresh)
  obtain ⟨db2, hupd⟩ := @tender_update_of
    { db with tender_history := db.tender_history ++ [live.toTender] }
    t.Name t.Description t.ServiceType t.Status t.OrganizationId (wrap32 (t.Version + 1)) t.Id
    hst hstatus hn hd huniq hfk
  unfold TenderRepo.UpdateTender
  simp only [fault_nil, List.drop_nil, Bool.false_eq_true, if_false, hlive, hins, hupd]
  exact ⟨_, _, rfl⟩

/-- `BidRepo.EditBidById` returns a bid when the live row satisfies the column
constraints, its version is not yet archived and the new values pass the
constraints of the table. -/
theorem BidRepo_EditBidById_succeeds {db : DB} {id : UUID} {name description : String}
    {live : BidRow} (hlive : bid_select db id = some live)
    (hcols : bid_columns_ok live.Name live.Description live.Status live.AuthorType = true)
    (hfresh : bid_history_select db id live.Version = none)
    (hn : name.length ≤ 100) (hd : description.length ≤ 500)
    (huniq : ∀ r ∈ db.bid, r.Id ≠ id → r.Name ≠ name) :
    ∃ ret db1, BidRepo.EditBidById [] db id name description = (.ok ret, db1) := by
  have hid := bid_select_id hlive
  have hins := @bid_history_insert_of db live.toBid hcols (by rw [hid]; exact hfresh)
  obtain ⟨db2, hupd⟩ := @bid_update_edit_of
    { db with bid_history := db.bid_history ++ [live.toBid] }
    name description (wrap32 (live.Version + 1)) id hn hd huniq
  unfold BidRepo.EditBidById
  simp only [fault_nil, List.drop_nil, Bool.false_eq_true, if_false, hlive, hins, hupd]
  exact ⟨_, _, rfl⟩

theorem tender_columns_ok_iff {name description service_type status : String} :
    tender_columns_ok name description service_type status = true ↔
      name.length ≤ 100 ∧ description.length ≤ 500 ∧
        tender_service_type.contains service_type = true ∧
        tender_status.contains status = true := by
  unfold tender_columns_ok
  simp only [Bool.and_eq_true, decide_eq_true_eq, and_assoc]

theorem bid_columns_ok_iff {name description status author_type : String} :
    bid_columns_ok name description status author_type = true ↔
      name.length ≤ 100 ∧ description.length ≤ 500 ∧
        bid_status.contains status = true ∧ bid_author_type.contains author_type = true := by
  unfold bid_columns_ok
  simp only [Bool.and_eq_true, decide_eq_true_eq, and_assoc]

/-- `TenderService.UpdateTender` returns a tender when the live row satisfies the
column constraints, its version is not yet archived, its organization is in
the table `organization`, the service type is empty or allowed, the new
strings fit their columns and no other tender has the resulting name. -/
theorem TenderService_UpdateTender_succeeds {db : DB} {id : UUID}
    {name description serviceType : String} {live : TenderRow}
    (hlive : tender_select db id = some live)
    (hcols : tender_columns_ok live.Name live.Description live.ServiceType live.Status = true)
    (hfresh : tender_history_select db id live.Version = none)
    (hty : serviceType = "" ∨ serviceType = TenderServiceTypeConstruction ∨
      serviceType = TenderServiceTypeDelivery ∨ serviceType = TenderServiceTypeManufacture)
    (hn : name.length ≤ 100) (hd : description.length ≤ 500)
    (huniq : ∀ r ∈ db.tender, r.Id ≠ id → r.Name ≠ (if name = "" then live.Name else name))
    (hfk : db.organization.any (fun o => o.Id == live.OrganizationId) = true) :
    ∃ ret db1,
      TenderService.UpdateTender [] db id name description serviceType = (.ok ret, db1) := by
  obtain ⟨hln, hld, hlst, hlstatus⟩ := tender_columns_ok_iff.mp hcols
  have hid := tender_select_id hlive
  have hget : TenderRepo.GetTenderById [] db id = .ok live.toTender := by
    unfold TenderRepo.GetTenderById
    simp only [fault_nil, Bool.false_eq_true, if_false, hlive]
  have hvalid : (serviceType != "" && (serviceType != TenderServiceTypeConstruction &&
      serviceType != TenderServiceTypeDelivery &&
      serviceType != TenderServiceTypeManufacture)) = false := by
    rcases hty with h | h | h | h <;> subst h <;> decide
  have hnewst : tender_service_type.contains
      (if serviceType = "" then live.ServiceType else serviceType) = true := by
    rcases hty with h | h | h | h
    · simp only [h, if_true, hlst]
    · subst h
      have hne : ¬ (TenderServiceTypeConstruction = "") := by decide
      rw [if_neg hne]; decide
    · subst h
      have hne : ¬ (TenderServiceTypeDelivery = "") := by decide
      rw [if_neg hne]; decide
    · subst h
      have hne : ¬ (TenderServiceTypeManufacture = "") := by decide
      rw [if_neg hne]; decide
  have key : ∀ T : Tender, T.Id = id →
      T.Name = (if name = "" then live.Name else name) →
      T.Description = (if description = "" then live.Description else description) →
      T.ServiceType = (if serviceType = "" then live.ServiceType else serviceType) →
      T.Status = live.Status → T.OrganizationId = live.OrganizationId →
      ∃ ret db1, TenderRepo.UpdateTender [] db T = (.ok ret, db1) := by
    intro T hTid hTn hTd hTs hTstatus hTo
    apply @TenderRepo_UpdateTender_succeeds db T live
    · rw [hTid]; exact hlive
    · exact hcols
    · rw [hTid]; exact hfresh
    · rw [hTs]; exact hnewst
    · rw [hTstatus]; exact hlstatus
    · rw [hTn]; split
      · exact hln
      · exact hn
    · rw [hTd]; split
      · exact hld
      · exact hd
    · rw [hTid, hTn]; exact huniq
    · rw [hTo]; exact hfk
  unfold TenderService.UpdateTender
  simp only [hget, hvalid, Bool.false_eq_true, if_false, List.drop_nil]
  have hT := key
    (if (serviceType != "") = true then
      { (if (description != "") = true then
          { (if (name != "") = true then { live.toTender with Name := name }
              else live.toTender) with Description := description }
          else (if (name != "") = true then { live.toTender with Name := name }
              else live.toTender)) with ServiceType := serviceType }
      else (if (description != "") = true then
          { (if (name != "") = true then { live.toTender with Name := name }
              else live.toTender) with Description := description }
          else (if (name != "") = true then { live.toTender with Name := name }
              else live.toTender)))
    (by split <;> split <;> split <;> exact hid)
    (by split <;> split <;> split <;> simp_all)
    (by split <;> split <;> split <;> simp_all)
    (by split <;> split <;> split <;> simp_all)
    (by split <;> split <;> split <;> rfl)
    (by split <;> split <;> split <;> rfl)
  obtain ⟨ret, db1, hrun⟩ := hT
  refine ⟨ret, db1, ?_⟩
  rw [hrun]

/-- `BidService.EditBidById` returns a bid when the live row satisfies the
column constraints, its version is not yet archived, the new strings fit their
columns and no other bid has the resulting name. -/
theorem BidService_EditBidById_succeeds {db : DB} {id : UUID} {name description : String}
    {live : BidRow} (hlive : bid_select db id = some live)
    (hcols : bid_columns_ok live.Name live.Description live.Status live.AuthorType = true)
    (hfresh : bid_history_select db id live.Version = none)
    (hn : name.length ≤ 100) (hd : description.length ≤ 500)
    (huniq : ∀ r ∈ db.bid, r.Id ≠ id → r.Name ≠ (if name = "" then live.Name else name)) :
    ∃ ret db1, BidService.EditBidById [] db id name description = (.ok ret, db1) := by
  obtain ⟨hln, hld, _, _⟩ := bid_columns_ok_iff.mp hcols
  have hget : BidRepo.GetBidById [] db id = .ok live.toBid := by
    unfold BidRepo.GetBidById
    simp only [fault_nil, Bool.false_eq_true, if_false, hlive]
  have hrun := @BidRepo_EditBidById_succeeds db id
    (if (name == "") = true then live.toBid.Name else name)
    (if (description == "") = true then live.toBid.Description else description) live hlive
    hcols hfresh
    (by split
        · exact hln
        · exact hn)
    (by split
        · exact hld
        · exact hd)
    (by rw [ite_beq_empty]; exact huniq)
  obtain ⟨ret, db1, hrun⟩ := hrun
  refine ⟨ret, db1, ?_⟩
  unfold BidService.EditBidById
  simp only [hget, List.drop_nil]
  rw [hrun]

/-- An edit that would give tender 7 the name of tender 8, or bid 9 the name of
bid 10, is refused by the `UNIQUE` constraint on `name`: the service returns its
update error and the database is unchanged. -/
theorem edit_to_taken_name_fails :
    TenderService.UpdateTender [] exDbT 7 "bridge" "" "" =
      (.error (.new "can not update tender"), exDbT) ∧
    BidService.EditBidById [] exDbQ 9 "offer of org two" "" =
      (.error (.new "can not edit bid"), exDbQ) :=
  ⟨rfl, rfl⟩

/-- C19 (partial edit).  On a healthy connection, for a tender whose live row
`live` satisfies the column constraints of the table, whose version (between 1
and 2147483646, Go `int32`) is not yet archived and whose organization exists,
and for arguments with `serviceType` empty or one of the three allowed values,
`name` of at most 100 and `description` of at most 500 characters, such that no
other tender carries the resulting name, `TenderService.UpdateTender` returns a
tender in which each of the three fields is the argument when the argument is
non-empty and the previous value when it is empty, status, organization, id and
creation time are those of `live`, and the version is the previous version plus
one; the live row afterwards carries the returned values.  The same holds for
`BidService.EditBidById` with `name` and `description`. -/
theorem partial_edit :
    (∀ (db : DB) (id : UUID) (name description serviceType : String) (live : TenderRow),
      tender_select db id = some live →
      1 ≤ live.Version → live.Version < 2147483647 →
      tender_columns_ok live.Name live.Description live.ServiceType live.Status = true →
      tender_history_select db id live.Version = none →
      db.organization.any (fun o => o.Id == live.OrganizationId) = true →
      (serviceType = "" ∨ serviceType = TenderServiceTypeConstruction ∨
        serviceType = TenderServiceTypeDelivery ∨
        serviceType = TenderServiceTypeManufacture) →
      name.length ≤ 100 → description.length ≤ 500 →
      (∀ r ∈ db.tender, r.Id ≠ id → r.Name ≠ (if name = "" then live.Name else name)) →
      ∃ ret db1,
        TenderService.UpdateTender [] db id name description serviceType = (.ok ret, db1) ∧
        ret = { live.toTender with
          Name := if name = "" then live.Name else name,
          Description := if description = "" then live.Description else description,
          ServiceType := if serviceType = "" then live.ServiceType else serviceType,
          Version := live.Version + 1 } ∧
        ∃ live1, tender_select db1 id = some live1 ∧ live1.toTender = ret) ∧
    (∀ (db : DB) (id : UUID) (name description : String) (live : BidRow),
      bid_select db id = some live →
      1 ≤ live.Version → live.Version < 2147483647 →
      bid_columns_ok live.Name live.Description live.Status live.AuthorType = true →
      bid_history_select db id live.Version = none →
      name.length ≤ 100 → description.length ≤ 500 →
      (∀ r ∈ db.bid, r.Id ≠ id → r.Name ≠ (if name = "" then live.Name else name)) →
      ∃ ret db1,
        BidService.EditBidById [] db id name description = (.ok ret, db1) ∧
        ret = { live.toBid with
          Name := if name = "" then live.Name else name,
          Description := if description = "" then live.Description else description,
          Version := live.Version + 1 } ∧
        ∃ live1, bid_select db1 id = some live1 ∧ live1.toBid = ret) := by
  constructor
  · intro db id name description serviceType live hlive h1 h2 hcols hfresh hfk hty hn hd huniq
    obtain ⟨ret, db1, hrun⟩ :=
      TenderService_UpdateTender_succeeds hlive hcols hfresh hty hn hd huniq hfk
    obtain ⟨hret, live1, hsel1, hl1, _⟩ := UpdateTender_fields hlive h1 h2 hrun
    exact ⟨ret, db1, hrun, hret, live1, hsel1, hl1⟩
  · intro db id name description live hlive h1 h2 hcols hfresh hn hd huniq
    obtain ⟨ret, db1, hrun⟩ :=
      BidService_EditBidById_succeeds hlive hcols hfresh hn hd huniq
    obtain ⟨live0, hl0, hrepo⟩ := BidService_EditBidById_ok hrun
    rw [hlive] at hl0
    cases hl0
    obtain ⟨hw, live2, hl2, hret⟩ := EditBidById_ok hrepo
    rw [hlive] at hl2
    cases hl2
    rw [wrap32_succ h1 h2, ite_beq_empty, ite_beq_empty] at hret
    obtain ⟨live3, live1, hl3, hsel1, hl1, _⟩ := bidWrite_stored hw
    exact ⟨ret, db1, hrun, hret, live1, hsel1, hl1⟩

/-- C19 at the example state: tender 7 ("road", version 2) gets a new description
only, bid 9 ("offer", version 2) gets a new description only. -/
theorem partial_edit_witness :
    (∃ ret db1, TenderService.UpdateTender [] exDb 7 "" "newer text" "" = (.ok ret, db1) ∧
      ret.Name = "road" ∧ ret.Description = "newer text" ∧ ret.ServiceType = "Construction" ∧
      ret.Status = "Published" ∧ ret.OrganizationId = 1 ∧ ret.Version = 3) ∧
    (∃ ret db1, BidService.EditBidById [] exDb 9 "" "third" = (.ok ret, db1) ∧
      ret.Name = "offer" ∧ ret.Description = "third" ∧ ret.Version = 3) := by
  constructor
  · obtain ⟨ret, db1, hrun, hret, _⟩ := partial_edit.1 exDb 7 "" "newer text" ""
      { Id := 7, Name := "road", Description := "new text", ServiceType := "Construction",
        Status := "Published", OrganizationId := 1, Version := 2, CreatedAt := 100,
        user_id := 11 }
      rfl (by decide) (by decide) (by decide) rfl (by decide) (Or.inl rfl) (by decide)
      (by decide) (by decide)
    refine ⟨ret, db1, hrun, ?_⟩
    rw [hret]
    exact ⟨rfl, rfl, rfl, rfl, rfl, rfl⟩
  · obtain ⟨ret, db1, hrun, hret, _⟩ := partial_edit.2 exDb 9 "" "third"
      { Id := 9, Name := "offer", Description := "second", Status := "Published",
        TenderId := 7, AuthorType := "User", AuthorId := 11, Version := 2,
        CreatedAt := 200, rejects := 0, approves := 0 }
      rfl (by decide) (by decide) (by decide) rfl (by decide) (by decide) (by decide)
    refine ⟨ret, db1, hrun, ?_⟩
    rw [hret]
    exact ⟨rfl, rfl, rfl⟩

/-! ## Decision counters and version history -/

theorem bidWrite_counters {db db1 : DB} {id : UUID} {ret : Bid}
    (hw : BidWrite db db1 id ret) : decisionCounters db1 = decisionCounters db := by
  obtain ⟨live, f, _, _, hf, _, _, _, hdb⟩ := hw
  rw [hdb]
  unfold decisionCounters
  simp only [List.map_map]
  apply List.map_congr_left
  intro r _
  simp only [Function.comp]
  split
  · rw [(hf r).1, (hf r).2.2.1, (hf r).2.2.2]
  · rfl

theorem setApproves_frame (db : DB) (id : UUID) (a : Int) :
    bidAttributes (setApproves db id a) = bidAttributes db ∧
    (setApproves db id a).bid_history = db.bid_history := by
  refine ⟨?_, rfl⟩
  unfold bidAttributes setApproves
  simp only [List.map_map]
  apply List.map_congr_left
  intro r _
  simp only [Function.comp]
  split <;> rfl

theorem setRejects_frame (db : DB) (id : UUID) (a : Int) :
    bidAttributes (setRejects db id a) = bidAttributes db ∧
    (setRejects db id a).bid_history = db.bid_history := by
  refine ⟨?_, rfl⟩
  unfold bidAttributes setRejects
  simp only [List.map_map]
  apply List.map_congr_left
  intro r _
  simp only [Function.comp]
  split <;> rfl

theorem tender_close_frame (db : DB) (id : UUID) :
    bidAttributes (tender_close db id) = bidAttributes db ∧
    (tender_close db id).bid_history = db.bid_history :=
  ⟨rfl, rfl⟩

/-- C20 (decision counters and version history are independent).  On a healthy
connection every successful `BidService.EditBidById`,
`BidService.UpdateBidStatusById` and `BidService.RollbackById` leaves the
`approves` and `rejects` counters of every bid as they were (a rollback writes
the attributes of the history record and keeps the counters the bid has now);
and every call of `BidService.SubmitDecisionById`, on any connection, with any
decision and whatever it returns, leaves the attributes and the version of
every bid and the table `bid_history` as they were. -/
theorem counters_independent_of_history :
    (∀ (db db1 : DB) (id : UUID) (name description : String) (ret : Bid),
      BidService.EditBidById [] db id name description = (.ok ret, db1) →
      decisionCounters db1 = decisionCounters db) ∧
    (∀ (db db1 : DB) (id : UUID) (status : String) (ret : Bid),
      BidService.UpdateBidStatusById [] db id status = (.ok ret, db1) →
      decisionCounters db1 = decisionCounters db) ∧
    (∀ (db db1 : DB) (id : UUID) (version : Int) (ret : Bid),
      BidService.RollbackById [] db id version = (.ok ret, db1) →
      decisionCounters db1 = decisionCounters db) ∧
    (∀ (faults : List Bool) (db : DB) (id : UUID) (decision : String),
      bidAttributes (BidService.SubmitDecisionById faults db id decision).2 = bidAttributes db ∧
      (BidService.SubmitDecisionById faults db id decision).2.bid_history = db.bid_history) := by
  refine ⟨?_, ?_, ?_, ?_⟩
  · intro db db1 id name description ret h
    obtain ⟨live, _, hrepo⟩ := BidService_EditBidById_ok h
    exact bidWrite_counters (EditBidById_ok hrepo).1
  · intro db db1 id status ret h
    exact bidWrite_counters (UpdateBidStatusById_ok (BidService_UpdateBidStatusById_ok h)).1
  · intro db db1 id version ret h
    exact bidWrite_counters (RollbackById_write (BidService_RollbackById_ok h))
  · intro faults db id decision
    rcases SubmitDecisionById_cases faults db id decision with ⟨e, he⟩ |
      ⟨row, orgId, usersId, _, _, _, _, _, hdec⟩
    · rw [he]
      exact ⟨rfl, rfl⟩
    · rcases hdec with ⟨_, h | h⟩ | ⟨_, h⟩
      · rw [h]
        exact ⟨rfl, rfl⟩
      · rw [h]
        show bidAttributes (if _ then _ else _) = _ ∧ DB.bid_history (if _ then _ else _) = _
        split
        · exact ⟨(tender_close_frame _ _).1.trans (setApproves_frame _ _ _).1,
            (setApproves_frame db id (row.approves + 1)).2⟩
        · exact setApproves_frame _ _ _
      · rw [h]
        exact setRejects_frame _ _ _

/-- C20 at the example states: bid 9 with two approvals is rolled back to version 1
and keeps its two approvals; an approval of bid 9 leaves its attributes and the
history as they were. -/
theorem counters_independent_of_history_witness :
    decisionCounters (BidService.RollbackById [] exDbApproved 9 1).2 = [(9, 2, 0), (10, 0, 0)] ∧
    bidAttributes (BidService.SubmitDecisionById [] exDbQ 9 "Approved").2 = bidAttributes exDbQ :=
  ⟨(counters_independent_of_history.2.2.1 exDbApproved
      (BidService.RollbackById [] exDbApproved 9 1).2 9 1
      { Id := 9, Name := "offer", Description := "first", Status := "Created",
        TenderId := 7, AuthorType := "User", AuthorId := 11, Version := 3,
        CreatedAt := 200 } rfl).trans rfl,
   (counters_independent_of_history.2.2.2 [] exDbQ 9 "Approved").1⟩

/-! ## All-or-nothing mutations -/


theorem TenderRepo_UpdateTender_outcome (faults : List Bool) (db : DB) (t : Tender) :
    (∃ e, TenderRepo.UpdateTender faults db t = (.error e, db)) ∨
    (∃ r db1, TenderRepo.UpdateTender faults db t = (.ok r, db1)) := by
  unfold TenderRepo.UpdateTender
  repeat' first | split | dsimp only
  all_goals first | exact Or.inl ⟨_, rfl⟩ | exact Or.inr ⟨_, _, rfl⟩

theorem TenderRepo_RollBackTender_outcome (faults : List Bool) (db : DB) (id : UUID) (v : Int) :
    (∃ e, TenderRepo.RollBackTender faults db id v = (.error e, db)) ∨
    (∃ r db1, TenderRepo.RollBackTender faults db id v = (.ok r, db1)) := by
  unfold TenderRepo.RollBackTender
  repeat' first | split | dsimp only
  all_goals first | exact Or.inl ⟨_, rfl⟩ | exact Or.inr ⟨_, _, rfl⟩

theorem BidRepo_UpdateBidStatusById_outcome (faults : List Bool) (db : DB) (id : UUID)
    (status : String) :
    (∃ e, BidRepo.UpdateBidStatusById faults db id status = (.error e, db)) ∨
    (∃ r db1, BidRepo.UpdateBidStatusById faults db id status = (.ok r, db1)) := by
  unfold BidRepo.UpdateBidStatusById
  repeat' first | split | dsimp only
  all_goals first | exact Or.inl ⟨_, rfl⟩ | exact Or.inr ⟨_, _, rfl⟩

theorem BidRepo_EditBidById_outcome (faults : List Bool) (db : DB) (id : UUID)
    (name description : String) :
    (∃ e, BidRepo.EditBidById faults db id name description = (.error e, db)) ∨
    (∃ r db1, BidRepo.EditBidById faults db id name description = (.ok r, db1)) := by
  unfold BidRepo.EditBidById
  repeat' first | split | dsimp only
  all_goals first | exact Or.inl ⟨_, rfl⟩ | exact Or.inr ⟨_, _, rfl⟩

theorem BidRepo_RollbackById_outcome (faults : List Bool) (db : DB) (id : UUID) (v : Int) :
    (∃ e, BidRepo.RollbackById faults db id v = (.error e, db)) ∨
    (∃ r db1, BidRepo.RollbackById faults db id v = (.ok r, db1)) := by
  unfold BidRepo.RollbackById
  repeat' first | split | dsimp only
  all_goals first | exact Or.inl ⟨_, rfl⟩ | exact Or.inr ⟨_, _, rfl⟩

theorem error_frame_of_outcome {α : Type} {x : Except Err α × DB} {db db1 : DB} {e : Err}
    (ho : (∃ e, x = (.error e, db)) ∨ (∃ r db1, x = (.ok r, db1)))
    (h : x = (.error e, db1)) : db1 = db := by
  rcases ho with ⟨e1, h1⟩ | ⟨r, d, h1⟩
  · rw [h1] at h
    cases h; rfl
  · rw [h1] at h
    cases h

/-- Every edit, status update, rollback and decision that returns an error
leaves the database as it was, on any connection. -/
theorem error_leaves_database :
    (∀ (faults : List Bool) (db db1 : DB) (id : UUID) (n d s : String) (e : Err),
      TenderService.UpdateTender faults db id n d s = (.error e, db1) → db1 = db) ∧
    (∀ (faults : List Bool) (db db1 : DB) (id : UUID) (st : String) (e : Err),
      TenderService.UpdateTenderStatus faults db id st = (.error e, db1) → db1 = db) ∧
    (∀ (faults : List Bool) (db db1 : DB) (id : UUID) (v : Int) (e : Err),
      TenderService.RollBackTender faults db id v = (.error e, db1) → db1 = db) ∧
    (∀ (faults : List Bool) (db db1 : DB) (id : UUID) (n d : String) (e : Err),
      BidService.EditBidById faults db id n d = (.error e, db1) → db1 = db) ∧
    (∀ (faults : List Bool) (db db1 : DB) (id : UUID) (st : String) (e : Err),
      BidService.UpdateBidStatusById faults db id st = (.error e, db1) → db1 = db) ∧
    (∀ (faults : List Bool) (db db1 : DB) (id : UUID) (v : Int) (e : Err),
      BidService.RollbackById faults db id v = (.error e, db1) → db1 = db) ∧
    (∀ (faults : List Bool) (db db1 : DB) (id : UUID) (decision : String) (e : Err),
      BidService.SubmitDecisionById faults db id decision = (.error e, db1) → db1 = db) := by
  refine ⟨?_, ?_, ?_, ?_, ?_, ?_, ?_⟩
  · intro faults db db1 id n d s e h
    unfold TenderService.UpdateTender at h
    split at h
    · cases h; rfl
    · dsimp only at h
      split at h
      · cases h; rfl
      · generalize hrun : TenderRepo.UpdateTender _ _ _ = r at h
        rcases r with ⟨_ | _, d1⟩
        · cases h
          exact error_frame_of_outcome (TenderRepo_UpdateTender_outcome _ _ _) hrun
        · cases h
  · intro faults db db1 id st e h
    unfold TenderService.UpdateTenderStatus at h
    split at h
    · cases h; rfl
    · split at h
      · cases h; rfl
      · dsimp only at h
        generalize hrun : TenderRepo.UpdateTender _ _ _ = r at h
        rcases r with ⟨_ | _, d1⟩
        · cases h
          exact error_frame_of_outcome (TenderRepo_UpdateTender_outcome _ _ _) hrun
        · cases h
  · intro faults db db1 id v e h
    unfold TenderService.RollBackTender at h
    split at h
    · cases h; rfl
    · generalize hrun : TenderRepo.RollBackTender _ _ _ _ = r at h
      rcases r with ⟨_ | _, d1⟩
      · cases h
        exact error_frame_of_outcome (TenderRepo_RollBackTender_outcome _ _ _ _) hrun
      · cases h
  · intro faults db db1 id n d e h
    unfold BidService.EditBidById at h
    split at h
    · cases h; rfl
    · dsimp only at h
      generalize hrun : BidRepo.EditBidById _ _ _ _ _ = r at h
      rcases r with ⟨_ | _, d1⟩
      · cases h
        exact error_frame_of_outcome (BidRepo_EditBidById_outcome _ _ _ _ _) hrun
      · cases h
  · intro faults db db1 id st e h
    unfold BidService.UpdateBidStatusById at h
    split at h
    · cases h; rfl
    · split at h
      · cases h; rfl
      · generalize hrun : BidRepo.UpdateBidStatusById _ _ _ _ = r at h
        rcases r with ⟨_ | _, d1⟩
        · cases h
          exact error_frame_of_outcome (BidRepo_UpdateBidStatusById_outcome _ _ _ _) hrun
        · cases h
  · intro faults db db1 id v e h
    unfold BidService.RollbackById at h
    split at h
    · cases h; rfl
    · generalize hrun : BidRepo.RollbackById _ _ _ _ = r at h
      rcases r with ⟨_ | _, d1⟩
      · cases h
        exact error_frame_of_outcome (BidRepo_RollbackById_outcome _ _ _ _) hrun
      · cases h
  · intro faults db db1 id decision e h
    rcases SubmitDecisionById_cases faults db id decision with ⟨e1, he⟩ |
      ⟨row, orgId, usersId, _, _, _, _, _, hdec⟩
    · rw [he] at h
      cases h; rfl
    · rcases hdec with ⟨_, h1 | h1⟩ | ⟨_, h1⟩ <;> (rw [h1] at h; cases h)

/-- C21, the code at the failing inputs.  The fault lists let every round trip
succeed except the `Commit`, which fails, so nothing is persisted.
`BidRepo.EditBidById`, `UpdateBidStatusById`, `RollbackById`,
`UpdateApproves` and `TenderRepo.RollBackTender` call `tx.Commit()` and drop
its result: the services return the new entity without error although the
database is as before (bid 9 and tender 7 of the example state stay at
version 2, the approvals counter stays as it was).  `TenderRepo.UpdateTender`
returns the result of `Commit`, so the two tender writes that go through it
report the same failure as an error.  A rollback to a version without history
record returns an error and leaves no archive record behind. -/
theorem commit_failure_returns_success :
    BidService.EditBidById [false, false, false, false, false, true] exDb 9 "" "third" =
      (.ok { Id := 9, Name := "offer", Description := "third", Status := "Published",
             TenderId := 7, AuthorType := "User", AuthorId := 11, Version := 3,
             CreatedAt := 200 }, exDb) ∧
    BidService.UpdateBidStatusById [false, false, false, false, false, true] exDb 9
        "Canceled" =
      (.ok { Id := 9, Name := "offer", Description := "second", Status := "Canceled",
             TenderId := 7, AuthorType := "User", AuthorId := 11, Version := 3,
             CreatedAt := 200 }, exDb) ∧
    BidService.RollbackById [false, false, false, false, false, false, true] exDb 9 1 =
      (.ok { Id := 9, Name := "offer", Description := "first", Status := "Created",
             TenderId := 7, AuthorType := "User", AuthorId := 11, Version := 3,
             CreatedAt := 200 }, exDb) ∧
    TenderService.RollBackTender [false, false, false, false, false, false, true] exDb 7 1 =
      (.ok { Id := 7, Name := "road", Description := "old text",
             ServiceType := "Construction", Status := "Created",
             OrganizationId := 1, Version := 3, CreatedAt := 100 }, exDb) ∧
    BidService.SubmitDecisionById [false, false, false, false, false, false, true] exDbQ 9
        "Approved" =
      (.ok { Id := 9, Name := "offer", Description := "second", Status := "Published",
             TenderId := 7, AuthorType := "User", AuthorId := 11, Version := 2,
             CreatedAt := 200 }, exDbQ) ∧
    BidService.SubmitDecisionById [false, false, false, false, false, false, false, true]
        exDbOne 9 "Approved" =
      (.ok { Id := 9, Name := "offer", Description := "second", Status := "Published",
             TenderId := 7, AuthorType := "User", AuthorId := 11, Version := 2,
             CreatedAt := 200 }, exDbOne) ∧
    TenderService.UpdateTender [false, false, false, false, false, true] exDb 7 ""
        "newer text" "" = (.error (.new "can not update tender"), exDb) ∧
    TenderService.UpdateTenderStatus [false, false, false, false, false, true] exDb 7
        "Closed" = (.error (.new "can not update tender"), exDb) ∧
    TenderService.RollBackTender [] exDb 7 5 =
      (.error (.new "cat not rollback tender"), exDb) ∧
    BidService.RollbackById [] exDb 9 5 = (.error (.new "can not rollback bid"), exDb) :=
  ⟨rfl, rfl, rfl, rfl, rfl, rfl, rfl, rfl, rfl, rfl⟩


/-! ## List queries -/

theorem name_le_total (a b : List Char) : name_le a b = true ∨ name_le b a = true := by
  induction a generalizing b with
  | nil => exact Or.inl rfl
  | cons x xs ih =>
    cases b with
    | nil => exact Or.inr rfl
    | cons y ys =>
      simp only [name_le, Bool.or_eq_true, decide_eq_true_eq, Bool.and_eq_true, beq_iff_eq]
      rcases ih ys with h | h
      · rcases Nat.lt_trichotomy x.toNat y.toNat with h1 | h1 | h1
        · exact Or.inl (Or.inl h1)
        · exact Or.inl (Or.inr ⟨h1, h⟩)
        · exact Or.inr (Or.inl h1)
      · rcases Nat.lt_trichotomy x.toNat y.toNat with h1 | h1 | h1
        · exact Or.inl (Or.inl h1)
        · exact Or.inr (Or.inr ⟨h1.symm, h⟩)
        · exact Or.inr (Or.inl h1)

theorem name_le_trans {a b c : List Char} (h1 : name_le a b = true) (h2 : name_le b c = true) :
    name_le a c = true := by
  induction a generalizing b c with
  | nil => rfl
  | cons x xs ih =>
    cases b with
    | nil => simp [name_le] at h1
    | cons y ys =>
      cases c with
      | nil => simp [name_le] at h2
      | cons z zs =>
        simp only [name_le, Bool.or_eq_true, decide_eq_true_eq, Bool.and_eq_true,
          beq_iff_eq] at h1 h2 ⊢
        rcases h1 with h1 | ⟨h1, h1'⟩ <;> rcases h2 with h2 | ⟨h2, h2'⟩
        · exact Or.inl (by omega)
        · exact Or.inl (by omega)
        · exact Or.inl (by omega)
        · exact Or.inr ⟨by omega, ih h1' h2'⟩

theorem has_order_by_name_append {a : String} (b : String) (h : has_order_by_name a = true) :
    has_order_by_name (a ++ b) = true := by
  unfold has_order_by_name at h ⊢
  rw [decide_eq_true_eq] at h ⊢
  show _ <:+: (a ++ b).data
  rw [String.data_append]
  exact h.trans (List.prefix_append _ _).isInfix

/-- With `ORDER BY name ASC` in the text the rows returned are in ascending order of `name`. -/
theorem select_rows_sorted {ρ : Type} (name : ρ → String) (query : String)
    (limit offset : Option Nat) (rows : List ρ) (h : has_order_by_name query = true) :
    (select_rows name query limit offset rows).Pairwise
      (fun a b => name_le (name a).toList (name b).toList = true) := by
  unfold select_rows
  simp only [h, if_true]
  have hs : (rows.insertionSort
      (fun a b => name_le (name a).toList (name b).toList = true)).Pairwise
      (fun a b => name_le (name a).toList (name b).toList = true) := by
    haveI : IsTotal ρ (fun a b => name_le (name a).toList (name b).toList = true) :=
      ⟨fun a b => name_le_total _ _⟩
    haveI : IsTrans ρ (fun a b => name_le (name a).toList (name b).toList = true) :=
      ⟨fun a b c => name_le_trans⟩
    exact List.sorted_insertionSort _ rows
  cases offset <;> cases limit <;> dsimp only
  · exact hs
  · exact hs.sublist (List.take_sublist _ _)
  · exact hs.sublist (List.drop_sublist _ _)
  · exact (hs.sublist (List.drop_sublist _ _)).sublist (List.take_sublist _ _)

set_option maxRecDepth 100000 in
theorem GetBidsByTenderId_has_order_by (offset limit : Int) :
    has_order_by_name (BidRepo.GetBidsByTenderId.selectQuery offset limit) = true := by
  unfold BidRepo.GetBidsByTenderId.selectQuery
  dsimp only
  apply has_order_by_name_append
  split <;> split
  · exact has_order_by_name_append _ (has_order_by_name_append _
      (has_order_by_name_append _ (has_order_by_name_append _ (by decide))))
  · exact has_order_by_name_append _ (has_order_by_name_append _ (by decide))
  · exact has_order_by_name_append _ (has_order_by_name_append _ (by decide))
  · decide

set_option maxRecDepth 100000 in
theorem GetTendersByUserId_has_order_by (offset limit : Int) :
    has_order_by_name (TenderRepo.GetTendersByUserId.selectQuery offset limit) = true := by
  unfold TenderRepo.GetTendersByUserId.selectQuery
  dsimp only
  apply has_order_by_name_append
  split <;> split
  · exact has_order_by_name_append _ (has_order_by_name_append _
      (has_order_by_name_append _ (has_order_by_name_append _ (by decide))))
  · exact has_order_by_name_append _ (has_order_by_name_append _ (by decide))
  · exact has_order_by_name_append _ (has_order_by_name_append _ (by decide))
  · decide

theorem has_order_by_name_append_left (a : String) {b : String}
    (h : has_order_by_name b = true) : has_order_by_name (a ++ b) = true := by
  unfold has_order_by_name at h ⊢
  rw [decide_eq_true_eq] at h ⊢
  show _ <:+: (a ++ b).data
  rw [String.data_append]
  exact h.trans (List.suffix_append _ _).isInfix

set_option maxRecDepth 100000 in
theorem GetTenders_has_order_by (serviceTypeFlt offsetFlt limitFlt : String)
    (orgsIdFlt : List UUID) :
    has_order_by_name
      (TenderRepo.GetTenders.selectQuery serviceTypeFlt offsetFlt limitFlt orgsIdFlt) = true := by
  unfold TenderRepo.GetTenders.selectQuery
  dsimp only
  apply has_order_by_name_append
  have h0 : ∀ pre : String, has_order_by_name (pre ++ " ORDER BY name ASC ") = true :=
    fun pre => has_order_by_name_append_left pre (by decide)
  split <;> split
  · exact has_order_by_name_append _ (has_order_by_name_append _
      (has_order_by_name_append _ (has_order_by_name_append _ (h0 _))))
  · exact has_order_by_name_append _ (has_order_by_name_append _ (h0 _))
  · exact has_order_by_name_append _ (has_order_by_name_append _ (h0 _))
  · exact h0 _

theorem GetBidsByTenderId_ok_sorted {faults : List Bool} {db : DB} {offset limit : Int}
    {tenderId : UUID} {bids : List Bid}
    (h : BidRepo.GetBidsByTenderId faults db offset limit tenderId = .ok bids) :
    bids.Pairwise (fun a b => name_le a.Name.toList b.Name.toList = true) := by
  unfold BidRepo.GetBidsByTenderId at h
  split at h
  · cases h
  · cases h
    exact select_rows_sorted _ _ _ _ _ (GetBidsByTenderId_has_order_by offset limit)

theorem GetTendersByUserId_ok_sorted {faults : List Bool} {db : DB} {offset limit : Int}
    {userId : UUID} {tenders : List Tender}
    (h : TenderRepo.GetTendersByUserId faults db offset limit userId = .ok tenders) :
    tenders.Pairwise (fun a b => name_le a.Name.toList b.Name.toList = true) := by
  unfold TenderRepo.GetTendersByUserId at h
  split at h
  · cases h
  · cases h
    exact select_rows_sorted _ _ _ _ _ (GetTendersByUserId_has_order_by offset limit)

theorem GetTenders_ok_sorted {faults : List Bool} {db : DB}
    {serviceTypeFlt offsetFlt limitFlt : String} {orgsIdFlt : List UUID}
    {tenders : List Tender}
    (h : TenderRepo.GetTenders faults db serviceTypeFlt offsetFlt limitFlt orgsIdFlt =
      .ok tenders) :
    tenders.Pairwise (fun a b => name_le a.Name.toList b.Name.toList = true) := by
  unfold TenderRepo.GetTenders at h
  split at h
  · cases h
  · split at h
    · cases h
    · split at h
      · cases h
      · split at h
        · cases h
        · cases h
          exact select_rows_sorted _ _ _ _ _ (GetTenders_has_order_by _ _ _ _)

theorem GetBidsByTenderId_sorted (faults : List Bool) (db : DB) (offset limit : Int)
    (tenderId : UUID) :
    match BidRepo.GetBidsByTenderId faults db offset limit tenderId with
    | .ok bids => bids.Pairwise (fun a b => name_le a.Name.toList b.Name.toList = true)
    | .error _ => True := by
  split
  · rename_i bids h
    exact GetBidsByTenderId_ok_sorted h
  · trivial

theorem GetTendersByUserId_sorted (faults : List Bool) (db : DB) (offset limit : Int)
    (userId : UUID) :
    match TenderRepo.GetTendersByUserId faults db offset limit userId with
    | .ok tenders => tenders.Pairwise (fun a b => name_le a.Name.toList b.Name.toList = true)
    | .error _ => True := by
  split
  · rename_i tenders h
    exact GetTendersByUserId_ok_sorted h
  · trivial

theorem GetTenders_sorted (faults : List Bool) (db : DB)
    (serviceTypeFlt offsetFlt limitFlt : String) (orgsIdFlt : List UUID) :
    match TenderRepo.GetTenders faults db serviceTypeFlt offsetFlt limitFlt orgsIdFlt with
    | .ok tenders => tenders.Pairwise (fun a b => name_le a.Name.toList b.Name.toList = true)
    | .error _ => True := by
  split
  · rename_i tenders h
    exact GetTenders_ok_sorted h
  · trivial

theorem GetBidsByTenderId_clauses :
    ∃ pre : String, ∀ offset limit : Int,
      BidRepo.GetBidsByTenderId.selectQuery offset limit =
        pre ++ "ORDER BY name ASC\n\t" ++
          (if limit > 0 then " LIMIT " ++ strconv.Itoa limit else "") ++
          (if offset > 0 then " OFFSET " ++ strconv.Itoa offset else "") ++ ";" := by
  refine ⟨"\n\t\tSELECT id, name, description,\n\t\tstatus, tender_id, author_type,\n\t\tauthor_id, version, created_at\n\t\tFROM bid\n\t\tWHERE tender_id = $1\n\t\t", ?_⟩
  intro offset limit
  have hb : "\n\t\tSELECT id, name, description,\n\t\tstatus, tender_id, author_type,\n\t\tauthor_id, version, created_at\n\t\tFROM bid\n\t\tWHERE tender_id = $1\n\t\t" ++ "ORDER BY name ASC\n\t" = "\n\t\tSELECT id, name, description,\n\t\tstatus, tender_id, author_type,\n\t\tauthor_id, version, created_at\n\t\tFROM bid\n\t\tWHERE tender_id = $1\n\t\tORDER BY name ASC\n\t" := rfl
  rw [hb]
  unfold BidRepo.GetBidsByTenderId.selectQuery
  dsimp only
  split <;> split <;> simp only [String.append_assoc, String.append_empty]

theorem GetTendersByUserId_clauses :
    ∃ pre : String, ∀ offset limit : Int,
      TenderRepo.GetTendersByUserId.selectQuery offset limit =
        pre ++ "ORDER BY name ASC\n\t" ++
          (if limit > 0 then " LIMIT " ++ strconv.Itoa limit else "") ++
          (if offset > 0 then " OFFSET " ++ strconv.Itoa offset else "") ++ ";" := by
  refine ⟨"\n\t\tSELECT id, name, description,\n\t\tservice_type, status, organization_id,\n\t\tversion, created_at\n\t\tFROM tender \n\t\tWHERE user_id = $1\n\t\t", ?_⟩
  intro offset limit
  have hb : "\n\t\tSELECT id, name, description,\n\t\tservice_type, status, organization_id,\n\t\tversion, created_at\n\t\tFROM tender \n\t\tWHERE user_id = $1\n\t\t" ++ "ORDER BY name ASC\n\t" = "\n\t\tSELECT id, name, description,\n\t\tservice_type, status, organization_id,\n\t\tversion, created_at\n\t\tFROM tender \n\t\tWHERE user_id = $1\n\t\tORDER BY name ASC\n\t" := rfl
  rw [hb]
  unfold TenderRepo.GetTendersByUserId.selectQuery
  dsimp only
  split <;> split <;> simp only [String.append_assoc, String.append_empty]

theorem GetTenders_clauses (serviceTypeFlt : String) (orgsIdFlt : List UUID) :
    ∃ pre : String, ∀ offsetFlt limitFlt : String,
      TenderRepo.GetTenders.selectQuery serviceTypeFlt offsetFlt limitFlt orgsIdFlt =
        pre ++ " ORDER BY name ASC " ++
          (if limitFlt != "" then " LIMIT " ++ limitFlt else "") ++
          (if offsetFlt != "" then " OFFSET " ++ offsetFlt else "") ++ ";" := by
  refine ⟨if (TenderRepo.GetTenders.whereClauses serviceTypeFlt orgsIdFlt).length > 0 then
      "\n\t\tSELECT id, name, description,\n\t\tservice_type, status, organization_id,\n\t\tversion, created_at\n\t\tFROM tender \n\t" ++ " WHERE " ++
        " AND ".intercalate (TenderRepo.GetTenders.whereClauses serviceTypeFlt orgsIdFlt)
    else "\n\t\tSELECT id, name, description,\n\t\tservice_type, status, organization_id,\n\t\tversion, created_at\n\t\tFROM tender \n\t", ?_⟩
  intro offsetFlt limitFlt
  unfold TenderRepo.GetTenders.selectQuery
  dsimp only
  split <;> split <;> simp only [String.append_assoc, String.append_empty]

set_option maxRecDepth 100000 in
theorem GetBidsByAuthorId_text :
    has_order_by_name (BidRepo.GetBidsByAuthorId.selectQuery 0 0) = false ∧
    has_order_by_name (BidRepo.GetBidsByAuthorId.selectQuery 2 5) = false ∧
    BidRepo.GetBidsByAuthorId.selectQuery 2 5 =
      "\n\t\tSELECT id, name, description,\n\t\tstatus, tender_id, author_type,\n\t\tauthor_id, version, created_at\n\t\tFROM bid \n\t\tWHERE author_id = $1\n\t LIMIT 5 OFFSET 2;" ∧
    BidRepo.GetBidsByTenderId.selectQuery 2 5 =
      "\n\t\tSELECT id, name, description,\n\t\tstatus, tender_id, author_type,\n\t\tauthor_id, version, created_at\n\t\tFROM bid\n\t\tWHERE tender_id = $1\n\t\tORDER BY name ASC\n\t LIMIT 5 OFFSET 2;" := by
  refine ⟨by decide, by decide, by decide, by decide⟩

set_option maxRecDepth 100000 in
theorem GetBids_example :
    BidRepo.GetBidsByAuthorId [] exDbList 0 0 11 =
      .ok [{ Id := 9, Name := "offer", Description := "first", Status := "Created",
             TenderId := 7, AuthorType := "User", AuthorId := 11, Version := 1,
             CreatedAt := 200 },
           { Id := 16, Name := "bargain", Description := "cheaper", Status := "Created",
             TenderId := 7, AuthorType := "User", AuthorId := 11, Version := 1,
             CreatedAt := 500 }] ∧
    BidRepo.GetBidsByTenderId [] exDbList 0 0 7 =
      .ok [{ Id := 16, Name := "bargain", Description := "cheaper", Status := "Created",
             TenderId := 7, AuthorType := "User", AuthorId := 11, Version := 1,
             CreatedAt := 500 },
           { Id := 9, Name := "offer", Description := "first", Status := "Created",
             TenderId := 7, AuthorType := "User", AuthorId := 11, Version := 1,
             CreatedAt := 200 }] ∧
    name_le "offer".toList "bargain".toList = false :=
  ⟨rfl, rfl, rfl⟩

/-- C22, the code at the failing input.  The text `BidRepo.GetBidsByAuthorId`
sends has no `ORDER BY` clause (shown for offset 0, limit 0 and for offset 2,
limit 5), so its rows come in the order of the store: for user 11, whose bid
`offer` was written before the bid `bargain`, the result is `offer`,
`bargain`, which is not ascending.  The other three list operations are as
the claim says: the text of `BidRepo.GetBidsByTenderId`,
`TenderRepo.GetTendersByUserId` and `TenderRepo.GetTenders` contains
`ORDER BY name ASC` for every offset, limit and filter, the `LIMIT` and
`OFFSET` clauses come after it, and every result is in ascending order of
`name`. -/
theorem bids_by_author_not_ordered :
    (has_order_by_name (BidRepo.GetBidsByAuthorId.selectQuery 0 0) = false ∧
      has_order_by_name (BidRepo.GetBidsByAuthorId.selectQuery 2 5) = false) ∧
    (BidRepo.GetBidsByAuthorId [] exDbList 0 0 11 =
        .ok [{ Id := 9, Name := "offer", Description := "first", Status := "Created",
               TenderId := 7, AuthorType := "User", AuthorId := 11, Version := 1,
               CreatedAt := 200 },
             { Id := 16, Name := "bargain", Description := "cheaper", Status := "Created",
               TenderId := 7, AuthorType := "User", AuthorId := 11, Version := 1,
               CreatedAt := 500 }] ∧
      BidRepo.GetBidsByTenderId [] exDbList 0 0 7 =
        .ok [{ Id := 16, Name := "bargain", Description := "cheaper", Status := "Created",
               TenderId := 7, AuthorType := "User", AuthorId := 11, Version := 1,
               CreatedAt := 500 },
             { Id := 9, Name := "offer", Description := "first", Status := "Created",
               TenderId := 7, AuthorType := "User", AuthorId := 11, Version := 1,
               CreatedAt := 200 }] ∧
      name_le "offer".toList "bargain".toList = false) ∧
    (∀ (offset limit : Int),
      has_order_by_name (BidRepo.GetBidsByTenderId.selectQuery offset limit) = true ∧
      has_order_by_name (TenderRepo.GetTendersByUserId.selectQuery offset limit) = true) ∧
    (∀ (serviceTypeFlt offsetFlt limitFlt : String) (orgsIdFlt : List UUID),
      has_order_by_name
        (TenderRepo.GetTenders.selectQuery serviceTypeFlt offsetFlt limitFlt orgsIdFlt) =
        true) ∧
    ((∃ pre : String, ∀ offset limit : Int,
        BidRepo.GetBidsByTenderId.selectQuery offset limit =
          pre ++ "ORDER BY name ASC\n\t" ++
            (if limit > 0 then " LIMIT " ++ strconv.Itoa limit else "") ++
            (if offset > 0 then " OFFSET " ++ strconv.Itoa offset else "") ++ ";") ∧
      (∃ pre : String, ∀ offset limit : Int,
        TenderRepo.GetTendersByUserId.selectQuery offset limit =
          pre ++ "ORDER BY name ASC\n\t" ++
            (if limit > 0 then " LIMIT " ++ strconv.Itoa limit else "") ++
            (if offset > 0 then " OFFSET " ++ strconv.Itoa offset else "") ++ ";") ∧
      (∀ (serviceTypeFlt : String) (orgsIdFlt : List UUID),
        ∃ pre : String, ∀ offsetFlt limitFlt : String,
          TenderRepo.GetTenders.selectQuery serviceTypeFlt offsetFlt limitFlt orgsIdFlt =
            pre ++ " ORDER BY name ASC " ++
              (if limitFlt != "" then " LIMIT " ++ limitFlt else "") ++
              (if offsetFlt != "" then " OFFSET " ++ offsetFlt else "") ++ ";")) ∧
    ((∀ (faults : List Bool) (db : DB) (offset limit : Int) (tenderId : UUID),
        match BidRepo.GetBidsByTenderId faults db offset limit tenderId with
        | .ok bids => bids.Pairwise (fun a b => name_le a.Name.toList b.Name.toList = true)
        | .error _ => True) ∧
      (∀ (faults : List Bool) (db : DB) (offset limit : Int) (userId : UUID),
        match TenderRepo.GetTendersByUserId faults db offset limit userId with
        | .ok tenders =>
          tenders.Pairwise (fun a b => name_le a.Name.toList b.Name.toList = true)
        | .error _ => True) ∧
      (∀ (faults : List Bool) (db : DB) (serviceTypeFlt offsetFlt limitFlt : String)
        (orgsIdFlt : List UUID),
        match TenderRepo.GetTenders faults db serviceTypeFlt offsetFlt limitFlt orgsIdFlt with
        | .ok tenders =>
          tenders.Pairwise (fun a b => name_le a.Name.toList b.Name.toList = true)
        | .error _ => True)) :=
  ⟨⟨GetBidsByAuthorId_text.1, GetBidsByAuthorId_text.2.1⟩, GetBids_example,
   fun offset limit => ⟨GetBidsByTenderId_has_order_by offset limit,
     GetTendersByUserId_has_order_by offset limit⟩,
   GetTenders_has_order_by,
   ⟨GetBidsByTenderId_clauses, GetTendersByUserId_clauses, GetTenders_clauses⟩,
   ⟨GetBidsByTenderId_sorted, GetTendersByUserId_sorted, GetTenders_sorted⟩⟩


/-! ## The organization filter of `TenderService.GetTenders` -/

theorem foldl_append_ids (orgs : List Organization) (init : List UUID) :
    orgs.foldl (fun orgsId org => orgsId ++ [org.Id]) init =
      init ++ orgs.map (fun org => org.Id) := by
  induction orgs generalizing init with
  | nil => simp
  | cons o os ih =>
    rw [List.foldl_cons, ih, List.map_cons, List.append_assoc]
    rfl

/-- The filter `TenderService.GetTenders` builds for a username that resolves to
a user with the organizations `orgs`: `len(orgs)` zero ids followed by the ids
of `orgs`. -/
theorem GetTenders_orgsId_of_user {db : DB} {username : String} {user : User}
    {orgs : List Organization} (hne : username ≠ "")
    (hu : db.employee.find? (fun x => x.Username == username) = some user)
    (ho : OrganizationRepo.GetOrganizationsByUserId [] db user.Id = .ok orgs) :
    (TenderService.GetTenders.orgsId [] db username).1 =
      .ok (List.replicate orgs.length uuid.Nil ++ orgs.map (fun org => org.Id)) := by
  have hb : (username != "") = true := by simpa using hne
  have hget : UserRepo.GetUserByName [] db username = .ok user := by
    unfold UserRepo.GetUserByName
    simp only [fault_nil, Bool.false_eq_true, if_false, hu]
  unfold TenderService.GetTenders.orgsId
  simp only [hb, if_true, hget, List.drop_nil, ho, foldl_append_ids]

set_option maxRecDepth 100000 in
/-- C27, the code at the failing inputs.  In the example state `ann` (user 11)
represents organization 1 only and `cat` (user 13) represents no organization;
tender 7 (`road`) belongs to organization 1 and tender 8 (`bridge`) to
organization 2.  For `ann` the filter passed to `TenderRepo.GetTenders` is
`[uuid.Nil, 1]`: two ids for one organization, the first of them the zero id
left by `make([]uuid.UUID, len(orgs))`.  For `cat` the filter is empty, the
text has no `WHERE` clause, and both tenders are returned. -/
theorem tenders_filter_has_zero_ids :
    (OrganizationRepo.GetOrganizationsByUserId [] exDbList 11 =
        .ok [⟨1, "org one", "", "LLC"⟩] ∧
      (TenderService.GetTenders.orgsId [] exDbList "ann").1 = .ok [uuid.Nil, 1] ∧
      TenderRepo.GetTenders.selectQuery "" "" "" [uuid.Nil, 1] =
        "\n\t\tSELECT id, name, description,\n\t\tservice_type, status, organization_id,\n\t\tversion, created_at\n\t\tFROM tender \n\t WHERE organization_id IN ('0','1') ORDER BY name ASC ;" ∧
      TenderService.GetTenders [] exDbList "" 0 0 "ann" =
        .ok [{ Id := 7, Name := "road", Description := "old text",
               ServiceType := "Construction", Status := "Created", OrganizationId := 1,
               Version := 3, CreatedAt := 100 }]) ∧
    (OrganizationRepo.GetOrganizationsByUserId [] exDbList 13 = .ok [] ∧
      (TenderService.GetTenders.orgsId [] exDbList "cat").1 = .ok [] ∧
      TenderRepo.GetTenders.selectQuery "" "" "" [] =
        "\n\t\tSELECT id, name, description,\n\t\tservice_type, status, organization_id,\n\t\tversion, created_at\n\t\tFROM tender \n\t ORDER BY name ASC ;" ∧
      TenderService.GetTenders [] exDbList "" 0 0 "cat" =
        .ok [{ Id := 8, Name := "bridge", Description := "steel", ServiceType := "Delivery",
               Status := "Created", OrganizationId := 2, Version := 1, CreatedAt := 101 },
             { Id := 7, Name := "road", Description := "old text",
               ServiceType := "Construction", Status := "Created", OrganizationId := 1,
               Version := 3, CreatedAt := 100 }]) :=
  ⟨⟨rfl, rfl, by decide, rfl⟩, ⟨rfl, rfl, by decide, rfl⟩⟩


/-! ## Rollback to a version without history record -/

theorem RollBackTender_no_record {db : DB} {id : UUID} {v : Int} {live : TenderRow}
    (hlive : tender_select db id = some live)
    (hcols : tender_columns_ok live.Name live.Description live.ServiceType live.Status = true)
    (hfresh : tender_history_select db id live.Version = none)
    (hnone : tender_history_select db id v = none) (hv : v ≠ live.Version) :
    TenderRepo.RollBackTender [] db id v = (.error .sqlErrNoRows, db) := by
  have hid := tender_select_id hlive
  have hins := @tender_history_insert_of db live.toTender hcols (by rw [hid]; exact hfresh)
  have hsnap := (find?_snapshot_none (fun x : Tender => x.Id) (fun x => x.Version)
    db.tender_history live.toTender id v hid).mpr ⟨hnone, hv⟩
  unfold TenderRepo.RollBackTender
  simp only [fault_nil, List.drop_nil, Bool.false_eq_true, if_false, hlive, hins]
  unfold tender_history_select
  simp only [hsnap]

theorem RollbackById_no_record {db : DB} {id : UUID} {v : Int} {live : BidRow}
    (hlive : bid_select db id = some live)
    (hcols : bid_columns_ok live.Name live.Description live.Status live.AuthorType = true)
    (hfresh : bid_history_select db id live.Version = none)
    (hnone : bid_history_select db id v = none) (hv : v ≠ live.Version) :
    BidRepo.RollbackById [] db id v = (.error .sqlErrNoRows, db) := by
  have hid := bid_select_id hlive
  have hins := @bid_history_insert_of db live.toBid hcols (by rw [hid]; exact hfresh)
  have hsnap := (find?_snapshot_none (fun x : Bid => x.Id) (fun x => x.Version)
    db.bid_history live.toBid id v hid).mpr ⟨hnone, hv⟩
  unfold BidRepo.RollbackById
  simp only [fault_nil, List.drop_nil, Bool.false_eq_true, if_false, hlive, hins]
  unfold bid_history_select
  simp only [hsnap]

theorem GetTenderById_nil_of_select {db : DB} {id : UUID} {t : TenderRow}
    (h : tender_select db id = some t) : TenderRepo.GetTenderById [] db id = .ok t.toTender := by
  unfold TenderRepo.GetTenderById
  simp only [fault_nil, Bool.false_eq_true, if_false, h]

theorem GetBidById_nil_of_select {db : DB} {id : UUID} {b : BidRow}
    (h : bid_select db id = some b) : BidRepo.GetBidById [] db id = .ok b.toBid := by
  unfold BidRepo.GetBidById
  simp only [fault_nil, Bool.false_eq_true, if_false, h]

theorem GetBidById_of_none {db : DB} {id : UUID} (faults : List Bool)
    (h : bid_select db id = none) : ∃ e, BidRepo.GetBidById faults db id = .error e := by
  unfold BidRepo.GetBidById
  split
  · exact ⟨_, rfl⟩
  · rw [h]
    exact ⟨_, rfl⟩

/-- C23, refuted as stated: tender 7 and bid 9 exist and version 5 has no history
record.  The services report the failed rollback with an error made on the
spot (`errors.New`), not with their not-found error, and the handlers, asked
by the responsible user `ann`, answer 400.  The status 404 is what they answer
for a tender or bid that does not exist. -/
theorem rollback_missing_version_is_bad_request :
    (TenderService.RollBackTender [] exDb 7 5 =
        (.error (.new "cat not rollback tender"), exDb) ∧
      RollbackTenderHandler (.ok ()) [] exDb (some 7) (some 5) "ann" =
        (apierror.HandleError (.new "cat not rollback tender") 400, exDb) ∧
      RollbackTenderHandler (.ok ()) [] exDb (some 99) (some 1) "ann" =
        (apierror.HandleError .tenderErrorTenderNorFound 404, exDb)) ∧
    (BidService.RollbackById [] exDb 9 5 = (.error (.new "can not rollback bid"), exDb) ∧
      RollbackHandler (.ok ()) [] exDb (some 9) "ann" (some 5) =
        (apierror.HandleError (.new "can not rollback bid") 400, exDb) ∧
      RollbackHandler (.ok ()) [] exDb (some 99) "ann" (some 1) =
        (apierror.HandleError .bidErrorBidNotFound 404, exDb)) :=
  ⟨⟨rfl, rfl, rfl⟩, ⟨rfl, rfl, rfl⟩⟩

/-- C23 (amended).  On a healthy connection, for an existing tender (bid) whose
live row satisfies the column constraints and whose version is not yet
archived, a rollback to a version that has no history record and is not the
live version is reported by `TenderService.RollBackTender` with the error
`cat not rollback tender` (by `BidService.RollbackById` with
`can not rollback bid`), an error made on the spot that is not the not-found
error of the service; the database is unchanged, and the handler, called by a
user who passes the rights check, answers with status 400 and that reason.
The handlers answer 404 when the tender (bid) itself does not exist. -/
theorem rollback_missing_version_status :
    (∀ (db : DB) (id : UUID) (version : Int) (username : String) (live : TenderRow),
      tender_select db id = some live →
      tender_columns_ok live.Name live.Description live.ServiceType live.Status = true →
      tender_history_select db id live.Version = none →
      tender_history_select db id (wrap32 version) = none →
      wrap32 version ≠ live.Version →
      TenderService.CheckWriteRightByUsername [] db id username = .ok () →
      TenderService.RollBackTender [] db id (wrap32 version) =
          (.error (.new "cat not rollback tender"), db) ∧
        RollbackTenderHandler (.ok ()) [] db (some id) (some version) username =
          (apierror.HandleError (.new "cat not rollback tender") 400, db)) ∧
    (∀ (db : DB) (id : UUID) (version : Int) (username : String) (live : BidRow),
      bid_select db id = some live →
      bid_columns_ok live.Name live.Description live.Status live.AuthorType = true →
      bid_history_select db id live.Version = none →
      bid_history_select db id (wrap32 version) = none →
      wrap32 version ≠ live.Version →
      BidService.CheckRWRightsByUsername [] db live.TenderId username = .ok () →
      BidService.RollbackById [] db id (wrap32 version) =
          (.error (.new "can not rollback bid"), db) ∧
        RollbackHandler (.ok ()) [] db (some id) username (some version) =
          (apierror.HandleError (.new "can not rollback bid") 400, db)) ∧
    (∀ (faults : List Bool) (db : DB) (id : UUID) (version : Int) (username : String),
      username ≠ "" → tender_select db id = none →
      RollbackTenderHandler (.ok ()) faults db (some id) (some version) username =
        (apierror.HandleError .tenderErrorTenderNorFound 404, db)) ∧
    (∀ (faults : List Bool) (db : DB) (id : UUID) (version : Int) (username : String),
      username ≠ "" → bid_select db id = none →
      RollbackHandler (.ok ()) faults db (some id) username (some version) =
        (apierror.HandleError .bidErrorBidNotFound 404, db)) := by
  refine ⟨?_, ?_, ?_, ?_⟩
  · intro db id version username live hlive hcols hfresh hnone hv hcheck
    have hid := tender_select_id hlive
    have hsvc : TenderService.RollBackTender [] db id (wrap32 version) =
        (.error (.new "cat not rollback tender"), db) := by
      unfold TenderService.RollBackTender
      simp only [GetTenderById_nil_of_select hlive, List.drop_nil, hid,
        RollBackTender_no_record hlive hcols hfresh hnone hv]
    refine ⟨hsvc, ?_⟩
    have hne : (username == "") = false := by
      cases hu : (username == "")
      · rfl
      · have : username = "" := by simpa using hu
        subst this
        unfold TenderService.CheckWriteRightByUsername at hcheck
        simp only [GetTenderById_nil_of_select hlive, beq_self_eq_true, if_true] at hcheck
        cases hcheck
    unfold RollbackTenderHandler
    simp only [hne, Bool.false_eq_true, if_false, hcheck, List.drop_nil, hsvc]
    rfl
  · intro db id version username live hlive hcols hfresh hnone hv hcheck
    have hsvc : BidService.RollbackById [] db id (wrap32 version) =
        (.error (.new "can not rollback bid"), db) := by
      unfold BidService.RollbackById
      simp only [GetBidById_nil_of_select hlive, List.drop_nil,
        RollbackById_no_record hlive hcols hfresh hnone hv]
    refine ⟨hsvc, ?_⟩
    have hget : BidService.GetBidById [] db id = .ok live.toBid := by
      unfold BidService.GetBidById
      simp only [GetBidById_nil_of_select hlive]
    have hne : (username == "") = false := by
      cases hu : (username == "")
      · rfl
      · have : username = "" := by simpa using hu
        subst this
        unfold BidService.CheckRWRightsByUsername at hcheck
        cases hg : TenderRepo.GetTenderById [] db live.TenderId with
        | error e => rw [hg] at hcheck; cases hcheck
        | ok t =>
          rw [hg] at hcheck
          simp only [beq_self_eq_true, if_true] at hcheck
          cases hcheck
    unfold RollbackHandler
    simp only [hne, Bool.false_eq_true, if_false, hget, List.drop_nil, hcheck, hsvc]
    rfl
  · intro faults db id version username hne hnone
    have hb : (username == "") = false := by simpa using hne
    obtain ⟨e, he⟩ := GetTenderById_of_none faults hnone
    unfold RollbackTenderHandler TenderService.CheckWriteRightByUsername
    simp only [hb, Bool.false_eq_true, if_false, he]
    rfl
  · intro faults db id version username hne hnone
    have hb : (username == "") = false := by simpa using hne
    have hget : BidService.GetBidById faults db id = .error .bidErrorBidNotFound := by
      obtain ⟨e, he⟩ := GetBidById_of_none faults hnone
      unfold BidService.GetBidById
      simp only [he]
    unfold RollbackHandler
    simp only [hb, Bool.false_eq_true, if_false, hget]
    rfl

/-- C23 (amended) at the example state: `ann` asks for version 5 of tender 7 and of
bid 9, which was never written. -/
theorem rollback_missing_version_status_witness :
    (RollbackTenderHandler (.ok ()) [] exDb (some 7) (some 5) "ann").1.status = 400 ∧
    (RollbackHandler (.ok ()) [] exDb (some 9) "ann" (some 5)).1.status = 400 ∧
    (RollbackTenderHandler (.ok ()) [] exDb (some 99) (some 5) "ann").1.status = 404 ∧
    (RollbackHandler (.ok ()) [] exDb (some 99) "ann" (some 5)).1.status = 404 :=
  ⟨congrArg (fun x => x.1.status)
      (rollback_missing_version_status.1 exDb 7 5 "ann" _ rfl rfl rfl rfl (by decide) rfl).2,
   congrArg (fun x => x.1.status)
      (rollback_missing_version_status.2.1 exDb 9 5 "ann" _ rfl rfl rfl rfl (by decide) rfl).2,
   congrArg (fun x => x.1.status)
      (rollback_missing_version_status.2.2.1 [] exDb 99 5 "ann" (by decide) rfl),
   congrArg (fun x => x.1.status)
      (rollback_missing_version_status.2.2.2 [] exDb 99 5 "ann" (by decide) rfl)⟩


/-! ## Access check before a bid mutation -/

theorem UpdateBidStatusHandler_checked (NewService : Except Err Unit) (faults : List Bool)
    (db : DB) (bidId : Option UUID) (username status : String) :
    (UpdateBidStatusHandler NewService faults db bidId username status).2 = db ∨
    ∃ id bid, bidId = some id ∧ BidService.GetBidById faults db id = .ok bid ∧
      BidService.CheckRWRightsByUsername (faults.drop 1) db bid.TenderId username = .ok () := by
  unfold UpdateBidStatusHandler
  repeat' split
  all_goals first
    | exact Or.inl rfl
    | exact Or.inr ⟨_, _, rfl, by assumption, by assumption⟩

theorem EditBidHandler_checked (NewService : Except Err Unit) (faults : List Bool)
    (db : DB) (bidId : Option UUID) (bidReq : EditBidRequest) (username : String) :
    (EditBidHandler NewService faults db bidId bidReq username).2 = db ∨
    ∃ id bid, bidId = some id ∧ BidService.GetBidById faults db id = .ok bid ∧
      BidService.CheckRWRightsByUsername (faults.drop 1) db bid.TenderId username = .ok () := by
  unfold EditBidHandler
  repeat' split
  all_goals first
    | exact Or.inl rfl
    | exact Or.inr ⟨_, _, rfl, by assumption, by assumption⟩

theorem SumbitDecisionHandler_checked (NewService : Except Err Unit) (faults : List Bool)
    (db : DB) (bidId : Option UUID) (username decision : String) :
    (SumbitDecisionHandler NewService faults db bidId username decision).2 = db ∨
    ∃ id bid, bidId = some id ∧ BidService.GetBidById faults db id = .ok bid ∧
      BidService.CheckRWRightsByUsername (faults.drop 1) db bid.TenderId username = .ok () := by
  unfold SumbitDecisionHandler
  repeat' split
  all_goals first
    | exact Or.inl rfl
    | exact Or.inr ⟨_, _, rfl, by assumption, by assumption⟩

theorem RollbackHandler_checked (NewService : Except Err Unit) (faults : List Bool)
    (db : DB) (bidId : Option UUID) (username : String) (version : Option Int) :
    (RollbackHandler NewService faults db bidId username version).2 = db ∨
    ∃ id bid, bidId = some id ∧ BidService.GetBidById faults db id = .ok bid ∧
      BidService.CheckRWRightsByUsername (faults.drop 1) db bid.TenderId username = .ok () := by
  unfold RollbackHandler
  repeat' split
  all_goals first
    | exact Or.inl rfl
    | exact Or.inr ⟨_, _, rfl, by assumption, by assumption⟩

/-- C24, the code at the failing inputs.  `FeedbackHandler` has no call of
`CheckRWRightsByUsername`: for the username `zed`, which is no user, and for
`cat`, user 13, who represents no organization, it answers 200 and the review
is in the table `review` afterwards.  Bid 9 is on tender 7 of organization 1,
and the rights check refuses both names (user not found, 401; not responsible,
403), as `SumbitDecisionHandler` does for the same bid and names.  The four
other handlers (status update, edit, decision, rollback) change the database
only after `GetBidById` returned the bid and `CheckRWRightsByUsername` on its
tender returned nil. -/
theorem feedback_without_rights_check :
    (BidService.CheckRWRightsByUsername [] exDbNoOrg 7 "zed" = .error .bidErrorUserNotFound ∧
      BidService.CheckRWRightsByUsername [] exDbNoOrg 7 "cat" =
        .error .bidErrorUserIsNotOrgResponsible) ∧
    ((FeedbackHandler (.ok ()) [] exDbNoOrg 50 700 (some 9) "zed" "fine").1.status = 200 ∧
      (FeedbackHandler (.ok ()) [] exDbNoOrg 50 700 (some 9) "zed" "fine").2 =
        { exDbNoOrg with review :=
            [{ Id := 50, Description := "fine", CreatedAt := 700, bid_id := 9 }] } ∧
      (FeedbackHandler (.ok ()) [] exDbNoOrg 50 700 (some 9) "cat" "fine").1.status = 200 ∧
      (FeedbackHandler (.ok ()) [] exDbNoOrg 50 700 (some 9) "cat" "fine").2 =
        { exDbNoOrg with review :=
            [{ Id := 50, Description := "fine", CreatedAt := 700, bid_id := 9 }] }) ∧
    (SumbitDecisionHandler (.ok ()) [] exDbNoOrg (some 9) "zed" "Approved" =
        (apierror.HandleError .bidErrorUserNotFound 401, exDbNoOrg) ∧
      SumbitDecisionHandler (.ok ()) [] exDbNoOrg (some 9) "cat" "Approved" =
        (apierror.HandleError .bidErrorUserIsNotOrgResponsible 403, exDbNoOrg)) ∧
    (∀ (NewService : Except Err Unit) (faults : List Bool) (db : DB) (bidId : Option UUID)
      (username status : String),
      (UpdateBidStatusHandler NewService faults db bidId username status).2 = db ∨
      ∃ id bid, bidId = some id ∧ BidService.GetBidById faults db id = .ok bid ∧
        BidService.CheckRWRightsByUsername (faults.drop 1) db bid.TenderId username =
          .ok ()) ∧
    (∀ (NewService : Except Err Unit) (faults : List Bool) (db : DB) (bidId : Option UUID)
      (bidReq : EditBidRequest) (username : String),
      (EditBidHandler NewService faults db bidId bidReq username).2 = db ∨
      ∃ id bid, bidId = some id ∧ BidService.GetBidById faults db id = .ok bid ∧
        BidService.CheckRWRightsByUsername (faults.drop 1) db bid.TenderId username =
          .ok ()) ∧
    (∀ (NewService : Except Err Unit) (faults : List Bool) (db : DB) (bidId : Option UUID)
      (username decision : String),
      (SumbitDecisionHandler NewService faults db bidId username decision).2 = db ∨
      ∃ id bid, bidId = some id ∧ BidService.GetBidById faults db id = .ok bid ∧
        BidService.CheckRWRightsByUsername (faults.drop 1) db bid.TenderId username =
          .ok ()) ∧
    (∀ (NewService : Except Err Unit) (faults : List Bool) (db : DB) (bidId : Option UUID)
      (username : String) (version : Option Int),
      (RollbackHandler NewService faults db bidId username version).2 = db ∨
      ∃ id bid, bidId = some id ∧ BidService.GetBidById faults db id = .ok bid ∧
        BidService.CheckRWRightsByUsername (faults.drop 1) db bid.TenderId username =
          .ok ()) :=
  ⟨⟨rfl, rfl⟩, ⟨rfl, rfl, rfl, rfl⟩, ⟨rfl, rfl⟩, UpdateBidStatusHandler_checked,
    EditBidHandler_checked, SumbitDecisionHandler_checked, RollbackHandler_checked⟩


/-! ## The status of a store failure -/

theorem CreateTenderHandler_not_500 (faults : List Bool) (db : DB) (u : UUID) (t : Time)
    (req : TenderRequest) :
    (CreateTenderHandler (.ok ()) faults db u t req).1.status = 200 ∨
    (CreateTenderHandler (.ok ()) faults db u t req).1.status = 400 ∨
    (CreateTenderHandler (.ok ()) faults db u t req).1.status = 401 ∨
    (CreateTenderHandler (.ok ()) faults db u t req).1.status = 403 := by
  unfold CreateTenderHandler
  split
  · exact Or.inr (Or.inl rfl)
  · dsimp only
    split
    · rename_i err db1 _
      dsimp only [apierror.HandleError]
      by_cases h3 : err = .tenderErrorUserIsNotOrgResponsible
      · simp only [h3, if_true]
        exact Or.inr (Or.inr (Or.inr trivial))
      · simp only [h3, if_false]
        by_cases h1 : err = .tenderErrorUserNorFound
        · simp only [h1, if_true]
          exact Or.inr (Or.inr (Or.inl trivial))
        · simp only [h1, if_false]
          exact Or.inr (Or.inl trivial)
    · exact Or.inl rfl

/-- C25, refuted as stated: tender 7 of the example state is named `road`.  The
request of the responsible user `ann` for a second tender of that name passes
the validation and the rights of the service, the `INSERT` violates the
`UNIQUE` constraint, and the handler answers 400 with the reason
`tender creation failed, check fields`; nothing is inserted. -/
theorem duplicate_name_is_bad_request :
    TenderRequest.validate ⟨"road", "again", "Construction", 1, "ann"⟩ = true ∧
    (TenderRepo.CreateTender [] exDb 70 900 "road" "again" "Construction" 1 11).1 =
      .error .sqlConstraint ∧
    CreateTenderHandler (.ok ()) [] exDb 70 900 ⟨"road", "again", "Construction", 1, "ann"⟩ =
      (apierror.HandleError (.new "tender creation failed, check fields") 400, exDb) ∧
    (CreateTenderHandler (.ok ()) [] exDb 70 900
      ⟨"path", "again", "Construction", 1, "ann"⟩).1.status = 200 :=
  ⟨by decide, rfl, rfl, rfl⟩

/-- C25 (amended).  A store failure inside a service operation is reported with
status 400.  (1) When `TenderRepo.CreateTender` fails inside
`TenderService.CreateTender` (the creator resolved and represents the
organization of the request), `CreateTenderHandler` answers 400 with the
reason `tender creation failed, check fields` and the database is unchanged.
(2) With a service at hand `CreateTenderHandler` answers 200, 400, 401 or 403,
never 500.  (3) It answers 500 when `NewService` fails, for a request that
passes the validation.  (4) Every error a service makes on the spot for a
failed repository call (`errors.New`) is answered with 400 by the tender and
the bid handlers. -/
theorem store_failure_status :
    (∀ (faults : List Bool) (db : DB) (u : UUID) (t : Time) (req : TenderRequest)
      (user : User) (orgs : List Organization) (e : Err),
      req.validate = true →
      UserRepo.GetUserByName faults db req.CreatorUsername = .ok user →
      OrganizationRepo.GetOrganizationsByUserId (faults.drop 1) db user.Id = .ok orgs →
      orgs.any (fun org => req.OrganizationId == org.Id) = true →
      (TenderRepo.CreateTender (faults.drop 2) db u t req.Name req.Description
        req.ServiceType req.OrganizationId user.Id).1 = .error e →
      CreateTenderHandler (.ok ()) faults db u t req =
        (apierror.HandleError (.new "tender creation failed, check fields") 400, db)) ∧
    (∀ (faults : List Bool) (db : DB) (u : UUID) (t : Time) (req : TenderRequest),
      (CreateTenderHandler (.ok ()) faults db u t req).1.status = 200 ∨
      (CreateTenderHandler (.ok ()) faults db u t req).1.status = 400 ∨
      (CreateTenderHandler (.ok ()) faults db u t req).1.status = 401 ∨
      (CreateTenderHandler (.ok ()) faults db u t req).1.status = 403) ∧
    (∀ (e : Err) (faults : List Bool) (db : DB) (u : UUID) (t : Time) (req : TenderRequest),
      req.validate = true →
      CreateTenderHandler (.error e) faults db u t req =
        (apierror.HandleError (.new "tenders service creation failed") 500, db)) ∧
    (∀ msg : String, tenderCallStatus (.new msg) = 400 ∧ bidCallStatus (.new msg) = 400) := by
  refine ⟨?_, CreateTenderHandler_not_500, ?_, fun msg => ⟨rfl, rfl⟩⟩
  · intro faults db u t req user orgs e hval hu ho hany hrepo
    have hne : orgs.isEmpty = false := by
      cases orgs with
      | nil => simp at hany
      | cons a l => rfl
    have hrun : TenderRepo.CreateTender (faults.drop 2) db u t req.Name req.Description
        req.ServiceType req.OrganizationId user.Id = (.error e, db) := by
      rcases CreateTender_cases (faults.drop 2) db u t req.Name req.Description
        req.ServiceType req.OrganizationId user.Id with ⟨e1, he⟩ | ⟨_, he⟩
      · rw [he] at hrepo
        cases hrepo
        exact he
      · rw [he] at hrepo
        cases hrepo
    have hsvc : TenderService.CreateTender faults db u t req.Name req.Description
        req.ServiceType req.OrganizationId req.CreatorUsername =
        (.error (.new "tender creation failed, check fields"), db) := by
      unfold TenderService.CreateTender
      simp only [hu, ho, hne, Bool.false_eq_true, if_false, hany, Bool.not_true, hrun]
    unfold CreateTenderHandler
    simp only [hval, Bool.not_true, Bool.false_eq_true, if_false, hsvc]
    rfl
  · intro e faults db u t req hval
    unfold CreateTenderHandler
    simp only [hval, Bool.not_true, Bool.false_eq_true, if_false]

/-- C25 (amended) at the example state: the duplicate name `road` gives 400, a
failed `NewService` gives 500. -/
theorem store_failure_status_witness :
    (CreateTenderHandler (.ok ()) [] exDb 70 900
      ⟨"road", "again", "Construction", 1, "ann"⟩).1.status = 400 ∧
    (CreateTenderHandler (.error .sqlDriver) [] exDb 70 900
      ⟨"road", "again", "Construction", 1, "ann"⟩).1.status = 500 :=
  ⟨congrArg (fun x => x.1.status)
      (store_failure_status.1 [] exDb 70 900 ⟨"road", "again", "Construction", 1, "ann"⟩
        ⟨11, "ann", "Ann", "A"⟩ [⟨1, "org one", "", "LLC"⟩] .sqlConstraint (by decide) rfl rfl
        (by decide) rfl),
   congrArg (fun x => x.1.status)
      (store_failure_status.2.2.1 .sqlDriver [] exDb 70 900
        ⟨"road", "again", "Construction", 1, "ann"⟩ (by decide))⟩


/-! ## The creation time -/

/-- The generic step: rows rewritten by a function that keeps key and creation
time, and the snapshot of the live row appended to the history. -/
theorem createdAt_mutate {ρ η : Type} (key : ρ → UUID) (cr : ρ → Time) (hkey : η → UUID)
    (hcr : η → Time) (live : List ρ) (hist : List η) (id : UUID) (r0 : ρ) (f : ρ → ρ)
    (snap : η)
    (hinv : ∀ h ∈ hist, ∃ r, live.find? (fun x => key x == hkey h) = some r ∧ cr r = hcr h)
    (hsel : live.find? (fun x => key x == id) = some r0)
    (hf : ∀ x, key (f x) = key x) (hfc : ∀ x, cr (f x) = cr x)
    (hsk : hkey snap = id) (hsc : hcr snap = cr r0) :
    ∀ h ∈ hist ++ [snap],
      ∃ r, (live.map (fun x => if key x == id then f x else x)).find?
        (fun x => key x == hkey h) = some r ∧ cr r = hcr h := by
  intro h hh
  rw [List.mem_append] at hh
  have hat : ∀ j : UUID, ∀ r, live.find? (fun x => key x == j) = some r →
      ∃ r1, (live.map (fun x => if key x == id then f x else x)).find?
        (fun x => key x == j) = some r1 ∧ cr r1 = cr r := by
    intro j r hr
    by_cases hj : j = id
    · subst hj
      rw [find?_map_upd key f hf j live, hr]
      exact ⟨f r, rfl, hfc r⟩
    · rw [find?_map_upd_ne key f hf id j hj live, hr]
      exact ⟨r, rfl, rfl⟩
  rcases hh with hh | hh
  · obtain ⟨r, hr, hc⟩ := hinv h hh
    obtain ⟨r1, hr1, hc1⟩ := hat _ r hr
    exact ⟨r1, hr1, hc1.trans hc⟩
  · simp only [List.mem_singleton] at hh
    subst hh
    rw [hsk]
    obtain ⟨r1, hr1, hc1⟩ := hat id r0 hsel
    exact ⟨r1, hr1, hc1.trans hsc.symm⟩

theorem map_upd_pairs {ρ : Type} (key : ρ → UUID) (cr : ρ → Time) (f : ρ → ρ) (id : UUID)
    (hf : ∀ x, key (f x) = key x) (hfc : ∀ x, cr (f x) = cr x) (l : List ρ) :
    (l.map (fun x => if key x == id then f x else x)).map (fun r => (key r, cr r)) =
      l.map (fun r => (key r, cr r)) := by
  rw [List.map_map]
  apply List.map_congr_left
  intro r _
  simp only [Function.comp]
  split
  · rw [hf, hfc]
  · rfl

/-- A versioned write of a tender keeps every stored creation time and the invariant. -/
theorem tenderWrite_createdAt {db db1 : DB} {id : UUID} {ret : Tender}
    (hw : TenderWrite db db1 id ret) (hinv : CreatedAtInv db) :
    createdAts db1 = createdAts db ∧ CreatedAtInv db1 := by
  obtain ⟨live, f, hsel, _, hf, _, _, _, hdb⟩ := hw
  have hid := tender_select_id hsel
  subst hdb
  refine ⟨?_, ?_, hinv.2⟩
  · unfold createdAts
    dsimp only
    rw [map_upd_pairs (fun r : TenderRow => r.Id) (fun r => r.CreatedAt) f id
      (fun x => (hf x).1) (fun x => (hf x).2.1) db.tender]
  · exact createdAt_mutate (fun r : TenderRow => r.Id) (fun r => r.CreatedAt)
      (fun h : Tender => h.Id) (fun h => h.CreatedAt) db.tender db.tender_history id live f
      live.toTender hinv.1 hsel (fun x => (hf x).1) (fun x => (hf x).2.1) hid rfl

/-- A versioned write of a bid keeps every stored creation time and the
invariant, and the bid returned carries the creation time of the live row. -/
theorem bidWrite_createdAt {db db1 : DB} {id : UUID} {ret : Bid}
    (hw : BidWrite db db1 id ret) (hinv : CreatedAtInv db) :
    createdAts db1 = createdAts db ∧ CreatedAtInv db1 ∧
      ∃ live, bid_select db id = some live ∧ ret.CreatedAt = live.CreatedAt := by
  obtain ⟨live, f, hsel, _, hf, hret, _, _, hdb⟩ := hw
  have hid := bid_select_id hsel
  subst hdb
  refine ⟨?_, ⟨hinv.1, ?_⟩, live, hsel, ?_⟩
  · unfold createdAts
    dsimp only
    rw [map_upd_pairs (fun r : BidRow => r.Id) (fun r => r.CreatedAt) f id
      (fun x => (hf x).1) (fun x => (hf x).2.1) db.bid]
  · exact createdAt_mutate (fun r : BidRow => r.Id) (fun r => r.CreatedAt)
      (fun h : Bid => h.Id) (fun h => h.CreatedAt) db.bid db.bid_history id live f
      live.toBid hinv.2 hsel (fun x => (hf x).1) (fun x => (hf x).2.1) hid rfl
  · rw [← hret]
    exact (hf live).2.1

theorem TenderService_RollBackTender_repo {db db1 : DB} {id : UUID} {v : Int} {ret : Tender}
    (h : TenderService.RollBackTender [] db id v = (.ok ret, db1)) :
    TenderRepo.RollBackTender [] db id v = (.ok ret, db1) := by
  unfold TenderService.RollBackTender at h
  split at h
  · cases h
  · rename_i t ht
    obtain ⟨live, hlive, rfl⟩ := GetTenderById_ok ht
    have hid := tender_select_id hlive
    simp only [List.drop_nil, hid] at h
    split at h
    · cases h
    · rename_i ret1 db2 hrun
      cases h
      exact hrun

/-- The tender returned by a rollback carries the creation time of the live row. -/
theorem RollBackTender_createdAt {db db1 : DB} {id : UUID} {v : Int} {ret : Tender}
    (h : TenderRepo.RollBackTender [] db id v = (.ok ret, db1)) (hinv : CreatedAtInv db) :
    ∃ live, tender_select db id = some live ∧ ret.CreatedAt = live.CreatedAt := by
  obtain ⟨live, old, hlive, _, hfind, hret, _⟩ := RollBackTender_ok h
  refine ⟨live, hlive, ?_⟩
  have hmem := List.mem_of_find?_eq_some hfind
  have hp := List.find?_some hfind
  simp only [Bool.and_eq_true, beq_iff_eq] at hp
  rw [hret]
  show old.CreatedAt = live.CreatedAt
  rw [List.mem_append] at hmem
  rcases hmem with hm | hm
  · obtain ⟨r, hr, hc⟩ := hinv.1 old hm
    rw [hp.1, hlive] at hr
    cases hr
    exact hc.symm
  · simp only [List.mem_singleton] at hm
    rw [hm]

theorem createdAtInv_append_tender {db : DB} (row : TenderRow) (hinv : CreatedAtInv db) :
    CreatedAtInv { db with tender := db.tender ++ [row] } := by
  refine ⟨?_, hinv.2⟩
  intro h hh
  obtain ⟨r, hr, hc⟩ := hinv.1 h hh
  refine ⟨r, ?_, hc⟩
  unfold tender_select at hr ⊢
  show (db.tender ++ [row]).find? _ = some r
  rw [List.find?_append, hr]
  rfl

theorem createdAtInv_append_bid {db : DB} (row : BidRow) (hinv : CreatedAtInv db) :
    CreatedAtInv { db with bid := db.bid ++ [row] } := by
  refine ⟨hinv.1, ?_⟩
  intro h hh
  obtain ⟨r, hr, hc⟩ := hinv.2 h hh
  refine ⟨r, ?_, hc⟩
  unfold bid_select at hr ⊢
  show (db.bid ++ [row]).find? _ = some r
  rw [List.find?_append, hr]
  rfl

theorem CreateBid_shape {db db1 : DB} {u : UUID} {t : Time} {n d : String} {tid : UUID}
    {aty : String} {aid : UUID} {ret : Bid}
    (h : BidRepo.CreateBid [] db u t n d tid aty aid = (.ok ret, db1)) :
    ∃ row : BidRow, db1 = { db with bid := db.bid ++ [row] } := by
  unfold BidRepo.CreateBid at h
  simp only [fault_nil, Bool.false_eq_true, if_false] at h
  split at h
  · cases h
  · rename_i db2 hins
    cases h
    unfold bid_insert at hins
    repeat' split at hins
    all_goals (cases hins <;> exact ⟨_, rfl⟩)

theorem TenderOp_run_createdAt {db db1 : DB} {op : TenderOp} {ret : Tender}
    (h : op.run db = (.ok ret, db1)) (hinv : CreatedAtInv db) : CreatedAtInv db1 := by
  cases op with
  | create u t n d s o usr =>
    rcases CreateTender_cases [] db u t n d s o usr with ⟨e, he⟩ | ⟨_, he⟩
    · rw [show TenderOp.run db (.create u t n d s o usr) =
        TenderRepo.CreateTender [] db u t n d s o usr from rfl, he] at h
      cases h
    · rw [show TenderOp.run db (.create u t n d s o usr) =
        TenderRepo.CreateTender [] db u t n d s o usr from rfl, he] at h
      cases h
      exact createdAtInv_append_tender _ hinv
  | edit id n d s => exact (tenderWrite_createdAt (TenderService_UpdateTender_ok h).1 hinv).2
  | status id st => exact (tenderWrite_createdAt (UpdateTenderStatus_ok h).1 hinv).2
  | rollback id v => exact (tenderWrite_createdAt (TenderService_RollBackTender_ok h) hinv).2

theorem BidOp_run_createdAt {db db1 : DB} {op : BidOp} {ret : Bid}
    (h : op.run db = (.ok ret, db1)) (hinv : CreatedAtInv db) : CreatedAtInv db1 := by
  cases op with
  | create u t n d tid aty aid =>
    obtain ⟨row, hdb⟩ := CreateBid_shape h
    rw [hdb]
    exact createdAtInv_append_bid _ hinv
  | edit id n d =>
    obtain ⟨_, _, hrun⟩ := BidService_EditBidById_ok h
    exact (bidWrite_createdAt (EditBidById_ok hrun).1 hinv).2.1
  | status id st =>
    exact (bidWrite_createdAt
      (UpdateBidStatusById_ok (BidService_UpdateBidStatusById_ok h)).1 hinv).2.1
  | rollback id v =>
    exact (bidWrite_createdAt (RollbackById_write (BidService_RollbackById_ok h)) hinv).2.1

theorem runTenderOps_createdAt (ops : List TenderOp) :
    ∀ (db db1 : DB), CreatedAtInv db → runTenderOps db ops = some db1 → CreatedAtInv db1 := by
  induction ops with
  | nil =>
    intro db db1 hinv hrun
    simp only [runTenderOps, Option.some.injEq] at hrun
    subst hrun
    exact hinv
  | cons op ops ih =>
    intro db db1 hinv hrun
    simp only [runTenderOps] at hrun
    split at hrun
    · rename_i ret db2 hop
      exact ih db2 db1 (TenderOp_run_createdAt hop hinv) hrun
    · cases hrun

theorem runBidOps_createdAt (ops : List BidOp) :
    ∀ (db db1 : DB), CreatedAtInv db → runBidOps db ops = some db1 → CreatedAtInv db1 := by
  induction ops with
  | nil =>
    intro db db1 hinv hrun
    simp only [runBidOps, Option.some.injEq] at hrun
    subst hrun
    exact hinv
  | cons op ops ih =>
    intro db db1 hinv hrun
    simp only [runBidOps] at hrun
    split at hrun
    · rename_i ret db2 hop
      exact ih db2 db1 (BidOp_run_createdAt hop hinv) hrun
    · cases hrun

/-- C26 (the creation time is constant across versions).  `CreatedAtInv` says
that every history record belongs to a live row and carries its creation time;
it holds when the histories are empty and is kept by every sequence of
successful creations, edits, status updates and rollbacks.  In a state with
the invariant, on a healthy connection, every `TenderService.UpdateTender`,
`UpdateTenderStatus` and `RollBackTender` and every `BidService.EditBidById`,
`UpdateBidStatusById` and `RollbackById` that returns without error leaves the
stored `created_at` of every tender and bid as it was, returns an entity that
carries the `created_at` of the live row, and keeps the invariant (the record
just archived included). -/
theorem created_at_constant :
    (∀ (db db1 : DB) (id : UUID) (n d s : String) (ret : Tender),
      CreatedAtInv db → TenderService.UpdateTender [] db id n d s = (.ok ret, db1) →
      createdAts db1 = createdAts db ∧ CreatedAtInv db1 ∧
        ∃ live, tender_select db id = some live ∧ ret.CreatedAt = live.CreatedAt) ∧
    (∀ (db db1 : DB) (id : UUID) (status : String) (ret : Tender),
      CreatedAtInv db → TenderService.UpdateTenderStatus [] db id status = (.ok ret, db1) →
      createdAts db1 = createdAts db ∧ CreatedAtInv db1 ∧
        ∃ live, tender_select db id = some live ∧ ret.CreatedAt = live.CreatedAt) ∧
    (∀ (db db1 : DB) (id : UUID) (version : Int) (ret : Tender),
      CreatedAtInv db → TenderService.RollBackTender [] db id version = (.ok ret, db1) →
      createdAts db1 = createdAts db ∧ CreatedAtInv db1 ∧
        ∃ live, tender_select db id = some live ∧ ret.CreatedAt = live.CreatedAt) ∧
    (∀ (db db1 : DB) (id : UUID) (n d : String) (ret : Bid),
      CreatedAtInv db → BidService.EditBidById [] db id n d = (.ok ret, db1) →
      createdAts db1 = createdAts db ∧ CreatedAtInv db1 ∧
        ∃ live, bid_select db id = some live ∧ ret.CreatedAt = live.CreatedAt) ∧
    (∀ (db db1 : DB) (id : UUID) (status : String) (ret : Bid),
      CreatedAtInv db → BidService.UpdateBidStatusById [] db id status = (.ok ret, db1) →
      createdAts db1 = createdAts db ∧ CreatedAtInv db1 ∧
        ∃ live, bid_select db id = some live ∧ ret.CreatedAt = live.CreatedAt) ∧
    (∀ (db db1 : DB) (id : UUID) (version : Int) (ret : Bid),
      CreatedAtInv db → BidService.RollbackById [] db id version = (.ok ret, db1) →
      createdAts db1 = createdAts db ∧ CreatedAtInv db1 ∧
        ∃ live, bid_select db id = some live ∧ ret.CreatedAt = live.CreatedAt) ∧
    (∀ db : DB, db.tender_history = [] → db.bid_history = [] → CreatedAtInv db) ∧
    (∀ (ops : List TenderOp) (db db1 : DB),
      CreatedAtInv db → runTenderOps db ops = some db1 → CreatedAtInv db1) ∧
    (∀ (ops : List BidOp) (db db1 : DB),
      CreatedAtInv db → runBidOps db ops = some db1 → CreatedAtInv db1) := by
  refine ⟨?_, ?_, ?_, ?_, ?_, ?_, ?_, runTenderOps_createdAt, runBidOps_createdAt⟩
  · intro db db1 id n d s ret hinv h
    obtain ⟨hw, live, hlive, hret⟩ := TenderService_UpdateTender_ok h
    obtain ⟨h1, h2⟩ := tenderWrite_createdAt hw hinv
    exact ⟨h1, h2, live, hlive, by rw [hret]⟩
  · intro db db1 id status ret hinv h
    obtain ⟨hw, live, hlive, hret⟩ := UpdateTenderStatus_ok h
    obtain ⟨h1, h2⟩ := tenderWrite_createdAt hw hinv
    exact ⟨h1, h2, live, hlive, by rw [hret]⟩
  · intro db db1 id version ret hinv h
    obtain ⟨h1, h2⟩ := tenderWrite_createdAt (TenderService_RollBackTender_ok h) hinv
    exact ⟨h1, h2, RollBackTender_createdAt (TenderService_RollBackTender_repo h) hinv⟩
  · intro db db1 id n d ret hinv h
    obtain ⟨_, _, hrun⟩ := BidService_EditBidById_ok h
    exact bidWrite_createdAt (EditBidById_ok hrun).1 hinv
  · intro db db1 id status ret hinv h
    exact bidWrite_createdAt
      (UpdateBidStatusById_ok (BidService_UpdateBidStatusById_ok h)).1 hinv
  · intro db db1 id version ret hinv h
    exact bidWrite_createdAt (RollbackById_write (BidService_RollbackById_ok h)) hinv
  · intro db ht hb
    refine ⟨?_, ?_⟩
    · rw [ht]
      intro h hh
      cases hh
    · rw [hb]
      intro h hh
      cases hh

/-- C26 at the example states: the state reached by `exTenderOps` from empty
tables has the invariant; tender 7 (created at time 100, now at version 3) is
rolled back to version 2, and bid 9 of `exDbB` (created at time 200) is rolled
back to version 1: the entities returned carry 100 and 200 and the stored
creation times are as before. -/
theorem created_at_constant_witness :
    CreatedAtInv exDbT ∧
    (createdAts (TenderService.RollBackTender [] exDbT 7 2).2 = createdAts exDbT ∧
      ∃ live, tender_select exDbT 7 = some live ∧ (100 : Time) = live.CreatedAt) ∧
    (createdAts (BidService.RollbackById [] exDbB 9 1).2 = createdAts exDbB ∧
      ∃ live, bid_select exDbB 9 = some live ∧ (200 : Time) = live.CreatedAt) := by
  have h0 : CreatedAtInv exDb0 := created_at_constant.2.2.2.2.2.2.1 exDb0 rfl rfl
  have h1 : CreatedAtInv exDb1 := ⟨fun h hh => by
    have : h = { Id := 7, Name := "road", Description := "old text",
                 ServiceType := "Construction", Status := "Created",
                 OrganizationId := 1, Version := 1, CreatedAt := 100 } := by
      simpa [exDb1, exDb] using hh
    subst this
    exact ⟨_, rfl, rfl⟩, fun h hh => by cases hh⟩
  have hT : CreatedAtInv exDbT :=
    created_at_constant.2.2.2.2.2.2.2.1 exTenderOps exDb0 exDbT h0 rfl
  have hB : CreatedAtInv exDbB :=
    created_at_constant.2.2.2.2.2.2.2.2 exBidOps exDb1 exDbB h1 rfl
  have hr := created_at_constant.2.2.1 exDbT (TenderService.RollBackTender [] exDbT 7 2).2 7 2
    { Id := 7, Name := "road", Description := "new text", ServiceType := "Construction",
      Status := "Created", OrganizationId := 1, Version := 4, CreatedAt := 100 } hT rfl
  have hb := created_at_constant.2.2.2.2.2.1 exDbB (BidService.RollbackById [] exDbB 9 1).2 9 1
    { Id := 9, Name := "offer", Description := "first", Status := "Created", TenderId := 7,
      AuthorType := "User", AuthorId := 11, Version := 4, CreatedAt := 200 } hB rfl
  exact ⟨hT, ⟨hr.1, hr.2.2⟩, ⟨hb.1, hb.2.2⟩⟩


/-! ## Closing a tender by quorum -/

theorem tender_close_butStatus (db : DB) (id : UUID) :
    tenderButStatus (tender_close db id) = tenderButStatus db ∧
    (tender_close db id).tender_history = db.tender_history := by
  refine ⟨?_, rfl⟩
  unfold tenderButStatus tender_close
  simp only [List.map_map]
  apply List.map_congr_left
  intro r _
  simp only [Function.comp]
  split <;> rfl

/-- Whatever a decision call does, only the column `status` of `tender` can
differ afterwards, and `tender_history` is as it was. -/
theorem SubmitDecisionById_tender_frame (faults : List Bool) (db : DB) (id : UUID)
    (decision : String) :
    tenderButStatus (BidService.SubmitDecisionById faults db id decision).2 =
      tenderButStatus db ∧
    (BidService.SubmitDecisionById faults db id decision).2.tender_history =
      db.tender_history := by
  rcases SubmitDecisionById_cases faults db id decision with ⟨e, he⟩ |
    ⟨row, orgId, usersId, _, _, _, _, _, hdec⟩
  · rw [he]
    exact ⟨rfl, rfl⟩
  · rcases hdec with ⟨_, h | h⟩ | ⟨_, h⟩
    · rw [h]
      exact ⟨rfl, rfl⟩
    · rw [h]
      show tenderButStatus (if _ then _ else _) = _ ∧ DB.tender_history (if _ then _ else _) = _
      split
      · exact ⟨(tender_close_butStatus _ _).1, rfl⟩
      · exact ⟨rfl, rfl⟩
    · rw [h]
      exact ⟨rfl, rfl⟩

/-- C28 (closing a tender by quorum bypasses versioning).  (1) Every call of
`BidService.SubmitDecisionById`, on any connection and whatever it returns,
leaves every column of every tender other than `status` (the version
included) and the table `tender_history` as they were.  (2) On a healthy
connection, an accepted `Approved` decision that reaches the quorum
(`approves + 1 >= min(3, n)`) leaves the parent tender `t` as the same row
with status `Closed`, at the version it had, and no history record is
written: the lookup of the record keyed by the tender and that version gives
what it gave before the call. -/
theorem close_by_quorum_bypasses_versioning :
    (∀ (faults : List Bool) (db : DB) (id : UUID) (decision : String),
      tenderButStatus (BidService.SubmitDecisionById faults db id decision).2 =
        tenderButStatus db ∧
      (BidService.SubmitDecisionById faults db id decision).2.tender_history =
        db.tender_history) ∧
    (∀ (db db1 : DB) (id : UUID) (row : BidRow) (ret : Bid) (orgId : UUID)
      (usersId : List UUID) (t : TenderRow),
      bid_select db id = some row →
      (BidService.SubmitDecisionById.orgId [] db row.toBid).1 = .ok orgId →
      OrganizationRepo.GetResponsibleUsersId [] db orgId = .ok usersId →
      row.approves + 1 ≥ min 3 (usersId.length : Int) →
      tender_select db row.TenderId = some t →
      BidService.SubmitDecisionById [] db id "Approved" = (.ok ret, db1) →
      tender_select db1 row.TenderId = some { t with Status := "Closed" } ∧
        db1.tender_history = db.tender_history ∧
        tender_history_select db1 row.TenderId t.Version =
          tender_history_select db row.TenderId t.Version) := by
  refine ⟨SubmitDecisionById_tender_frame, ?_⟩
  intro db db1 id row ret orgId usersId t hrow horg hus hq ht hrun
  have hstep := SubmitDecisionById_eq hrow (Or.inl rfl) horg hus
  rw [hrun] at hstep
  have hdb : db1 = tender_close (setApproves db id (row.approves + 1)) row.TenderId := by
    split at hstep
    · cases hstep
    · split at hstep
      · cases hstep
      · simp only [if_true] at hstep
        split at hstep
        · simp only [Prod.mk.injEq, Except.ok.injEq] at hstep
          exact hstep.2
        · cases hstep
  subst hdb
  exact ⟨tender_select_close_setApproves ht, rfl, rfl⟩

/-- C28 at the example state: bid 9 has one approval and the quorum is 2; the
second approval closes tender 7, which stays at version 2 with the same
history. -/
theorem close_by_quorum_bypasses_versioning_witness :
    (tender_select exDbOne 7).map (fun t => (t.Status, t.Version)) = some ("Published", 2) ∧
    (tender_select (BidService.SubmitDecisionById [] exDbOne 9 "Approved").2 7).map
      (fun t => (t.Status, t.Version)) = some ("Closed", 2) ∧
    (BidService.SubmitDecisionById [] exDbOne 9 "Approved").2.tender_history =
      exDbOne.tender_history :=
  have h := close_by_quorum_bypasses_versioning.2 exDbOne
    (BidService.SubmitDecisionById [] exDbOne 9 "Approved").2 9
    { Id := 9, Name := "offer", Description := "second", Status := "Published",
      TenderId := 7, AuthorType := "User", AuthorId := 11, Version := 2,
      CreatedAt := 200, rejects := 0, approves := 1 }
    { Id := 9, Name := "offer", Description := "second", Status := "Published",
      TenderId := 7, AuthorType := "User", AuthorId := 11, Version := 2, CreatedAt := 200 }
    1 [11, 12]
    { Id := 7, Name := "road", Description := "new text", ServiceType := "Construction",
      Status := "Published", OrganizationId := 1, Version := 2, CreatedAt := 100,
      user_id := 11 }
    rfl rfl rfl (by decide) rfl rfl
  ⟨rfl, (congrArg (Option.map (fun t : TenderRow => (t.Status, t.Version))) h.1).trans rfl,
    h.2.1⟩


/-! ## Bounds of the decision counters -/

/-- One decision call, on any connection, keeps the membership tables and the
attributes of the bid, keeps `rejects` in `{0, 1}` and `approves` at most one
above the quorum of the deciding organization. -/
theorem decision_call_bounds {db d : DB} {id : UUID} {row0 : BidRow} (faults : List Bool)
    (decision : String)
    (hm : d.organization_responsible = db.organization_responsible)
    (ho : d.organization = db.organization)
    (hinv : ∃ row, bid_select d id = some row ∧ row.toBid = row0.toBid ∧
      0 ≤ row.rejects ∧ row.rejects ≤ 1 ∧ 0 ≤ row.approves ∧
      ∀ o usersId, (BidService.SubmitDecisionById.orgId [] db row0.toBid).1 = .ok o →
        OrganizationRepo.GetResponsibleUsersId [] db o = .ok usersId →
        row.approves ≤ min 3 (usersId.length : Int) + 1) :
    (BidService.SubmitDecisionById faults d id decision).2.organization_responsible =
      db.organization_responsible ∧
    (BidService.SubmitDecisionById faults d id decision).2.organization = db.organization ∧
    ∃ row, bid_select (BidService.SubmitDecisionById faults d id decision).2 id = some row ∧
      row.toBid = row0.toBid ∧ 0 ≤ row.rejects ∧ row.rejects ≤ 1 ∧ 0 ≤ row.approves ∧
      ∀ o usersId, (BidService.SubmitDecisionById.orgId [] db row0.toBid).1 = .ok o →
        OrganizationRepo.GetResponsibleUsersId [] db o = .ok usersId →
        row.approves ≤ min 3 (usersId.length : Int) + 1 := by
  obtain ⟨row, hrow, hbid, hr0, hr1, ha0, hab⟩ := hinv
  rcases SubmitDecisionById_cases faults d id decision with ⟨e, he⟩ |
    ⟨row', orgId, usersId, hrow', horg, hus, hnr, hna, hdec⟩
  · rw [he]
    exact ⟨hm, ho, row, hrow, hbid, hr0, hr1, ha0, hab⟩
  · rw [hrow] at hrow'
    cases hrow'
    have horg0 : (BidService.SubmitDecisionById.orgId [] db row0.toBid).1 = .ok orgId := by
      rw [← hbid, ← orgId_congr hm ho]
      exact horg
    have hus0 : OrganizationRepo.GetResponsibleUsersId [] db orgId = .ok usersId := by
      rw [← GetResponsibleUsersId_congr hm]
      exact hus
    have hq : ∀ o us, (BidService.SubmitDecisionById.orgId [] db row0.toBid).1 = .ok o →
        OrganizationRepo.GetResponsibleUsersId [] db o = .ok us →
        row.approves + 1 ≤ min 3 (us.length : Int) + 1 := by
      intro o us h1 h2
      rw [horg0] at h1
      cases h1
      rw [hus0] at h2
      cases h2
      omega
    rcases hdec with ⟨_, h | h⟩ | ⟨_, h⟩
    · rw [h]
      exact ⟨hm, ho, row, hrow, hbid, hr0, hr1, ha0, hab⟩
    · rw [h]
      have hsel : bid_select (if row.approves + 1 ≥ min 3 (usersId.length : Int) then
            tender_close (setApproves d id (row.approves + 1)) row.TenderId
          else setApproves d id (row.approves + 1)) id =
          some { row with approves := row.approves + 1 } := by
        split
        · exact bid_select_setApproves (row.approves + 1) hrow
        · exact bid_select_setApproves (row.approves + 1) hrow
      refine ⟨?_, ?_, _, hsel, hbid, hr0, hr1, ?_, hq⟩
      · show DB.organization_responsible (if _ then _ else _) = _
        split <;> exact hm
      · show DB.organization (if _ then _ else _) = _
        split <;> exact ho
      · show 0 ≤ row.approves + 1
        omega
    · rw [h]
      refine ⟨hm, ho, _, bid_select_setRejects (row.rejects + 1) hrow, hbid, ?_, ?_, ha0, hab⟩
      · show 0 ≤ row.rejects + 1
        omega
      · show row.rejects + 1 ≤ 1
        omega

theorem runDecisionCalls_bounds {db : DB} {id : UUID} {row0 : BidRow}
    (calls : List (List Bool × String)) :
    ∀ d : DB, d.organization_responsible = db.organization_responsible →
      d.organization = db.organization →
      (∃ row, bid_select d id = some row ∧ row.toBid = row0.toBid ∧
        0 ≤ row.rejects ∧ row.rejects ≤ 1 ∧ 0 ≤ row.approves ∧
        ∀ o usersId, (BidService.SubmitDecisionById.orgId [] db row0.toBid).1 = .ok o →
          OrganizationRepo.GetResponsibleUsersId [] db o = .ok usersId →
          row.approves ≤ min 3 (usersId.length : Int) + 1) →
      (runDecisionCalls d id calls).organization_responsible = db.organization_responsible ∧
      (runDecisionCalls d id calls).organization = db.organization ∧
      ∃ row, bid_select (runDecisionCalls d id calls) id = some row ∧
        row.toBid = row0.toBid ∧ 0 ≤ row.rejects ∧ row.rejects ≤ 1 ∧ 0 ≤ row.approves ∧
        ∀ o usersId, (BidService.SubmitDecisionById.orgId [] db row0.toBid).1 = .ok o →
          OrganizationRepo.GetResponsibleUsersId [] db o = .ok usersId →
          row.approves ≤ min 3 (usersId.length : Int) + 1 := by
  induction calls with
  | nil =>
    intro d hm ho hinv
    exact ⟨hm, ho, hinv⟩
  | cons c calls ih =>
    intro d hm ho hinv
    obtain ⟨faults, decision⟩ := c
    obtain ⟨hm1, ho1, hinv1⟩ := decision_call_bounds faults decision hm ho hinv
    exact ih _ hm1 ho1 hinv1

/-- C29 (counter bounds).  For a bid with `approves = 0` and `rejects = 0` and any
list of `BidService.SubmitDecisionById` calls for it, run one after another,
each on any connection and with any decision text: in the state reached the
bid has its attributes and version as before, `rejects` is 0 or 1, `approves`
is not negative and, when the deciding organization of the bid resolves to
`o` with the responsible users `usersId`, at most `min(3, n) + 1` for their
number `n`; the calls leave the membership tables as they were, so `o` and
`usersId` are the same at every call. -/
theorem counter_bounds (db : DB) (id : UUID) (row : BidRow)
    (calls : List (List Bool × String))
    (hrow : bid_select db id = some row) (ha : row.approves = 0) (hr : row.rejects = 0) :
    (runDecisionCalls db id calls).organization_responsible = db.organization_responsible ∧
    (runDecisionCalls db id calls).organization = db.organization ∧
    ∃ row1, bid_select (runDecisionCalls db id calls) id = some row1 ∧
      row1.toBid = row.toBid ∧ (row1.rejects = 0 ∨ row1.rejects = 1) ∧ 0 ≤ row1.approves ∧
      ∀ o usersId, (BidService.SubmitDecisionById.orgId [] db row.toBid).1 = .ok o →
        OrganizationRepo.GetResponsibleUsersId [] db o = .ok usersId →
        row1.approves ≤ min 3 (usersId.length : Int) + 1 := by
  obtain ⟨hm, ho, row1, h1, h2, h3, h4, h5, h6⟩ :=
    @runDecisionCalls_bounds db id row calls db rfl rfl
      ⟨row, hrow, rfl, by omega, by omega, by omega, fun o usersId _ _ => by omega⟩
  exact ⟨hm, ho, row1, h1, h2, by omega, h5, h6⟩

/-- C29 at the example state: bid 9 is fresh, its deciding organization 1 has two
responsible users (quorum 2); after four approvals and a rejection, the last
but one on a connection that fails at once, the counters are within the
bounds, and `approves` is 3, the quorum plus one. -/
theorem counter_bounds_witness :
    (∃ row1, bid_select (runDecisionCalls exDbQ 9
        [([], "Approved"), ([], "Approved"), ([], "Approved"), ([true], "Approved"),
         ([], "Rejected")]) 9 = some row1 ∧
      (row1.rejects = 0 ∨ row1.rejects = 1) ∧ row1.approves ≤ 3) ∧
    (bid_select (runDecisionCalls exDbQ 9
        [([], "Approved"), ([], "Approved"), ([], "Approved"), ([true], "Approved"),
         ([], "Rejected")]) 9).map (fun r => (r.approves, r.rejects)) = some (3, 0) := by
  obtain ⟨_, _, row1, h1, _, h3, _, h5⟩ := counter_bounds exDbQ 9
    { Id := 9, Name := "offer", Description := "second", Status := "Published",
      TenderId := 7, AuthorType := "User", AuthorId := 11, Version := 2,
      CreatedAt := 200, rejects := 0, approves := 0 }
    [([], "Approved"), ([], "Approved"), ([], "Approved"), ([true], "Approved"),
     ([], "Rejected")] rfl rfl rfl
  exact ⟨⟨row1, h1, h3, h5 1 [11, 12] rfl rfl⟩, rfl⟩


/-! ## A deciding organization without responsible users -/

theorem GetResponsibleUsersId_of_no_rows {db : DB} {o : UUID}
    (h : ∀ r ∈ db.organization_responsible, r.organization_id ≠ o) :
    OrganizationRepo.GetResponsibleUsersId [] db o = .ok [] := by
  unfold OrganizationRepo.GetResponsibleUsersId
  simp only [fault_nil, Bool.false_eq_true, if_false]
  have : db.organization_responsible.filter (fun r => r.organization_id == o) = [] := by
    rw [List.filter_eq_nil_iff]
    intro r hr
    simpa using h r hr
  rw [this]
  rfl

/-- C30 (empty deciding organization).  (1) For an organization id without rows
in `organization_responsible` the lookup of the responsible users returns the
empty list and no error.  (2) On a healthy connection, for a bid with
`approves = 0` and `rejects = 0` whose deciding organization resolves to `o`
with no responsible users, the quorum `min(3, 0)` is 0 and the first
`Approved` decision is accepted: the call returns the bid and not an error,
the stored counter is 1 and the parent tender is `Closed`. -/
theorem empty_organization_quorum_zero :
    (∀ (db : DB) (o : UUID),
      (∀ r ∈ db.organization_responsible, r.organization_id ≠ o) →
      OrganizationRepo.GetResponsibleUsersId [] db o = .ok []) ∧
    (∀ (db : DB) (id : UUID) (row : BidRow) (o : UUID) (usersId : List UUID),
      bid_select db id = some row → row.approves = 0 → row.rejects = 0 →
      (BidService.SubmitDecisionById.orgId [] db row.toBid).1 = .ok o →
      OrganizationRepo.GetResponsibleUsersId [] db o = .ok usersId → usersId = [] →
      min 3 (usersId.length : Int) = 0 ∧
        BidService.SubmitDecisionById [] db id "Approved" =
          (.ok row.toBid, tender_close (setApproves db id 1) row.TenderId) ∧
        bid_select (BidService.SubmitDecisionById [] db id "Approved").2 id =
          some { row with approves := 1 } ∧
        ∀ t, tender_select db row.TenderId = some t →
          tender_select (BidService.SubmitDecisionById [] db id "Approved").2 row.TenderId =
            some { t with Status := "Closed" }) := by
  refine ⟨fun db o h => GetResponsibleUsersId_of_no_rows h, ?_⟩
  intro db id row o usersId hrow ha hr horg hus hnil
  subst hnil
  have hstep := SubmitDecisionById_eq hrow (Or.inl rfl) horg hus
  have hrun : BidService.SubmitDecisionById [] db id "Approved" =
      (.ok row.toBid, tender_close (setApproves db id 1) row.TenderId) := by
    rw [hstep, ha, hr]
    rfl
  refine ⟨rfl, hrun, ?_, ?_⟩
  · rw [hrun]
    exact bid_select_setApproves 1 hrow
  · intro t ht
    rw [hrun]
    exact tender_select_close_setApproves ht

/-- C30 at the example state: organization 3 has no responsible user; the first
approval of its bid 15 is accepted and closes tender 7. -/
theorem empty_organization_quorum_zero_witness :
    OrganizationRepo.GetResponsibleUsersId [] exDbEmptyOrg 3 = .ok [] ∧
    (BidService.SubmitDecisionById [] exDbEmptyOrg 15 "Approved").1 =
      .ok { Id := 15, Name := "offer of org three", Description := "sand",
            Status := "Published", TenderId := 7, AuthorType := "Organization",
            AuthorId := 3, Version := 1, CreatedAt := 600 } ∧
    (tender_select (BidService.SubmitDecisionById [] exDbEmptyOrg 15 "Approved").2 7).map
      (fun t => t.Status) = some "Closed" :=
  have h := empty_organization_quorum_zero.2 exDbEmptyOrg 15
    { Id := 15, Name := "offer of org three", Description := "sand", Status := "Published",
      TenderId := 7, AuthorType := "Organization", AuthorId := 3, Version := 1,
      CreatedAt := 600, rejects := 0, approves := 0 } 3 [] rfl rfl rfl rfl rfl rfl
  ⟨empty_organization_quorum_zero.1 exDbEmptyOrg 3 (by decide),
   congrArg Prod.fst h.2.1,
   (congrArg (Option.map (fun t : TenderRow => t.Status))
     (h.2.2.2 { Id := 7, Name := "road", Description := "new text",
                ServiceType := "Construction", Status := "Published", OrganizationId := 1,
                Version := 2, CreatedAt := 100, user_id := 11 } rfl)).trans rfl⟩

end TenderAvi
